import Mathlib

/-
Verification of the Medit/Gamma mesh format codec (`src/meshio/medit/_medit.py`).

Shallow embedding conventions:
* A binary `.meshb` file is modelled at the decoded-field level as a
  `List BinWord`: each machine field (integer or float) of the byte stream is
  one word, annotated with its byte width.  Reading a field with a mismatched
  width gets the model stuck (the real reader would decode garbage); all
  streams considered by the theorems are width-consistent.
* An ASCII `.mesh` file is modelled at the token level as a `List Tok`:
  whitespace-separated tokens plus explicit newline markers.  Numeric tokens
  carry the exact numeric value as a rational; this models the fact that the
  writer's `%.16e` float format round-trips IEEE single- and double-precision
  values exactly, and that parsing a decimal numeral is exact on such values.
* numpy arrays are modelled as (lists of) lists; structured-dtype records are
  modelled as lists of fields.  Fatal Python exceptions (`ReadError`,
  `KeyError`, `ValueError`, `IndexError`) are modelled by `Except Err`.
-/

set_option linter.unusedVariables false

namespace Medit

/-- Registry entry payload: (other-direction name, nodes_per_element, numeric tag). -/
abbrev DictEntry := String × Nat × Int

/-- The literal registry table of `_medit.py`: meshio name to
(medit keyword, nodes_per_elements, tag).  Mirrors `DICT_MESHIO`. -/
def DICT_MESHIO : List (String × DictEntry) := [
  ("point", ("Vertices", 0, 4)),
  ("line", ("Edges", 2, 5)),
  ("line3", ("EdgesP2", 3, 25)),
  ("line4", ("EdgesP3", 4, 92)),
  ("line5", ("EdgesP4", 5, 93)),
  ("triangle", ("Triangles", 3, 6)),
  ("triangle6", ("TrianglesP2", 6, 24)),
  ("triangle10", ("TrianglesP3", 10, 90)),
  ("triangle15", ("TrianglesP4", 15, 91)),
  ("quad", ("Quadrilaterals", 4, 7)),
  ("quad9", ("QuadrilateralsQ2", 9, 27)),
  ("tetra", ("Tetrahedra", 4, 8)),
  ("tetra10", ("TetrahedraP2", 10, 30)),
  ("wedge", ("Prisms", 6, 9)),
  ("wedge18", ("PrismsP2", 18, 86)),
  ("pyramid", ("Pyramids", 5, 49)),
  ("hexahedron", ("Hexahedra", 8, 10)),
  ("hexahedron27", ("HexahedraQ2", 27, 33))]

/-- Medit keyword to (meshio name, nodes, tag); derived from `DICT_MESHIO` as in the
source, plus the appended Dobrzynski alternate spelling `Hexaedra`. -/
def DICT_MEDIT : List (String × DictEntry) :=
  DICT_MESHIO.map (fun p => (p.2.1, (p.1, p.2.2.1, p.2.2.2)))
    ++ [("Hexaedra", ("hexahedron", 8, 10))]

/-- GmfMedit keyword to (meshio name, nodes, tag); derived from `DICT_MESHIO` as in
the source, plus the appended `GmfHexaedra` alternate spelling. -/
def DICT_GMFMEDIT : List (String × DictEntry) :=
  DICT_MESHIO.map (fun p => ("Gmf" ++ p.2.1, (p.1, p.2.2.1, p.2.2.2)))
    ++ [("GmfHexaedra", ("hexahedron", 8, 10))]

/-- Modelled from the spec: the by-numeric-tag table `medit_codes` imported from
`_medit_internal.py`, which is not part of the sources given.  Per the spec
(section 4.1) a tag maps to `(medit_keyword, expects_count_prefix, record_template)`
where the flag is the string "i" for count-prefixed blocks, and the template is a
string over the alphabet i (index scalar), r (float scalar), d (dimension repeat
marker).  The table contains the dimension record (tag 3), the vertices record
(tag 4, template coordinates-plus-integer-tag), reserved entries, the
`GmfCorners` tag 13 recognized by the upstream table but deliberately unmapped in
`DICT_MESHIO` (see the commented-out entry in the source), the terminator
`GmfEnd` (tag 54, written by `write_binary_file`), and one entry per element
type, whose records are nodes_per_element indices plus one integer reference. -/
def medit_codes : List (Int × (String × String × String)) :=
  [(3, ("GmfDimension", "", "i")),
   (11, ("GmfReserved", "", "")),
   (13, ("GmfCorners", "i", "i")),
   (54, ("GmfEnd", "", ""))]
  ++ DICT_MESHIO.map (fun p =>
      (p.2.2.2, ("Gmf" ++ p.2.1, "i",
        if p.1 = "point" then "dri" else String.mk (List.replicate (p.2.2.1 + 1) 'i'))))

/-- Node-reordering permutation table, read direction.  Mirrors `_medit_to_meshio`. -/
def _medit_to_meshio : List (String × List Nat) :=
  [("hexahedron27", List.range 20 ++ [25, 23, 22, 24, 20, 21, 26])]

/-- Write-direction permutations, derived by `order.index(i)` as in the source.
Mirrors `_meshio_to_medit`. -/
def _meshio_to_medit : List (String × List Nat) :=
  _medit_to_meshio.map (fun p =>
    (p.1, (List.range p.2.length).map (fun i => p.2.indexOf i)))

/-- Row reordering `data[:, idx]`: entry j of the result is entry `idx j` of the row. -/
def applyPerm (idx : List Nat) (row : List Int) : List Int :=
  idx.map (fun i => row.getD i 0)

/-- Mirrors `_convert_cell_data`: permute the columns of a connectivity matrix when
the element type is listed in the permutation table, identity otherwise. -/
def _convert_cell_data (cell_type : String) (data : List (List Int))
    (dict_convert : List (String × List Nat)) : List (List Int) :=
  match List.lookup cell_type dict_convert with
  | some idx => data.map (applyPerm idx)
  | none => data

/-- Mirrors `_convert_cells`: apply `_convert_cell_data` to every accumulated block. -/
def _convert_cells (cells : List (String × List (List Int)))
    (dict_convert : List (String × List Nat)) : List (String × List (List Int)) :=
  cells.map (fun c => (c.1, _convert_cell_data c.1 c.2 dict_convert))

/-- Error type for fatal conditions: `readError` models `meshio.ReadError`, `pyError`
models other fatal Python exceptions (KeyError, ValueError, IndexError, numpy
failures), `outOfFuel` is the model artifact for loop fuel exhaustion (never
reached at the canonical fuel). -/
inductive Err where
  | readError (msg : String)
  | pyError (msg : String)
  | outOfFuel
deriving DecidableEq, Repr

/-- Mirrors `_produce_dtype`, recursing over the remaining characters of the
template string.  The source walks the string with an index `c`; the comma is
appended after an i/r field exactly when characters remain, and never after the
digits contributed by a d marker (the `continue` skips the comma logic). -/
def _produce_dtype_aux (dim : Nat) (itype ftype : String) : List Char → Except String String
  | [] => .ok ""
  | c :: rest =>
    if c = 'i' then
      (_produce_dtype_aux dim itype ftype rest).map
        (fun r => itype ++ (if rest.isEmpty then "" else ",") ++ r)
    else if c = 'r' then
      (_produce_dtype_aux dim itype ftype rest).map
        (fun r => ftype ++ (if rest.isEmpty then "" else ",") ++ r)
    else if c = 'd' then
      (_produce_dtype_aux dim itype ftype rest).map (fun r => toString dim ++ r)
    else .error "Invalid string type"

/-- Mirrors `_produce_dtype(string_type, dim, itype, ftype)`. -/
def _produce_dtype (string_type : String) (dim : Nat) (itype ftype : String) :
    Except String String :=
  _produce_dtype_aux dim itype ftype string_type.data

/-- Spec-side reading of a template: the list of concrete field strings, where each
i contributes the index type, each r the float type, and each d prefixes the
immediately following field with the dimension as a repeat count. -/
def dtypeFields (dim : Nat) (itype ftype : String) : List Char → Option (List String)
  | [] => some []
  | 'i' :: rest => (dtypeFields dim itype ftype rest).map (itype :: ·)
  | 'r' :: rest => (dtypeFields dim itype ftype rest).map (ftype :: ·)
  | 'd' :: c :: rest =>
    (dtypeFields dim itype ftype (c :: rest)).map
      (fun fs => match fs with
        | [] => []
        | f :: fs => (toString dim ++ f) :: fs)
  | _ => none

/-- Comma-separated join of a field list. -/
def commaJoin : List String → String
  | [] => ""
  | [f] => f
  | f :: fs => f ++ "," ++ commaJoin fs

/-! ## The in-memory mesh container (external collaborator, section 3 of the spec) -/

/-- One element block of the container: type name, connectivity rows (zero-based),
and the byte width of the numpy integer dtype the indices are stored in. -/
structure CellBlock where
  type : String
  data : List (List Int)
  itemsize : Nat
deriving DecidableEq, Repr, Inhabited

/-- The mesh container handed to the writers.  `prec` is the byte width of the
points dtype (4 for `c_float`, 8 for `c_double`).  `point_data` / `cell_data`
are the per-point / per-block integer attribute maps. -/
structure Mesh where
  points : List (List ℚ)
  prec : Nat
  cells : List CellBlock
  point_data : List (String × List Int)
  cell_data : List (String × List (List Int))
deriving DecidableEq, Repr

/-- The mesh container produced by the readers.  `points` and `point_ref` are
`none` when no vertices block was decoded (the Python code then passes `None`
and an empty `point_data` dict to `Mesh`). -/
structure MeshR where
  points : Option (List (List ℚ))
  cells : List (String × List (List Int))
  point_ref : Option (List Int)
  cell_ref : List (List Int)
deriving DecidableEq, Repr

/-- Modelled from the spec: `_pick_first_int_data` from `_common.py` (not among the
sources).  Per the spec (sections 4.4 and 4.7) it deterministically selects the
first integer attribute array and reports the remaining keys, so that the caller
can warn about them; all attribute maps of this development hold integer arrays. -/
def _pick_first_int_data {α : Type} (d : List (String × α)) : Option String × List String :=
  match d with
  | [] => (none, [])
  | (k, _) :: rest => (some k, rest.map (·.1))

/-! ## Binary codec -/

/-- One decoded machine field of a binary stream, annotated with its byte width. -/
inductive BinWord where
  | int (v : Int) (w : Nat)
  | flt (v : ℚ) (w : Nat)
deriving DecidableEq, Repr

/-- Read one integer field of byte width `w` (`np.fromfile(f, count=1, dtype)`). -/
def readIntW (w : Nat) : List BinWord → Option (Int × List BinWord)
  | .int v w2 :: ws => if w2 = w then some (v, ws) else none
  | _ => none

/-- Read one float field of byte width `w`. -/
def readFltW (w : Nat) : List BinWord → Option (ℚ × List BinWord)
  | .flt q w2 :: ws => if w2 = w then some (q, ws) else none
  | _ => none

/-- Field kinds of one record after template expansion. -/
inductive FKind | idx | flt
deriving DecidableEq, Repr

/-- Field values of one decoded record. -/
inductive FVal | i (v : Int) | r (q : ℚ)
deriving DecidableEq, Repr

/-- Expansion of a record template against the spatial dimension: the concrete
field-kind sequence of one record, as encoded by the numpy dtype string that
`_produce_dtype` builds (a d marker makes `dim` copies of the following field). -/
def expandTemplate (dim : Nat) : List Char → Option (List FKind)
  | [] => some []
  | 'i' :: rest => (expandTemplate dim rest).map (.idx :: ·)
  | 'r' :: rest => (expandTemplate dim rest).map (.flt :: ·)
  | 'd' :: 'i' :: rest => (expandTemplate dim rest).map (List.replicate dim .idx ++ ·)
  | 'd' :: 'r' :: rest => (expandTemplate dim rest).map (List.replicate dim .flt ++ ·)
  | _ => none

/-- Read the fields of one record. -/
def readFieldsW (iw fw : Nat) : List FKind → List BinWord → Option (List FVal × List BinWord)
  | [], ws => some ([], ws)
  | .idx :: ks, ws =>
    match readIntW iw ws with
    | none => none
    | some (v, ws2) => (readFieldsW iw fw ks ws2).map (fun p => (.i v :: p.1, p.2))
  | .flt :: ks, ws =>
    match readFltW fw ws with
    | none => none
    | some (q, ws2) => (readFieldsW iw fw ks ws2).map (fun p => (.r q :: p.1, p.2))

/-- Read `count` records (`np.fromfile(f, count=nitems, dtype=dtype)`). -/
def readRecordsW (iw fw : Nat) (fields : List FKind) : Nat → List BinWord → Option (List (List FVal) × List BinWord)
  | 0, ws => some ([], ws)
  | n + 1, ws =>
    match readFieldsW iw fw fields ws with
    | none => none
    | some (r, ws2) => (readRecordsW iw fw fields n ws2).map (fun p => (r :: p.1, p.2))

/-- The float fields of a record, in order (the coordinate field `out["f0"]`). -/
def recFloats (r : List FVal) : List ℚ :=
  r.filterMap (fun v => match v with | .r q => some q | .i _ => none)

/-- The integer fields of a record, in order (`out["f1"]`, or the whole record
viewed as integers by `out.view(itype)`). -/
def recInts (r : List FVal) : List Int :=
  r.filterMap (fun v => match v with | .i n => some n | .r _ => none)

/-- State of `read_binary_buffer` at the top of the block-dispatch loop. -/
structure BinState where
  dim : Nat
  itype : Nat
  ftype : Nat
  postype : Nat
  keytype : Nat
  swapped : Bool
  points : Option (List (List ℚ))
  point_ref : Option (List Int)
  cells : List (String × List (List Int))
  cell_ref : List (List Int)
  warns : List String
deriving DecidableEq, Repr

/-- Finalization after the binary loop: apply the read-direction reordering and
build the mesh (`Mesh(points, cells, point_data, cell_data)`).  The binary
reader performs no vertices-presence check. -/
def finalizeB (st : BinState) : MeshR :=
  { points := st.points
    cells := _convert_cells st.cells _medit_to_meshio
    point_ref := st.point_ref
    cell_ref := st.cell_ref }

/-- Result of one iteration of a reader loop. -/
inductive BStep where
  | done (r : Except Err (MeshR × List String))
  | cont (st : BinState) (ws : List BinWord)

/-- One iteration of the `while True` loop of `read_binary_buffer` (lines 179-221):
read the next tag (end of stream here warns and stops), dispatch on the tag
through `medit_codes`, consume the stream-position field, the optional count and
the payload, then store vertices, store an element block, or skip with warning. -/
def stepB (st : BinState) (ws : List BinWord) : BStep :=
  match readIntW st.keytype ws with
  | none =>
    .done (.ok (finalizeB st, st.warns ++ ["End-of-file reached before GmfEnd keyword"]))
  | some (field, ws) =>
    match List.lookup field medit_codes with
    | none => .done (.error (.readError "Unsupported field"))
    | some field_code =>
      if field_code.1 = "GmfEnd" then .done (.ok (finalizeB st, st.warns))
      else if field_code.1 = "GmfReserved" then .cont st ws
      else
        match readIntW st.postype ws with
        | none => .done (.error (.pyError "truncated stream"))
        | some (_, ws) =>
          match (if field_code.2.1 = "i" then readIntW st.itype ws else some (1, ws)) with
          | none => .done (.error (.pyError "truncated stream"))
          | some (nitems, ws) =>
            match expandTemplate st.dim field_code.2.2.data with
            | none => .done (.error (.readError "Invalid string type"))
            | some fields =>
              match readRecordsW st.itype st.ftype fields nitems.toNat ws with
              | none => .done (.error (.pyError "truncated stream"))
              | some (out, ws) =>
                match List.lookup field_code.1 DICT_GMFMEDIT with
                | none =>
                  .cont { st with warns := st.warns ++
                    ["meshio does not know " ++ field_code.1 ++ " type. Skipping."] } ws
                | some (meshio_type, ncols, _) =>
                  if field_code.1 = "GmfVertices" then
                    .cont { st with
                      points := some (out.map recFloats),
                      point_ref := some (out.map (fun r => (recInts r).headI)) } ws
                  else
                    .cont { st with
                      cells := st.cells ++
                        [(meshio_type, out.map (fun r => ((recInts r).take ncols).map (· - 1)))],
                      cell_ref := st.cell_ref ++
                        [out.map (fun r => (recInts r).getD ncols 0)] } ws

/-- Fuel-indexed iteration of the binary block loop. -/
def runB : Nat → BinState → List BinWord → Except Err (MeshR × List String)
  | 0, _, _ => .error .outOfFuel
  | f + 1, st, ws =>
    match stepB st ws with
    | .done r => r
    | .cont st2 ws2 => runB f st2 ws2

/-- Mirrors `read_binary_buffer`: header validation (code word, version, dimension
tag and payload), width derivation per version, then the block-dispatch loop. -/
def read_binary_buffer (ws : List BinWord) : Except Err (MeshR × List String) :=
  match readIntW 4 ws with
  | none => .error (.pyError "truncated stream")
  | some (code, ws) =>
    if code ≠ 1 ∧ code ≠ 16777216 then .error (.readError "Invalid code")
    else
      let swapped := code = 16777216
      match readIntW 4 ws with
      | none => .error (.pyError "truncated stream")
      | some (version, ws) =>
        if version < 1 ∨ version > 4 then .error (.readError "Invalid version")
        else
          let itype : Nat := if version ≤ 3 then 4 else 8
          let ftype : Nat := if version = 1 then 4 else 8
          let postype : Nat := if version ≤ 2 then 4 else 8
          match readIntW 4 ws with
          | none => .error (.pyError "truncated stream")
          | some (field, ws) =>
            if field ≠ 3 then
              .error (.readError ("Invalid dimension code : " ++ toString field ++ " it should be 3"))
            else
              -- the stream-position field after the dimension tag is read and discarded;
              -- `np.fromfile` returns an empty array at end of stream without failing
              let ws2 := match readIntW postype ws with
                         | none => ws
                         | some (_, rest) => rest
              match readIntW 4 ws2 with
              | none => .error (.pyError "truncated stream")
              | some (dimv, ws3) =>
                if dimv ≠ 2 ∧ dimv ≠ 3 then
                  .error (.readError ("Invalid mesh dimension : " ++ toString dimv))
                else
                  runB (ws3.length + 1)
                    { dim := dimv.toNat, itype := itype, ftype := ftype,
                      postype := postype, keytype := 4, swapped := swapped,
                      points := none, point_ref := none, cells := [], cell_ref := [],
                      warns := [] } ws3

/-! ## Binary writer -/

/-- The version / width prologue of `write_binary_file` (lines 432-455): version 4
with 8-byte indices exactly when some cell block stores its connectivity in
8-byte integers, otherwise version 3 with 4-byte indices; 8-byte floats, 8-byte
stream positions, 4-byte keywords always.  Returns
(version, itype_size, ftype_size, postype_size, keyword_size). -/
def binary_write_params (mesh : Mesh) : Int × Nat × Nat × Nat × Nat :=
  let has_big_ints := mesh.cells.any (fun b => b.itemsize == 8)
  ((if has_big_ints then 4 else 3), (if has_big_ints then 8 else 4), 8, 8, 4)

/-- The label array selected for the element block at index `k`
(`mesh.cell_data[labels_key][k]` or all ones). -/
def cellLabels (labels_key : Option String) (cell_data : List (String × List (List Int)))
    (k : Nat) (num_cells : Nat) : List Int :=
  match labels_key with
  | some key => ((List.lookup key cell_data).getD []).getD k []
  | none => List.replicate num_cells 1

/-- Emission of the element blocks of `write_binary_file` (lines 515-558), with the
in-place reorder `cell_block.data = _convert_cell_data(...)` of line 518 made
explicit: returns the words, the warnings, and the cell blocks as the caller's
container holds them after the call.  Records are emitted row-major: the
structured-array column assignment of the source fills, for each row, the
nodes_per_element index fields (1-based) followed by the label field. -/
def writeCellBlocksB (itype_size : Nat) (labels_key : Option String)
    (cell_data : List (String × List (List Int))) :
    Nat → Int → List CellBlock → List BinWord × List String × List CellBlock
  | _, _, [] => ([], [], [])
  | k, pos, b :: rest =>
    let data2 := _convert_cell_data b.type b.data _meshio_to_medit
    let b2 : CellBlock := { b with data := data2 }
    match List.lookup b.type DICT_MESHIO with
    | none =>
      let r := writeCellBlocksB itype_size labels_key cell_data (k + 1) pos rest
      (r.1, ("MEDIT mesh format does not know " ++ b.type ++ " cells. Skipping.") :: r.2.1,
        b2 :: r.2.2)
    | some (_, _, medit_key) =>
      let num_cells := data2.length
      let ncols := data2.headI.length
      let pos2 := pos + (num_cells * (ncols + 1) * itype_size : Nat) + (4 + 8 + itype_size : Nat)
      let labels := cellLabels labels_key cell_data k num_cells
      let header : List BinWord :=
        [.int medit_key 4, .int pos2 8, .int num_cells itype_size]
      let payload : List BinWord :=
        (data2.zip labels).flatMap
          (fun rl => rl.1.map (fun x => BinWord.int (x + 1) itype_size)
            ++ [BinWord.int rl.2 itype_size])
      let r := writeCellBlocksB itype_size labels_key cell_data (k + 1) pos2 rest
      (header ++ payload ++ r.1, r.2.1, b2 :: r.2.2)

/-- Mirrors `write_binary_file`: header, vertices block (coordinates as 8-byte
floats plus one reference integer per point), element blocks, terminator.
Returns the emitted words, the warnings, and the caller's container after the
call (the element loop reassigns `cell_block.data`). -/
def write_binary_file (mesh : Mesh) : List BinWord × List String × Mesh :=
  let p := binary_write_params mesh
  let version := p.1
  let itype_size := p.2.1
  let ftype_size := p.2.2.1
  let postype_size := p.2.2.2.1
  let keyword_size := p.2.2.2.2
  let pos0 : Int := 4 * (keyword_size : Int) + (postype_size : Int)
  let num_verts := mesh.points.length
  let dim := mesh.points.headI.length
  let header : List BinWord :=
    [.int 1 keyword_size, .int version keyword_size, .int 3 keyword_size,
     .int pos0 postype_size, .int dim keyword_size]
  let pos1 : Int := pos0 + (num_verts * dim * ftype_size : Nat)
    + (num_verts * itype_size : Nat) + (keyword_size + postype_size + itype_size : Nat)
  let pick := _pick_first_int_data mesh.point_data
  let warns0 : List String :=
    match pick with
    | (some key, f :: more) =>
      ["Medit can only write one point data array. Picking " ++ key ++ ", skipping others."]
    | _ => []
  let labels : List Int :=
    match pick.1 with
    | some key => (List.lookup key mesh.point_data).getD []
    | none => List.replicate num_verts 1
  let vheader : List BinWord := [.int 4 keyword_size, .int pos1 postype_size,
    .int num_verts itype_size]
  let vpayload : List BinWord :=
    (mesh.points.zip labels).flatMap
      (fun rl => rl.1.map (fun q => BinWord.flt q ftype_size) ++ [BinWord.int rl.2 itype_size])
  let cpick := _pick_first_int_data mesh.cell_data
  let warns1 : List String :=
    match cpick with
    | (some key, f :: more) =>
      ["Medit can only write one cell data array. Picking " ++ key ++ ", skipping others."]
    | _ => []
  let blocks := writeCellBlocksB itype_size cpick.1 mesh.cell_data 0 pos1 mesh.cells
  let endwords : List BinWord := [.int 54 keyword_size, .int 0 postype_size]
  (header ++ vheader ++ vpayload ++ blocks.1 ++ endwords,
    warns0 ++ warns1 ++ blocks.2.1,
    { mesh with cells := blocks.2.2 })

/-! ## ASCII codec -/

/-- One token of an ASCII file: a keyword-like string, a numeric literal carrying
its exact value, or an end-of-line marker. -/
inductive Tok where
  | kw (s : String)
  | num (q : ℚ)
  | nl
deriving DecidableEq, Repr, Inhabited

/-- Mirrors `f.readline()`: `none` at end of file; otherwise the tokens of the next
line (a file that does not end in a newline still yields its last line). -/
def readline : List Tok → Option (List Tok × List Tok)
  | [] => none
  | .nl :: ts => some ([], ts)
  | t :: ts =>
    some (match readline ts with
          | none => ([t], [])
          | some lr => (t :: lr.1, lr.2))

/-- Mirrors `np.fromfile(f, count=n, dtype=float-like, sep=" ")`: consume `n`
whitespace-separated numeric tokens, crossing newlines; `none` when the stream is
exhausted or a non-numeric token is hit (the subsequent `reshape` then fails). -/
def takeToks : Nat → List Tok → Option (List ℚ × List Tok)
  | 0, ts => some ([], ts)
  | _ + 1, [] => none
  | n + 1, .nl :: ts => takeToks (n + 1) ts
  | _ + 1, .kw _ :: _ => none
  | n + 1, .num q :: ts => (takeToks n ts).map (fun p => (q :: p.1, p.2))

/-- Mirrors `np.fromfile(f, count=n, dtype=int, sep=" ")`: like `takeToks` but the
tokens must be integer literals. -/
def takeToksInt : Nat → List Tok → Option (List Int × List Tok)
  | 0, ts => some ([], ts)
  | _ + 1, [] => none
  | n + 1, .nl :: ts => takeToksInt (n + 1) ts
  | _ + 1, .kw _ :: _ => none
  | n + 1, .num q :: ts =>
    if q.den = 1 then (takeToksInt n ts).map (fun p => (q.num :: p.1, p.2)) else none

/-- Consume `n` lines (`for _ in range(num_to_pass): f.readline()`); reading past
the end of file is a no-op, as in Python. -/
def dropLines : Nat → List Tok → List Tok
  | 0, ts => ts
  | n + 1, ts =>
    match readline ts with
    | none => dropLines n ts
    | some lr => dropLines n lr.2

/-- Mirrors `.reshape(rows, cols)` of a flat value list. -/
def chunksOf {α : Type} (rows cols : Nat) (l : List α) : List (List α) :=
  (List.range rows).map (fun i => (l.drop (i * cols)).take cols)

/-- Mirrors `int(line)` on one line of tokens: a single integer literal. -/
def lineInt : List Tok → Option Int
  | [.num q] => if q.den = 1 then some q.num else none
  | _ => none

/-- Mirrors `.astype(int)` on one value: truncation toward zero. -/
def npTrunc (q : ℚ) : Int := if q < 0 then -(Int.floor (-q)) else Int.floor q

/-- Mirrors `items[0].isalpha()`. -/
def tokIsAlpha : Tok → Bool
  | .kw s => !s.isEmpty && s.data.all Char.isAlpha
  | _ => false

/-- The keyword string of a token (dictionary membership tests compare strings;
numeric tokens never match a keyword). -/
def tokKeyStr : Tok → String
  | .kw s => s
  | _ => ""

/-- Mirrors `line[0] == "#"` on the stripped line: the first character of the first
token is a hash. -/
def isCommentLine : List Tok → Bool
  | .kw s :: _ => s.front = '#'
  | _ => false

/-- State of `read_ascii_buffer` at the top of its line loop. -/
structure AscState where
  dim : Int
  dtype : Option Nat
  points : Option (List (List ℚ))
  point_ref : Option (List Int)
  cells : List (String × List (List Int))
  cell_ref : List (List Int)
  warns : List String
deriving DecidableEq, Repr

/-- After the ASCII loop: a missing vertices section is fatal, then the
accumulated element blocks pass through the reordering adapter. -/
def finalizeA (st : AscState) : Except Err (MeshR × List String) :=
  match st.points with
  | none => .error (.readError "Expected Vertices")
  | some pts =>
    .ok ({ points := some pts
           cells := _convert_cells st.cells _medit_to_meshio
           point_ref := st.point_ref
           cell_ref := st.cell_ref }, st.warns)

/-- Result of one iteration of the ASCII loop. -/
inductive AStep where
  | done (r : Except Err (MeshR × List String))
  | cont (st : AscState) (ts : List Tok)

/-- Handler for `MeshVersionFormatted <v>` (source lines 252-254): select the
float width from the version token, KeyError on any other token. -/
def handleMVF (st : AscState) (line ts : List Tok) : AStep :=
  match line.drop 1 with
  | .num q :: _ =>
    if q = 0 ∨ q = 1 then .cont { st with dtype := some 4 } ts
    else if q = 2 ∨ q = 3 then .cont { st with dtype := some 8 } ts
    else .done (.error (.pyError "KeyError"))
  | _ :: _ => .done (.error (.pyError "KeyError"))
  | [] => .done (.error (.pyError "IndexError"))

/-- Handler for `Dimension [<d>]` (source lines 255-261): inline argument, or the
dimension on the following line. -/
def handleDimension (st : AscState) (line ts : List Tok) : AStep :=
  match line.drop 1 with
  | .num q :: _ =>
    if q.den = 1 then .cont { st with dim := q.num } ts
    else .done (.error (.pyError "ValueError"))
  | _ :: _ => .done (.error (.pyError "ValueError"))
  | [] =>
    match readline ts with
    | none => .done (.error (.pyError "ValueError"))
    | some lr =>
      match lineInt lr.1 with
      | some d => .cont { st with dim := d } lr.2
      | none => .done (.error (.pyError "ValueError"))

/-- Handler for `Vertices` (source lines 262-272): count line, then count rows of
dim floats plus one trailing reference, which is truncated to int. -/
def handleVertices (st : AscState) (ts : List Tok) : AStep :=
  if st.dim ≤ 0 then .done (.error (.readError ""))
  else if st.dtype.isNone then
    .done (.error (.readError "Expected MeshVersionFormatted before Vertices"))
  else
    match readline ts with
    | none => .done (.error (.pyError "ValueError"))
    | some lr =>
      match lineInt lr.1 with
      | none => .done (.error (.pyError "ValueError"))
      | some num_verts =>
        match takeToks (num_verts.toNat * (st.dim.toNat + 1)) lr.2 with
        | none => .done (.error (.pyError "reshape"))
        | some vr =>
          .cont { st with
            points := some ((chunksOf num_verts.toNat (st.dim.toNat + 1) vr.1).map
              (fun r => r.take st.dim.toNat)),
            point_ref := some ((chunksOf num_verts.toNat (st.dim.toNat + 1) vr.1).map
              (fun r => npTrunc (r.getD st.dim.toNat 0))) } vr.2

/-- Handler for a registered element keyword (source lines 273-284): count line,
count rows of nodes-plus-reference integers, zero-based conversion. -/
def handleElement (st : AscState) (entry : DictEntry) (ts : List Tok) : AStep :=
  match readline ts with
  | none => .done (.error (.pyError "ValueError"))
  | some lr =>
    match lineInt lr.1 with
    | none => .done (.error (.pyError "ValueError"))
    | some num_cells =>
      match takeToksInt (num_cells.toNat * (entry.2.1 + 1)) lr.2 with
      | none => .done (.error (.pyError "reshape"))
      | some vr =>
        .cont { st with
          cells := st.cells ++
            [(entry.1, ((chunksOf num_cells.toNat (entry.2.1 + 1) vr.1).map
              (fun r => (r.take entry.2.1).map (· - 1))))],
          cell_ref := st.cell_ref ++
            [(chunksOf num_cells.toNat (entry.2.1 + 1) vr.1).map
              (fun r => r.getD entry.2.1 0)] } vr.2

/-- Recognized-and-discarded sections parsed with a float dtype (`Corners`,
`Normals`, `VertexOnGeometricEdge`): count line, then `mult count` float tokens
consumed and dropped. -/
def discardFloats (st : AscState) (ts : List Tok) (mult : Int → Nat) : AStep :=
  match readline ts with
  | none => .done (.error (.pyError "ValueError"))
  | some lr =>
    match lineInt lr.1 with
    | none => .done (.error (.pyError "ValueError"))
    | some n =>
      match takeToks (mult n) lr.2 with
      | none => .done (.error (.pyError "reshape"))
      | some vr => .cont st vr.2

/-- Recognized-and-discarded sections parsed with an integer dtype
(`NormalAtVertices`, `SubDomainFromMesh`, `SubDomainFromGeom`,
`VertexOnGeometricVertex`, `EdgeOnGeometricEdge`). -/
def discardInts (st : AscState) (ts : List Tok) (mult : Int → Nat) : AStep :=
  match readline ts with
  | none => .done (.error (.pyError "ValueError"))
  | some lr =>
    match lineInt lr.1 with
    | none => .done (.error (.pyError "ValueError"))
    | some n =>
      match takeToksInt (mult n) lr.2 with
      | none => .done (.error (.pyError "reshape"))
      | some vr => .cont st vr.2

/-- Handler for `Identifier` / `Geometry` (source lines 331-332): one following
line consumed and discarded. -/
def handleIdentifier (st : AscState) (ts : List Tok) : AStep :=
  match readline ts with
  | none => .cont st ts
  | some lr => .cont st lr.2

/-- Handler for the recognized-but-unsupported keywords (source lines 333-343):
warn, then skip the declared count of following lines. -/
def skipKeyword (st : AscState) (kw : String) (ts : List Tok) : AStep :=
  match readline ts with
  | none => .done (.error (.pyError "ValueError"))
  | some lr =>
    match lineInt lr.1 with
    | none => .done (.error (.pyError "ValueError"))
    | some n =>
      .cont { st with warns := st.warns ++
        ["Meshio does not know keyword " ++ kw ++ ". Skipping."] } (dropLines n.toNat lr.2)

/-- Dispatch on one non-blank, non-comment line of `read_ascii_buffer`
(lines 247-346), in source order: the leading-token sanity check, then
`MeshVersionFormatted`, `Dimension`, `Vertices`, registered element keywords,
the recognized-and-discarded keywords, `Identifier`/`Geometry`, the
skip-with-warning keywords, and finally `End`/`END` against the unknown-keyword
error.  The repeated discard branches of the source are factored through
`discardFloats`/`discardInts` with the per-keyword field counts. -/
def handleLine (st : AscState) (line : List Tok) (ts : List Tok) : AStep :=
  if ¬ tokIsAlpha line.headI ∧ (List.lookup (tokKeyStr line.headI) DICT_MEDIT).isNone then
    .done (.error (.readError ""))
  else
    if tokKeyStr line.headI = "MeshVersionFormatted" then handleMVF st line ts
    else if tokKeyStr line.headI = "Dimension" then handleDimension st line ts
    else if tokKeyStr line.headI = "Vertices" then handleVertices st ts
    else
      match List.lookup (tokKeyStr line.headI) DICT_MEDIT with
      | some entry => handleElement st entry ts
      | none =>
        if tokKeyStr line.headI = "Corners" then
          discardFloats st ts (fun n => n.toNat)
        else if tokKeyStr line.headI = "Normals" then
          discardFloats st ts (fun n => n.toNat * st.dim.toNat)
        else if tokKeyStr line.headI = "NormalAtVertices" then
          discardInts st ts (fun n => n.toNat * 2)
        else if tokKeyStr line.headI = "SubDomainFromMesh" then
          discardInts st ts (fun n => n.toNat * 4)
        else if tokKeyStr line.headI = "SubDomainFromGeom" then
          discardInts st ts (fun n => n.toNat * 4)
        else if tokKeyStr line.headI = "VertexOnGeometricVertex" then
          discardInts st ts (fun n => n.toNat * 2)
        else if tokKeyStr line.headI = "VertexOnGeometricEdge" then
          discardFloats st ts (fun n => n.toNat * 3)
        else if tokKeyStr line.headI = "EdgeOnGeometricEdge" then
          discardInts st ts (fun n => n.toNat * 2)
        else if tokKeyStr line.headI = "Identifier" ∨ tokKeyStr line.headI = "Geometry" then
          handleIdentifier st ts
        else if tokKeyStr line.headI = "RequiredVertices"
            ∨ tokKeyStr line.headI = "TangentAtVertices"
            ∨ tokKeyStr line.headI = "Tangents" ∨ tokKeyStr line.headI = "Ridges" then
          skipKeyword st (tokKeyStr line.headI) ts
        else
          if tokKeyStr line.headI = "End" ∨ tokKeyStr line.headI = "END" then .cont st ts
          else .done (.error (.readError ("Unknown keyword " ++ tokKeyStr line.headI ++ ".")))

/-- One iteration of the `while True` loop of `read_ascii_buffer`: read a line
(end of file breaks out to finalization), skip blank and comment lines,
otherwise dispatch through `handleLine`. -/
def stepA (st : AscState) (ts : List Tok) : AStep :=
  match readline ts with
  | none => .done (finalizeA st)
  | some lr =>
    if lr.1.isEmpty then .cont st lr.2
    else if isCommentLine lr.1 then .cont st lr.2
    else handleLine st lr.1 lr.2

/-- Fuel-indexed iteration of the ASCII line loop. -/
def runA : Nat → AscState → List Tok → Except Err (MeshR × List String)
  | 0, _, _ => .error .outOfFuel
  | f + 1, st, ts =>
    match stepA st ts with
    | .done r => r
    | .cont st2 ts2 => runA f st2 ts2

/-- Mirrors `read_ascii_buffer`. -/
def read_ascii_buffer (ts : List Tok) : Except Err (MeshR × List String) :=
  runA (ts.length + 1)
    { dim := 0, dtype := none, points := none, point_ref := none,
      cells := [], cell_ref := [], warns := [] } ts

/-! ## ASCII writer -/

/-- One vertex line of the ASCII writer: coordinates, reference label, newline. -/
def vertexLineToks (row : List ℚ) (lab : Int) : List Tok :=
  row.map Tok.num ++ [Tok.num (lab : ℚ), Tok.nl]

/-- One element line of the ASCII writer: 1-based node indices, label, newline. -/
def cellLineToks (row : List Int) (lab : Int) : List Tok :=
  row.map (fun x => Tok.num ((x + 1 : Int) : ℚ)) ++ [Tok.num (lab : ℚ), Tok.nl]

/-- Emission of the element sections of `write_ascii_file` (lines 399-425): the
column reorder goes to a local variable (the container is untouched), an
unregistered element type is skipped with a warning, otherwise a blank line, the
medit keyword, the count and one line per element are emitted. -/
def writeCellBlocksA (labels_key : Option String)
    (cell_data : List (String × List (List Int))) :
    Nat → List CellBlock → List Tok × List String
  | _, [] => ([], [])
  | k, b :: rest =>
    let data2 := _convert_cell_data b.type b.data _meshio_to_medit
    match List.lookup b.type DICT_MESHIO with
    | none =>
      let r := writeCellBlocksA labels_key cell_data (k + 1) rest
      (r.1, ("MEDIT mesh format does not know " ++ b.type ++ " cells. Skipping.") :: r.2)
    | some (medit_name, _, _) =>
      let labels := cellLabels labels_key cell_data k data2.length
      let toks : List Tok :=
        [.nl, .kw medit_name, .nl, .num (data2.length : ℚ), .nl]
          ++ (data2.zip labels).flatMap (fun rl => cellLineToks rl.1 rl.2)
      let r := writeCellBlocksA labels_key cell_data (k + 1) rest
      (toks ++ r.1, r.2)

/-- Mirrors `write_ascii_file`: the version line (1 for single precision, 2 for
double, any other points dtype is a fatal KeyError), the dimension line, the
vertices section, the element sections, and the `End` line. -/
def write_ascii_file (mesh : Mesh) : Except Err (List Tok × List String) :=
  match (if mesh.prec = 4 then some (1 : ℚ) else if mesh.prec = 8 then some 2 else none) with
  | none => .error (.pyError "KeyError")
  | some version =>
    let n := mesh.points.length
    let d := mesh.points.headI.length
    let pick := _pick_first_int_data mesh.point_data
    let warns0 : List String :=
      match pick with
      | (some key, f :: more) =>
        ["Medit can only write one point data array. Picking " ++ key ++ ", skipping others."]
      | _ => []
    let labels : List Int :=
      match pick.1 with
      | some key => (List.lookup key mesh.point_data).getD []
      | none => List.replicate n 1
    let cpick := _pick_first_int_data mesh.cell_data
    let warns1 : List String :=
      match cpick with
      | (some key, f :: more) =>
        ["Medit can only write one cell data array. Picking " ++ key ++ ", skipping others."]
      | _ => []
    let blocks := writeCellBlocksA cpick.1 mesh.cell_data 0 mesh.cells
    .ok ([Tok.kw "MeshVersionFormatted", Tok.num version, Tok.nl,
          Tok.kw "Dimension", Tok.num (d : ℚ), Tok.nl,
          Tok.nl, Tok.kw "Vertices", Tok.nl,
          Tok.num (n : ℚ), Tok.nl]
        ++ (mesh.points.zip labels).flatMap (fun rl => vertexLineToks rl.1 rl.2)
        ++ blocks.1
        ++ [Tok.nl, Tok.kw "End", Tok.nl],
      warns0 ++ warns1 ++ blocks.2)

/-! ## Helper lemmas -/

theorem lookup_mem {α β : Type} [BEq α] [LawfulBEq α] {a : α} {b : β} :
    ∀ {l : List (α × β)}, List.lookup a l = some b → (a, b) ∈ l
  | [], h => by simp [List.lookup] at h
  | (k, v) :: rest, h => by
    rw [List.lookup] at h
    by_cases hk : a == k
    · rw [hk] at h
      simp only [Option.some.injEq] at h
      subst h
      have := eq_of_beq hk
      subst this
      exact List.mem_cons_self _ _
    · rw [Bool.not_eq_true] at hk
      rw [hk] at h
      exact List.mem_cons_of_mem _ (lookup_mem h)

theorem getD_map_lt (f : Nat → Int) :
    ∀ (l : List Nat) (i : Nat), i < l.length → (l.map f).getD i 0 = f (l.getD i 0)
  | a :: l, 0, _ => rfl
  | a :: l, i + 1, h => by
    simp only [List.map_cons, List.getD_cons_succ]
    exact getD_map_lt f l i (by simpa using h)
  | [], i, h => by simp at h

theorem map_getD_range : ∀ (l : List Int),
    (List.range l.length).map (fun i => l.getD i 0) = l
  | [] => rfl
  | a :: l => by
    rw [List.length_cons, List.range_succ_eq_map, List.map_cons, List.map_map]
    simp only [List.getD_cons_zero]
    congr 1
    have : ((fun i => (a :: l).getD i 0) ∘ Nat.succ) = (fun i => l.getD i 0) := by
      funext i
      simp [List.getD_cons_succ]
    rw [this]
    exact map_getD_range l

theorem applyPerm_comp_eq_self (p q : List Nat) (hlen : p.length = 27)
    (hq : ∀ i ∈ q, i < 27)
    (hcomp : q.map (fun i => p.getD i 0) = List.range 27) :
    ∀ row : List Int, row.length = 27 → applyPerm q (applyPerm p row) = row := by
  intro row hrow
  unfold applyPerm
  have step1 : q.map (fun i => (p.map (fun j => row.getD j 0)).getD i 0)
      = q.map (fun i => row.getD (p.getD i 0) 0) := by
    apply List.map_congr_left
    intro i hi
    exact getD_map_lt (fun j => row.getD j 0) p i (by rw [hlen]; exact hq i hi)
  rw [step1]
  have step2 : q.map (fun i => row.getD (p.getD i 0) 0)
      = (q.map (fun i => p.getD i 0)).map (fun j => row.getD j 0) := by
    rw [List.map_map]
    rfl
  rw [step2, hcomp, ← hrow, map_getD_range]


/-- C4: applying the read-direction hexahedron27 permutation and then the
write-direction permutation returns the original connectivity (in either
composition order: the two permutations are exact inverses), and for every
element type not present in the permutation table both conversion directions
are the identity. -/
theorem C4_hexahedron27_permutations :
    (∀ data : List (List Int), (∀ row ∈ data, row.length = 27) →
      _convert_cell_data "hexahedron27"
        (_convert_cell_data "hexahedron27" data _medit_to_meshio) _meshio_to_medit = data
      ∧ _convert_cell_data "hexahedron27"
        (_convert_cell_data "hexahedron27" data _meshio_to_medit) _medit_to_meshio = data)
    ∧ (∀ cell_type, List.lookup cell_type _medit_to_meshio = none →
      ∀ data : List (List Int),
        _convert_cell_data cell_type data _medit_to_meshio = data
        ∧ _convert_cell_data cell_type data _meshio_to_medit = data) := by
  have hR : List.lookup "hexahedron27" _medit_to_meshio
      = some (List.range 20 ++ [25, 23, 22, 24, 20, 21, 26]) := by decide
  have hW : List.lookup "hexahedron27" _meshio_to_medit
      = some (List.range 20 ++ [24, 25, 22, 21, 23, 20, 26]) := by decide
  have hcR : ∀ data : List (List Int), _convert_cell_data "hexahedron27" data _medit_to_meshio
      = data.map (applyPerm (List.range 20 ++ [25, 23, 22, 24, 20, 21, 26])) := by
    intro data; unfold _convert_cell_data; rw [hR]
  have hcW : ∀ data : List (List Int), _convert_cell_data "hexahedron27" data _meshio_to_medit
      = data.map (applyPerm (List.range 20 ++ [24, 25, 22, 21, 23, 20, 26])) := by
    intro data; unfold _convert_cell_data; rw [hW]
  constructor
  · intro data hdata
    constructor
    · rw [hcR, hcW, List.map_map]
      rw [show data.map
            (applyPerm (List.range 20 ++ [24, 25, 22, 21, 23, 20, 26])
              ∘ applyPerm (List.range 20 ++ [25, 23, 22, 24, 20, 21, 26])) = data.map id from
          List.map_congr_left (fun row hr =>
            applyPerm_comp_eq_self _ _ (by decide) (by decide) (by decide) row (hdata row hr))]
      exact List.map_id data
    · rw [hcW, hcR, List.map_map]
      rw [show data.map
            (applyPerm (List.range 20 ++ [25, 23, 22, 24, 20, 21, 26])
              ∘ applyPerm (List.range 20 ++ [24, 25, 22, 21, 23, 20, 26])) = data.map id from
          List.map_congr_left (fun row hr =>
            applyPerm_comp_eq_self _ _ (by decide) (by decide) (by decide) row (hdata row hr))]
      exact List.map_id data
  · intro ct hct data
    have hb : (ct == "hexahedron27") = false := by
      by_cases h : (ct == "hexahedron27") = true
      · simp [List.lookup, _medit_to_meshio, h] at hct
      · simpa using h
    constructor
    · simp [_convert_cell_data, List.lookup, _medit_to_meshio, hb]
    · simp [_convert_cell_data, List.lookup, _meshio_to_medit, _medit_to_meshio, hb]

/-- Witness for C4 at a concrete 27-node row and a concrete absent type. -/
theorem C4_hexahedron27_permutations_witness :
    (_convert_cell_data "hexahedron27"
      (_convert_cell_data "hexahedron27" [(List.range 27).map Int.ofNat] _medit_to_meshio)
      _meshio_to_medit = [(List.range 27).map Int.ofNat])
    ∧ _convert_cell_data "tetra" [[0, 1, 2, 3]] _medit_to_meshio = [[0, 1, 2, 3]] :=
  ⟨(C4_hexahedron27_permutations.1 [(List.range 27).map Int.ofNat] (by decide)).1,
   (C4_hexahedron27_permutations.2 "tetra" (by decide) [[0, 1, 2, 3]]).1⟩

theorem produce_dtype_aux_error (dim : Nat) (it ft : String) :
    ∀ cs : List Char, (∃ c ∈ cs, c ∉ (['i', 'r', 'd'] : List Char)) →
      _produce_dtype_aux dim it ft cs = .error "Invalid string type" := by
  intro cs
  induction cs with
  | nil => rintro ⟨c, hc, -⟩; cases hc
  | cons a rest ih =>
    rintro ⟨c, hc, hbad⟩
    rcases List.mem_cons.mp hc with rfl | hmem
    · have h1 : ¬ c = 'i' := fun h => hbad (by simp [h])
      have h2 : ¬ c = 'r' := fun h => hbad (by simp [h])
      have h3 : ¬ c = 'd' := fun h => hbad (by simp [h])
      simp only [_produce_dtype_aux, if_neg h1, if_neg h2, if_neg h3]
    · have herr := ih ⟨c, hmem, hbad⟩
      by_cases h1 : a = 'i'
      · simp only [_produce_dtype_aux, if_pos h1, herr]; rfl
      · by_cases h2 : a = 'r'
        · simp only [_produce_dtype_aux, if_neg h1, if_pos h2, herr]; rfl
        · by_cases h3 : a = 'd'
          · simp only [_produce_dtype_aux, if_neg h1, if_neg h2, if_pos h3, herr]; rfl
          · simp only [_produce_dtype_aux, if_neg h1, if_neg h2, if_neg h3]

theorem commaJoin_cons (f : String) {fs : List String} (h : fs ≠ []) :
    commaJoin (f :: fs) = f ++ "," ++ commaJoin fs := by
  match fs, h with
  | g :: t, _ => rfl

theorem produce_dtype_aux_ok (dim : Nat) (it ft : String) :
    ∀ (n : Nat) (cs : List Char), cs.length ≤ n →
      (∀ c ∈ cs, c ∈ (['i', 'r', 'd'] : List Char)) →
      cs.getLast? ≠ some 'd' →
      ∃ fs, dtypeFields dim it ft cs = some fs ∧
        _produce_dtype_aux dim it ft cs = .ok (commaJoin fs) ∧ (cs ≠ [] → fs ≠ []) := by
  intro n
  induction n with
  | zero =>
    intro cs hlen _ _
    have hnil : cs = [] := List.length_eq_zero.mp (Nat.le_zero.mp hlen)
    subst hnil
    exact ⟨[], rfl, rfl, fun h => absurd rfl h⟩
  | succ n ih =>
    intro cs hlen hall hlast
    cases cs with
    | nil => exact ⟨[], rfl, rfl, fun h => absurd rfl h⟩
    | cons a rest =>
      have ha : a ∈ (['i', 'r', 'd'] : List Char) := hall a (List.mem_cons_self _ _)
      have hlen2 : rest.length ≤ n := by simpa using hlen
      by_cases hi : a = 'i'
      · subst hi
        cases rest with
        | nil =>
          exact ⟨[it], by simp [dtypeFields],
            by simp [_produce_dtype_aux, Except.map, commaJoin, String.append_empty], fun _ => by simp⟩
        | cons b rest2 =>
          have hlast2 : (b :: rest2).getLast? ≠ some 'd' := by
            rwa [List.getLast?_cons_cons] at hlast
          have hall2 : ∀ c ∈ b :: rest2, c ∈ (['i', 'r', 'd'] : List Char) :=
            fun c hc => hall c (List.mem_cons_of_mem _ hc)
          obtain ⟨fs, hf, haux, hne⟩ := ih (b :: rest2) hlen2 hall2 hlast2
          have hfs : fs ≠ [] := hne (by simp)
          refine ⟨it :: fs, by simp [dtypeFields, hf], ?_, fun _ => by simp⟩
          have hstep : _produce_dtype_aux dim it ft ('i' :: b :: rest2)
              = (_produce_dtype_aux dim it ft (b :: rest2)).map
                  (fun r => it ++ (if (b :: rest2).isEmpty then "" else ",") ++ r) := by
            simp [_produce_dtype_aux]
          rw [hstep, haux, commaJoin_cons it hfs]
          rfl
      · by_cases hr : a = 'r'
        · subst hr
          cases rest with
          | nil =>
            exact ⟨[ft], by simp [dtypeFields],
              by simp [_produce_dtype_aux, Except.map, commaJoin, String.append_empty], fun _ => by simp⟩
          | cons b rest2 =>
            have hlast2 : (b :: rest2).getLast? ≠ some 'd' := by
              rwa [List.getLast?_cons_cons] at hlast
            have hall2 : ∀ c ∈ b :: rest2, c ∈ (['i', 'r', 'd'] : List Char) :=
              fun c hc => hall c (List.mem_cons_of_mem _ hc)
            obtain ⟨fs, hf, haux, hne⟩ := ih (b :: rest2) hlen2 hall2 hlast2
            have hfs : fs ≠ [] := hne (by simp)
            refine ⟨ft :: fs, by simp [dtypeFields, hf], ?_, fun _ => by simp⟩
            have hstep : _produce_dtype_aux dim it ft ('r' :: b :: rest2)
                = (_produce_dtype_aux dim it ft (b :: rest2)).map
                    (fun r => ft ++ (if (b :: rest2).isEmpty then "" else ",") ++ r) := by
              simp [_produce_dtype_aux]
            rw [hstep, haux, commaJoin_cons ft hfs]
            rfl
        · have hd : a = 'd' := by
            rcases (by simpa using ha : a = 'i' ∨ a = 'r' ∨ a = 'd') with h | h | h
            · exact absurd h hi
            · exact absurd h hr
            · exact h
          subst hd
          cases rest with
          | nil => simp at hlast
          | cons b rest2 =>
            have hlast2 : (b :: rest2).getLast? ≠ some 'd' := by
              rwa [List.getLast?_cons_cons] at hlast
            have hall2 : ∀ c ∈ b :: rest2, c ∈ (['i', 'r', 'd'] : List Char) :=
              fun c hc => hall c (List.mem_cons_of_mem _ hc)
            obtain ⟨fs, hf, haux, hne⟩ := ih (b :: rest2) hlen2 hall2 hlast2
            obtain ⟨f, fs2, rfl⟩ : ∃ f fs2, fs = f :: fs2 := by
              cases fs with
              | nil => exact absurd rfl (hne (by simp))
              | cons f t => exact ⟨f, t, rfl⟩
            refine ⟨(toString dim ++ f) :: fs2, by simp [dtypeFields, hf], ?_, fun _ => by simp⟩
            have hstep : _produce_dtype_aux dim it ft ('d' :: b :: rest2)
                = (_produce_dtype_aux dim it ft (b :: rest2)).map
                    (fun r => toString dim ++ r) := by
              simp [_produce_dtype_aux]
            rw [hstep, haux]
            cases fs2 with
            | nil => rfl
            | cons g t =>
              rw [commaJoin_cons f (by simp), commaJoin_cons (toString dim ++ f) (by simp)]
              simp [Except.map, String.append_assoc]

/-- C10: `_produce_dtype` raises the ReadError for every template containing a
character outside i, r, d; and for every template over that alphabet whose every
d is followed by another character, it returns the comma-separated layout in
which each i contributes the index type, each r the float type, and each d
prefixes the immediately following field with the dimension as a repeat count;
it never returns a layout for an invalid template. -/
theorem C10_produce_dtype_spec :
    (∀ (s : String) (dim : Nat) (itype ftype : String),
      (∃ c ∈ s.data, c ∉ (['i', 'r', 'd'] : List Char)) →
      _produce_dtype s dim itype ftype = .error "Invalid string type")
    ∧ (∀ (s : String) (dim : Nat) (itype ftype : String),
      (∀ c ∈ s.data, c ∈ (['i', 'r', 'd'] : List Char)) →
      s.data.getLast? ≠ some 'd' →
      ∃ fs, dtypeFields dim itype ftype s.data = some fs ∧
        _produce_dtype s dim itype ftype = .ok (commaJoin fs)) := by
  constructor
  · intro s dim itype ftype hbad
    exact produce_dtype_aux_error dim itype ftype s.data hbad
  · intro s dim itype ftype hall hlast
    obtain ⟨fs, h1, h2, -⟩ :=
      produce_dtype_aux_ok dim itype ftype s.data.length s.data le_rfl hall hlast
    exact ⟨fs, h1, h2⟩

/-- Witness for C10 at the vertices template "dri" (dimension 3) and at an
invalid template. -/
theorem C10_produce_dtype_spec_witness :
    (_produce_dtype "drx" 3 "i4" "f8" = .error "Invalid string type")
    ∧ ∃ fs, dtypeFields 3 "i4" "f8" "dri".data = some fs ∧
        _produce_dtype "dri" 3 "i4" "f8" = .ok (commaJoin fs) :=
  ⟨C10_produce_dtype_spec.1 "drx" 3 "i4" "f8" ⟨'x', by decide, by decide⟩,
   C10_produce_dtype_spec.2 "dri" 3 "i4" "f8" (by decide) (by decide)⟩

theorem writeCellBlocksB_no_float (iw : Nat) (key : Option String)
    (cd : List (String × List (List Int))) :
    ∀ (cells : List CellBlock) (k : Nat) (pos : Int) (q : ℚ) (wd : Nat),
      BinWord.flt q wd ∉ (writeCellBlocksB iw key cd k pos cells).1 := by
  intro cells
  induction cells with
  | nil => intro k pos q wd h; simp [writeCellBlocksB] at h
  | cons b rest ih =>
    intro k pos q wd h
    cases hbt : List.lookup b.type DICT_MESHIO with
    | none =>
      rw [writeCellBlocksB, hbt] at h
      exact ih _ _ q wd h
    | some e =>
      rw [writeCellBlocksB, hbt] at h
      rcases List.mem_append.mp h with h1 | h1
      · rcases List.mem_append.mp h1 with h2 | h2
        · simp at h2
        · rcases List.mem_flatMap.mp h2 with ⟨rl, -, hm⟩
          rcases List.mem_append.mp hm with h3 | h3
          · rcases List.mem_map.mp h3 with ⟨x, -, hx⟩
            exact absurd hx (by simp)
          · simp at h3
      · exact ih _ _ q wd h1

/-- C5: `write_binary_file` emits file version 4 with 8-byte index fields exactly
when some cell block stores its indices in 8-byte integers, and otherwise
version 3 with 4-byte index fields; in both cases 8-byte floats, 8-byte
stream-position fields and 4-byte keyword/tag fields (native byte order is the
code word 1 leading the header).  Concretely: the width prologue equals the
version-selected profile; the emitted header is code 1 (4 bytes), the version
(4 bytes), tag 3 (4 bytes), position 24 (8 bytes), dimension (4 bytes); the
vertices block header is a 4-byte keyword, an 8-byte position, an index-width
count; every float word is 8 bytes wide; the stream ends with the 4-byte GmfEnd
keyword and an 8-byte zero position. -/
theorem C5_binary_writer_widths (mesh : Mesh) :
    (binary_write_params mesh =
      if ∃ b ∈ mesh.cells, b.itemsize = 8 then (4, 8, 8, 8, 4) else (3, 4, 8, 8, 4))
    ∧ ((write_binary_file mesh).1.take 5
        = [BinWord.int 1 4, BinWord.int (binary_write_params mesh).1 4, BinWord.int 3 4,
           BinWord.int 24 8, BinWord.int (mesh.points.headI.length : Int) 4])
    ∧ (∃ p : Int, ((write_binary_file mesh).1.drop 5).take 3
        = [BinWord.int 4 4, BinWord.int p 8,
           BinWord.int (mesh.points.length : Int) (binary_write_params mesh).2.1])
    ∧ (∀ w ∈ (write_binary_file mesh).1, ∀ q wd, w = BinWord.flt q wd → wd = 8)
    ∧ (∃ pre, (write_binary_file mesh).1 = pre ++ [BinWord.int 54 4, BinWord.int 0 8]) := by
  have h1 : (binary_write_params mesh).2.2.2.2 = 4 := by unfold binary_write_params; rfl
  have h2 : (binary_write_params mesh).2.2.2.1 = 8 := by unfold binary_write_params; rfl
  have h3 : (binary_write_params mesh).2.2.1 = 8 := by unfold binary_write_params; rfl
  refine ⟨?_, ?_, ?_, ?_, ?_⟩
  · unfold binary_write_params
    by_cases h : ∃ b ∈ mesh.cells, b.itemsize = 8
    · have ha : mesh.cells.any (fun b => b.itemsize == 8) = true := by
        rcases h with ⟨b, hb, he⟩
        exact List.any_eq_true.mpr ⟨b, hb, beq_iff_eq.mpr he⟩
      simp [ha, h]
    · have ha : mesh.cells.any (fun b => b.itemsize == 8) = false := by
        rw [Bool.eq_false_iff]
        intro hc
        rcases List.any_eq_true.mp hc with ⟨b, hb, he⟩
        exact h ⟨b, hb, beq_iff_eq.mp he⟩
      simp [ha, h]
  · simp only [write_binary_file]
    rw [h1, h2]
    simp [List.append_assoc]
  · simp only [write_binary_file]
    rw [h1, h2]
    simp only [List.append_assoc, List.cons_append, List.nil_append, List.drop_succ_cons,
      List.drop_zero, List.take_succ_cons, List.take_zero]
    exact ⟨_, rfl⟩
  · intro w hw q wd hflt
    subst hflt
    simp only [write_binary_file] at hw
    rcases List.mem_append.mp hw with h | h
    · rcases List.mem_append.mp h with h | h
      · rcases List.mem_append.mp h with h | h
        · rcases List.mem_append.mp h with h | h
          · simp at h
          · simp at h
        · rcases List.mem_flatMap.mp h with ⟨rl, -, hm⟩
          rcases List.mem_append.mp hm with hc | hc
          · rcases List.mem_map.mp hc with ⟨x, -, hx⟩
            have := congrArg (fun z => match z with | BinWord.flt _ ww => ww | _ => 0) hx
            simpa [h3] using this.symm
          · simp at hc
      · exact absurd h (writeCellBlocksB_no_float _ _ _ _ _ _ q wd)
    · simp at h
  · simp only [write_binary_file]
    rw [h1, h2]
    exact ⟨_, rfl⟩

/-- C7: `read_binary_buffer` raises the fatal ReadError when the leading 4-byte
code word is neither 1 nor 16777216, when the version is outside 1..4, when the
third header field is not the dimension tag 3, or when the dimension payload is
neither 2 nor 3; when all four checks pass it proceeds to the block-dispatch
loop with the version-derived widths. -/
theorem C7_binary_header_validation :
    (∀ (c : Int) (ws : List BinWord), c ≠ 1 → c ≠ 16777216 →
      read_binary_buffer (BinWord.int c 4 :: ws) = .error (.readError "Invalid code"))
    ∧ (∀ (c v : Int) (ws : List BinWord), (c = 1 ∨ c = 16777216) → (v < 1 ∨ v > 4) →
      read_binary_buffer (BinWord.int c 4 :: BinWord.int v 4 :: ws)
        = .error (.readError "Invalid version"))
    ∧ (∀ (c v f : Int) (ws : List BinWord), (c = 1 ∨ c = 16777216) → 1 ≤ v → v ≤ 4 → f ≠ 3 →
      read_binary_buffer (BinWord.int c 4 :: BinWord.int v 4 :: BinWord.int f 4 :: ws)
        = .error (.readError ("Invalid dimension code : " ++ toString f ++ " it should be 3")))
    ∧ (∀ (c v d p : Int) (ws : List BinWord), (c = 1 ∨ c = 16777216) → 1 ≤ v → v ≤ 4 →
      d ≠ 2 → d ≠ 3 →
      read_binary_buffer (BinWord.int c 4 :: BinWord.int v 4 :: BinWord.int 3 4 ::
        BinWord.int p (if v ≤ 2 then 4 else 8) :: BinWord.int d 4 :: ws)
        = .error (.readError ("Invalid mesh dimension : " ++ toString d)))
    ∧ (∀ (c v d p : Int) (ws : List BinWord), (c = 1 ∨ c = 16777216) → 1 ≤ v → v ≤ 4 →
      (d = 2 ∨ d = 3) →
      read_binary_buffer (BinWord.int c 4 :: BinWord.int v 4 :: BinWord.int 3 4 ::
        BinWord.int p (if v ≤ 2 then 4 else 8) :: BinWord.int d 4 :: ws)
        = runB (ws.length + 1)
            { dim := d.toNat, itype := if v ≤ 3 then 4 else 8,
              ftype := if v = 1 then 4 else 8, postype := if v ≤ 2 then 4 else 8,
              keytype := 4, swapped := c = 16777216,
              points := none, point_ref := none, cells := [], cell_ref := [],
              warns := [] } ws) := by
  refine ⟨?_, ?_, ?_, ?_, ?_⟩
  · intro c ws hc1 hc2
    simp [read_binary_buffer, readIntW, hc1, hc2]
  · intro c v ws hc hv
    rcases hc with rfl | rfl <;> simp [read_binary_buffer, readIntW, hv]
  · intro c v f ws hc hv1 hv2 hf
    have hnv : ¬ (v < 1 ∨ v > 4) := by omega
    rcases hc with rfl | rfl <;> simp [read_binary_buffer, readIntW, hnv, hf]
  · intro c v d p ws hc hv1 hv2 hd2 hd3
    have hnv : ¬ (v < 1 ∨ v > 4) := by omega
    rcases hc with rfl | rfl <;> simp [read_binary_buffer, readIntW, hnv, hd2, hd3]
  · intro c v d p ws hc hv1 hv2 hd
    have hnv : ¬ (v < 1 ∨ v > 4) := by omega
    have hd2 : ¬ (d ≠ 2 ∧ d ≠ 3) := by rcases hd with rfl | rfl <;> simp
    rcases hc with rfl | rfl <;> simp [read_binary_buffer, readIntW, hnv, hd2]

/-- Witness for C7 at concrete header words. -/
theorem C7_binary_header_validation_witness :
    (read_binary_buffer [BinWord.int 7 4] = .error (.readError "Invalid code"))
    ∧ (read_binary_buffer [BinWord.int 1 4, BinWord.int 5 4]
        = .error (.readError "Invalid version"))
    ∧ (read_binary_buffer [BinWord.int 1 4, BinWord.int 2 4, BinWord.int 9 4]
        = .error (.readError ("Invalid dimension code : " ++ toString (9 : Int)
            ++ " it should be 3")))
    ∧ (read_binary_buffer [BinWord.int 1 4, BinWord.int 2 4, BinWord.int 3 4,
        BinWord.int 0 (if (2 : Int) ≤ 2 then 4 else 8), BinWord.int 5 4]
        = .error (.readError ("Invalid mesh dimension : " ++ toString (5 : Int))))
    ∧ (read_binary_buffer [BinWord.int 1 4, BinWord.int 3 4, BinWord.int 3 4,
        BinWord.int 0 (if (3 : Int) ≤ 2 then 4 else 8), BinWord.int 3 4]
        = runB 1
            { dim := (3 : Int).toNat, itype := if (3 : Int) ≤ 3 then 4 else 8,
              ftype := if (3 : Int) = 1 then 4 else 8, postype := if (3 : Int) ≤ 2 then 4 else 8,
              keytype := 4, swapped := (1 : Int) = 16777216,
              points := none, point_ref := none, cells := [], cell_ref := [],
              warns := [] } []) :=
  ⟨C7_binary_header_validation.1 7 [] (by decide) (by decide),
   C7_binary_header_validation.2.1 1 5 [] (Or.inl rfl) (by omega),
   C7_binary_header_validation.2.2.1 1 2 9 [] (Or.inl rfl) (by omega) (by omega) (by decide),
   C7_binary_header_validation.2.2.2.1 1 2 5 0 [] (Or.inl rfl) (by omega) (by omega)
     (by decide) (by decide),
   C7_binary_header_validation.2.2.2.2 1 3 3 0 [] (Or.inl rfl) (by omega) (by omega)
     (Or.inr rfl)⟩

theorem readFieldsW_ints (iw fw : Nat) :
    ∀ (row : List Int) (ws : List BinWord),
      readFieldsW iw fw (List.replicate row.length .idx)
        (row.map (fun v => BinWord.int v iw) ++ ws) = some (row.map FVal.i, ws) := by
  intro row
  induction row with
  | nil => intro ws; rfl
  | cons a t ih =>
    intro ws
    simp [List.replicate_succ, readFieldsW, readIntW, ih]

theorem readFieldsW_vertex (iw fw : Nat) :
    ∀ (row : List ℚ) (lab : Int) (ws : List BinWord),
      readFieldsW iw fw (List.replicate row.length .flt ++ [.idx])
        (row.map (fun q => BinWord.flt q fw) ++ BinWord.int lab iw :: ws)
        = some (row.map FVal.r ++ [FVal.i lab], ws) := by
  intro row
  induction row with
  | nil => intro lab ws; simp [readFieldsW, readIntW]
  | cons q t ih =>
    intro lab ws
    simp [List.replicate_succ, readFieldsW, readFltW, ih]

theorem readRecordsW_concat {β : Type} (iw fw : Nat) (fl : List FKind)
    (enc : β → List BinWord) (dec : β → List FVal) :
    ∀ (rows : List β),
      (∀ row ∈ rows, ∀ ws2 : List BinWord,
        readFieldsW iw fw fl (enc row ++ ws2) = some (dec row, ws2)) →
      ∀ ws : List BinWord,
        readRecordsW iw fw fl rows.length (rows.flatMap enc ++ ws) = some (rows.map dec, ws) := by
  intro rows
  induction rows with
  | nil => intro _ ws; rfl
  | cons r t ih =>
    intro h ws
    simp only [List.length_cons, List.flatMap_cons, List.map_cons, List.append_assoc]
    rw [readRecordsW, h r (List.mem_cons_self _ _)]
    dsimp only
    rw [ih (fun row hr => h row (List.mem_cons_of_mem _ hr)) ws]
    rfl

theorem expandTemplate_ireplicate (dim : Nat) :
    ∀ k : Nat, expandTemplate dim (List.replicate k 'i') = some (List.replicate k .idx) := by
  intro k
  induction k with
  | zero => rfl
  | succ k ih => simp [List.replicate_succ, expandTemplate, ih]

theorem expandTemplate_dri (dim : Nat) :
    expandTemplate dim ("dri".data) = some (List.replicate dim .flt ++ [.idx]) := by
  show expandTemplate dim ['d', 'r', 'i'] = _
  simp [expandTemplate]

theorem dict_bridge :
    ∀ (ty : String) (e : DictEntry), List.lookup ty DICT_MESHIO = some e → ty ≠ "point" →
      List.lookup e.2.2 medit_codes
          = some ("Gmf" ++ e.1, "i", String.mk (List.replicate (e.2.1 + 1) 'i'))
        ∧ List.lookup ("Gmf" ++ e.1) DICT_GMFMEDIT = some (ty, e.2.1, e.2.2)
        ∧ ("Gmf" ++ e.1) ≠ "GmfEnd" ∧ ("Gmf" ++ e.1) ≠ "GmfReserved"
        ∧ ("Gmf" ++ e.1) ≠ "GmfVertices" := by
  have key : ∀ p ∈ DICT_MESHIO, p.1 ≠ "point" →
      List.lookup p.2.2.2 medit_codes
          = some ("Gmf" ++ p.2.1, "i", String.mk (List.replicate (p.2.2.1 + 1) 'i'))
        ∧ List.lookup ("Gmf" ++ p.2.1) DICT_GMFMEDIT = some (p.1, p.2.2.1, p.2.2.2)
        ∧ ("Gmf" ++ p.2.1) ≠ "GmfEnd" ∧ ("Gmf" ++ p.2.1) ≠ "GmfReserved"
        ∧ ("Gmf" ++ p.2.1) ≠ "GmfVertices" := by decide
  intro ty e hl hpt
  exact key (ty, e) (lookup_mem hl) hpt

theorem recFloats_vertex (row : List ℚ) (lab : Int) :
    recFloats (row.map FVal.r ++ [FVal.i lab]) = row := by
  simp [recFloats, List.filterMap_append, List.filterMap_map]
  exact List.filterMap_some row

theorem recInts_vertex (row : List ℚ) (lab : Int) :
    recInts (row.map FVal.r ++ [FVal.i lab]) = [lab] := by
  simp [recInts, List.filterMap_append, List.filterMap_map]

theorem recInts_ints (row : List Int) :
    recInts (row.map FVal.i) = row := by
  simp [recInts, List.filterMap_map]
  exact List.filterMap_some row

theorem getD_append_len (l : List Int) (x d : Int) :
    (l ++ [x]).getD l.length d = x := by
  induction l with
  | nil => rfl
  | cons a t ih => simp [ih]

theorem readIntW_cons (w : Nat) (v : Int) (ws : List BinWord) :
    readIntW w (BinWord.int v w :: ws) = some (v, ws) := by
  simp [readIntW]

theorem readFltW_cons (w : Nat) (q : ℚ) (ws : List BinWord) :
    readFltW w (BinWord.flt q w :: ws) = some (q, ws) := by
  simp [readFltW]

theorem stepB_end (st : BinState) (hkey : st.keytype = 4) (rest : List BinWord) :
    stepB st (BinWord.int 54 4 :: rest) = .done (.ok (finalizeB st, st.warns)) := by
  unfold stepB
  rw [hkey, readIntW_cons]
  dsimp only
  rw [show List.lookup (54 : Int) medit_codes = some ("GmfEnd", "", "") from by decide]
  dsimp only
  rw [if_pos rfl]

theorem stepB_eof (st : BinState) :
    stepB st [] = .done (.ok (finalizeB st,
      st.warns ++ ["End-of-file reached before GmfEnd keyword"])) := by
  unfold stepB
  rfl

theorem stepB_unknown (st : BinState) (hkey : st.keytype = 4) (tag : Int)
    (htag : List.lookup tag medit_codes = none) (rest : List BinWord) :
    stepB st (BinWord.int tag 4 :: rest) = .done (.error (.readError "Unsupported field")) := by
  unfold stepB
  rw [hkey, readIntW_cons]
  dsimp only
  rw [htag]

theorem stepB_vertices (st : BinState) (hkey : st.keytype = 4)
    (points : List (List ℚ)) (labels : List Int) (pos : Int) (rest : List BinWord)
    (hrows : ∀ r ∈ points, r.length = st.dim) (hlab : labels.length = points.length) :
    stepB st (BinWord.int 4 4 :: BinWord.int pos st.postype ::
        BinWord.int (points.length : Int) st.itype ::
        ((points.zip labels).flatMap (fun rl =>
            rl.1.map (fun q => BinWord.flt q st.ftype) ++ [BinWord.int rl.2 st.itype]) ++ rest))
      = .cont { st with points := some points, point_ref := some labels } rest := by
  unfold stepB
  rw [hkey, readIntW_cons]
  dsimp only
  rw [show List.lookup (4 : Int) medit_codes = some ("GmfVertices", "i", "dri") from by decide]
  dsimp only
  rw [if_neg (by decide : ¬ ("GmfVertices" = "GmfEnd")),
    if_neg (by decide : ¬ ("GmfVertices" = "GmfReserved")), readIntW_cons]
  dsimp only
  rw [if_pos rfl, readIntW_cons]
  dsimp only
  rw [expandTemplate_dri]
  dsimp only
  have hzlen : (points.zip labels).length = points.length := by
    rw [List.length_zip, hlab, Nat.min_self]
  have hrec : readRecordsW st.itype st.ftype (List.replicate st.dim FKind.flt ++ [FKind.idx])
      ((points.length : Int)).toNat
      ((points.zip labels).flatMap (fun rl =>
        rl.1.map (fun q => BinWord.flt q st.ftype) ++ [BinWord.int rl.2 st.itype]) ++ rest)
      = some ((points.zip labels).map (fun rl => rl.1.map FVal.r ++ [FVal.i rl.2]), rest) := by
    rw [Int.toNat_natCast, ← hzlen]
    apply readRecordsW_concat
    intro rl hrl ws2
    have h1 : rl.1.length = st.dim := hrows rl.1 (List.of_mem_zip hrl).1
    rw [← h1, List.append_assoc, List.singleton_append]
    exact readFieldsW_vertex st.itype st.ftype rl.1 rl.2 ws2
  rw [hrec]
  dsimp only
  rw [show List.lookup "GmfVertices" DICT_GMFMEDIT = some ("point", 0, 4) from by decide]
  dsimp only
  rw [if_pos rfl]
  have hpts : List.map recFloats
      ((points.zip labels).map (fun rl => rl.1.map FVal.r ++ [FVal.i rl.2])) = points := by
    rw [List.map_map]
    have : ∀ rl ∈ points.zip labels,
        (recFloats ∘ fun rl => rl.1.map FVal.r ++ [FVal.i rl.2]) rl = rl.1 :=
      fun rl _ => recFloats_vertex rl.1 rl.2
    rw [List.map_congr_left this]
    exact List.map_fst_zip points labels (by omega)
  have hrefs : List.map (fun r => (recInts r).headI)
      ((points.zip labels).map (fun rl => rl.1.map FVal.r ++ [FVal.i rl.2])) = labels := by
    rw [List.map_map]
    have : ∀ rl ∈ points.zip labels,
        ((fun r => (recInts r).headI) ∘ fun rl => rl.1.map FVal.r ++ [FVal.i rl.2]) rl
          = rl.2 := by
      intro rl _
      show (recInts (rl.1.map FVal.r ++ [FVal.i rl.2])).headI = rl.2
      rw [recInts_vertex]
      rfl
    rw [List.map_congr_left this]
    exact List.map_snd_zip points labels (by omega)
  rw [hpts, hrefs]

theorem stepB_cell (st : BinState) (hkey : st.keytype = 4)
    (ty : String) (e : DictEntry) (he : List.lookup ty DICT_MESHIO = some e)
    (hpt : ty ≠ "point")
    (data : List (List Int)) (labels : List Int) (pos : Int) (rest : List BinWord)
    (hrows : ∀ r ∈ data, r.length = e.2.1) (hlab : labels.length = data.length) :
    stepB st (BinWord.int e.2.2 4 :: BinWord.int pos st.postype ::
        BinWord.int (data.length : Int) st.itype ::
        ((data.zip labels).flatMap (fun rl =>
            rl.1.map (fun x => BinWord.int (x + 1) st.itype) ++ [BinWord.int rl.2 st.itype])
          ++ rest))
      = .cont { st with cells := st.cells ++ [(ty, data)],
                        cell_ref := st.cell_ref ++ [labels] } rest := by
  obtain ⟨hcode, hgmf, hne, hnr, hnv⟩ := dict_bridge ty e he hpt
  unfold stepB
  rw [hkey, readIntW_cons]
  dsimp only
  rw [hcode]
  dsimp only
  rw [if_neg hne, if_neg hnr, readIntW_cons]
  dsimp only
  rw [if_pos rfl, readIntW_cons]
  dsimp only
  rw [expandTemplate_ireplicate]
  dsimp only
  have hzlen : (data.zip labels).length = data.length := by
    rw [List.length_zip, hlab, Nat.min_self]
  have hrec : readRecordsW st.itype st.ftype (List.replicate (e.2.1 + 1) FKind.idx)
      ((data.length : Int)).toNat
      ((data.zip labels).flatMap (fun rl =>
        rl.1.map (fun x => BinWord.int (x + 1) st.itype) ++ [BinWord.int rl.2 st.itype]) ++ rest)
      = some ((data.zip labels).map (fun rl =>
          (rl.1.map (fun x => x + 1) ++ [rl.2]).map FVal.i), rest) := by
    rw [Int.toNat_natCast, ← hzlen]
    apply readRecordsW_concat
    intro rl hrl ws2
    have h1 : rl.1.length = e.2.1 := hrows rl.1 (List.of_mem_zip hrl).1
    have henc : rl.1.map (fun x => BinWord.int (x + 1) st.itype) ++ [BinWord.int rl.2 st.itype]
        = (rl.1.map (fun x => x + 1) ++ [rl.2]).map (fun v => BinWord.int v st.itype) := by
      simp [List.map_map]
    have hlen2 : (rl.1.map (fun x => x + 1) ++ [rl.2]).length = e.2.1 + 1 := by
      simp [h1]
    rw [henc, show (e.2.1 + 1) = (rl.1.map (fun x => x + 1) ++ [rl.2]).length from hlen2.symm]
    exact readFieldsW_ints st.itype st.ftype _ ws2
  rw [hrec]
  dsimp only
  rw [hgmf]
  dsimp only
  rw [if_neg hnv]
  have hcells : List.map (fun r => List.map (fun x => x - 1) (List.take e.2.1 (recInts r)))
      ((data.zip labels).map (fun rl => (rl.1.map (fun x => x + 1) ++ [rl.2]).map FVal.i))
      = data := by
    rw [List.map_map]
    have : ∀ rl ∈ data.zip labels,
        ((fun r => List.map (fun x => x - 1) (List.take e.2.1 (recInts r)))
          ∘ fun rl => (rl.1.map (fun x => x + 1) ++ [rl.2]).map FVal.i) rl = rl.1 := by
      intro rl hrl
      have h1 : rl.1.length = e.2.1 := hrows rl.1 (List.of_mem_zip hrl).1
      show List.map (fun x => x - 1)
        (List.take e.2.1 (recInts (List.map FVal.i (List.map (fun x => x + 1) rl.1 ++ [rl.2]))))
        = rl.1
      rw [recInts_ints]
      have htake : List.take e.2.1 (List.map (fun x => x + 1) rl.1 ++ [rl.2])
          = List.map (fun x => x + 1) rl.1 := List.take_left' (by simp [h1])
      rw [htake, List.map_map]
      have hid : List.map ((fun x => x - 1) ∘ fun x => x + 1) rl.1 = List.map id rl.1 :=
        List.map_congr_left (fun x _ => by simp)
      rw [hid, List.map_id]
    rw [List.map_congr_left this]
    exact List.map_fst_zip data labels (by omega)
  have hrefs : List.map (fun r => (recInts r).getD e.2.1 0)
      ((data.zip labels).map (fun rl => (rl.1.map (fun x => x + 1) ++ [rl.2]).map FVal.i))
      = labels := by
    rw [List.map_map]
    have : ∀ rl ∈ data.zip labels,
        ((fun r => (recInts r).getD e.2.1 0)
          ∘ fun rl => (rl.1.map (fun x => x + 1) ++ [rl.2]).map FVal.i) rl = rl.2 := by
      intro rl hrl
      have h1 : rl.1.length = e.2.1 := hrows rl.1 (List.of_mem_zip hrl).1
      show (recInts (List.map FVal.i (List.map (fun x => x + 1) rl.1 ++ [rl.2]))).getD e.2.1 0
        = rl.2
      rw [recInts_ints]
      rw [show e.2.1 = (List.map (fun x => x + 1) rl.1).length from by simp [h1]]
      exact getD_append_len _ _ _
    rw [List.map_congr_left this]
    exact List.map_snd_zip data labels (by omega)
  rw [hcells, hrefs]

theorem flatMap_singleton_map {α β : Type} (f : α → β) (l : List α) :
    l.flatMap (fun v => [f v]) = l.map f := by
  induction l with
  | nil => rfl
  | cons a t ih => simp [ih]

theorem stepB_corners (st : BinState) (hkey : st.keytype = 4)
    (vals : List Int) (pos : Int) (rest : List BinWord) :
    stepB st (BinWord.int 13 4 :: BinWord.int pos st.postype ::
        BinWord.int (vals.length : Int) st.itype ::
        (vals.map (fun v => BinWord.int v st.itype) ++ rest))
      = .cont { st with warns := st.warns
          ++ ["meshio does not know " ++ "GmfCorners" ++ " type. Skipping."] } rest := by
  unfold stepB
  rw [hkey, readIntW_cons]
  dsimp only
  rw [show List.lookup (13 : Int) medit_codes = some ("GmfCorners", "i", "i") from by decide]
  dsimp only
  rw [if_neg (by decide : ¬ ("GmfCorners" = "GmfEnd")),
    if_neg (by decide : ¬ ("GmfCorners" = "GmfReserved")), readIntW_cons]
  dsimp only
  rw [if_pos rfl, readIntW_cons]
  dsimp only
  rw [show expandTemplate st.dim ['i'] = some [FKind.idx] from by simp [expandTemplate]]
  dsimp only
  have hrec : readRecordsW st.itype st.ftype [FKind.idx] ((vals.length : Int)).toNat
      (vals.map (fun v => BinWord.int v st.itype) ++ rest)
      = some (vals.map (fun v => [FVal.i v]), rest) := by
    rw [Int.toNat_natCast]
    have := readRecordsW_concat st.itype st.ftype [FKind.idx]
      (fun v => [BinWord.int v st.itype]) (fun v => [FVal.i v]) vals
      (fun v _ ws2 => by
        show readFieldsW st.itype st.ftype [FKind.idx] (BinWord.int v st.itype :: ws2) = _
        rw [readFieldsW, readIntW_cons]
        rfl)
      rest
    rw [flatMap_singleton_map] at this
    exact this
  rw [hrec]
  dsimp only
  rw [show List.lookup "GmfCorners" DICT_GMFMEDIT = none from by decide]

theorem runB_succ (f : Nat) (st : BinState) (ws : List BinWord) :
    runB (f + 1) st ws = match stepB st ws with
      | .done r => r
      | .cont st2 ws2 => runB f st2 ws2 := rfl

/-- C6: registry-lookup failure is handled three ways.  On write (binary and
ASCII), an element type absent from `DICT_MESHIO` makes the emitter skip that
block with a warning and continue with the remaining blocks.  On binary read, a
numeric tag absent from `medit_codes` raises the fatal ReadError.  A tag present
in `medit_codes` but unmapped in `DICT_GMFMEDIT` (the `GmfCorners` tag 13) is
skipped with a warning after its whole payload has been consumed from the
stream, and the loop continues on the remaining words. -/
theorem C6_registry_lookup_failure :
    (∀ (iw : Nat) (key : Option String) (cd : List (String × List (List Int)))
      (k : Nat) (pos : Int) (b : CellBlock) (rest : List CellBlock),
      List.lookup b.type DICT_MESHIO = none →
      (writeCellBlocksB iw key cd k pos (b :: rest)).1
          = (writeCellBlocksB iw key cd (k + 1) pos rest).1
        ∧ (writeCellBlocksB iw key cd k pos (b :: rest)).2.1
          = ("MEDIT mesh format does not know " ++ b.type ++ " cells. Skipping.")
              :: (writeCellBlocksB iw key cd (k + 1) pos rest).2.1)
    ∧ (∀ (key : Option String) (cd : List (String × List (List Int)))
      (k : Nat) (b : CellBlock) (rest : List CellBlock),
      List.lookup b.type DICT_MESHIO = none →
      (writeCellBlocksA key cd k (b :: rest)).1 = (writeCellBlocksA key cd (k + 1) rest).1
        ∧ (writeCellBlocksA key cd k (b :: rest)).2
          = ("MEDIT mesh format does not know " ++ b.type ++ " cells. Skipping.")
              :: (writeCellBlocksA key cd (k + 1) rest).2)
    ∧ (∀ (st : BinState), st.keytype = 4 → ∀ (tag : Int) (rest : List BinWord),
      List.lookup tag medit_codes = none →
      stepB st (BinWord.int tag 4 :: rest) = .done (.error (.readError "Unsupported field")))
    ∧ (∀ (st : BinState), st.keytype = 4 → ∀ (vals : List Int) (pos : Int) (rest : List BinWord),
      stepB st (BinWord.int 13 4 :: BinWord.int pos st.postype ::
          BinWord.int (vals.length : Int) st.itype ::
          (vals.map (fun v => BinWord.int v st.itype) ++ rest))
        = .cont { st with warns := st.warns
            ++ ["meshio does not know " ++ "GmfCorners" ++ " type. Skipping."] } rest) := by
  refine ⟨?_, ?_, ?_, ?_⟩
  · intro iw key cd k pos b rest h
    rw [writeCellBlocksB, h]
    exact ⟨rfl, rfl⟩
  · intro key cd k b rest h
    rw [writeCellBlocksA, h]
    exact ⟨rfl, rfl⟩
  · intro st hkey tag rest h
    exact stepB_unknown st hkey tag h rest
  · intro st hkey vals pos rest
    exact stepB_corners st hkey vals pos rest

/-- Witness for C6 at a concrete unregistered block, unknown tag, and Corners
block. -/
theorem C6_registry_lookup_failure_witness :
    ((writeCellBlocksB 4 none [] 0 0 [⟨"polygon", [[0, 1, 2]], 4⟩]).1
        = (writeCellBlocksB 4 none [] 1 0 []).1)
    ∧ ((writeCellBlocksA none [] 0 [⟨"polygon", [[0, 1, 2]], 4⟩]).2
        = ["MEDIT mesh format does not know " ++ "polygon" ++ " cells. Skipping."])
    ∧ (stepB ⟨3, 4, 8, 8, 4, false, none, none, [], [], []⟩ [BinWord.int 99 4]
        = .done (.error (.readError "Unsupported field")))
    ∧ (stepB ⟨3, 4, 8, 8, 4, false, none, none, [], [], []⟩
        (BinWord.int 13 4 :: BinWord.int 0 8 ::
          BinWord.int (([5] : List Int).length : Int) 4 ::
          (([5] : List Int).map (fun v => BinWord.int v 4) ++ [BinWord.int 54 4]))
        = .cont ⟨3, 4, 8, 8, 4, false, none, none, [], [],
            [] ++ ["meshio does not know " ++ "GmfCorners" ++ " type. Skipping."]⟩
          [BinWord.int 54 4]) :=
  ⟨(C6_registry_lookup_failure.1 4 none [] 0 0 ⟨"polygon", [[0, 1, 2]], 4⟩ [] (by decide)).1,
   by
    rw [(C6_registry_lookup_failure.2.1 none [] 0 ⟨"polygon", [[0, 1, 2]], 4⟩ [] (by decide)).2]
    rfl,
   C6_registry_lookup_failure.2.2.1 _ rfl 99 [] (by decide),
   C6_registry_lookup_failure.2.2.2 _ rfl [5] 0 [BinWord.int 54 4]⟩

/-- C8: when the binary stream is exhausted at the point where the next block tag
would be read, the reader warns and returns the mesh accumulated so far rather
than raising an error: this holds at every loop state, and end to end for a file
whose stream ends right after its vertices block with no GmfEnd tag. -/
theorem C8_truncated_stream_warns :
    (∀ st : BinState, stepB st [] = .done (.ok (finalizeB st,
        st.warns ++ ["End-of-file reached before GmfEnd keyword"])))
    ∧ (∀ (points : List (List ℚ)) (labels : List Int) (pos : Int),
        (∀ r ∈ points, r.length = 3) → labels.length = points.length →
        read_binary_buffer ([BinWord.int 1 4, BinWord.int 2 4, BinWord.int 3 4,
            BinWord.int 0 4, BinWord.int 3 4]
          ++ (BinWord.int 4 4 :: BinWord.int pos 4 ::
              BinWord.int (points.length : Int) 4 ::
              ((points.zip labels).flatMap (fun rl =>
                rl.1.map (fun q => BinWord.flt q 8) ++ [BinWord.int rl.2 4]) ++ [])))
          = .ok (⟨some points, [], some labels, []⟩,
                 ["End-of-file reached before GmfEnd keyword"])) := by
  constructor
  · exact stepB_eof
  · intro points labels pos hrows hlab
    rw [show read_binary_buffer ([BinWord.int 1 4, BinWord.int 2 4, BinWord.int 3 4,
            BinWord.int 0 4, BinWord.int 3 4]
          ++ (BinWord.int 4 4 :: BinWord.int pos 4 ::
              BinWord.int (points.length : Int) 4 ::
              ((points.zip labels).flatMap (fun rl =>
                rl.1.map (fun q => BinWord.flt q 8) ++ [BinWord.int rl.2 4]) ++ [])))
        = runB ((BinWord.int 4 4 :: BinWord.int pos 4 ::
              BinWord.int (points.length : Int) 4 ::
              ((points.zip labels).flatMap (fun rl =>
                rl.1.map (fun q => BinWord.flt q 8) ++ [BinWord.int rl.2 4]) ++ [])).length + 1)
            ⟨3, 4, 8, 4, 4, false, none, none, [], [], []⟩
            (BinWord.int 4 4 :: BinWord.int pos 4 ::
              BinWord.int (points.length : Int) 4 ::
              ((points.zip labels).flatMap (fun rl =>
                rl.1.map (fun q => BinWord.flt q 8) ++ [BinWord.int rl.2 4]) ++ []))
      from by simp [read_binary_buffer, readIntW]]
    have hlen : (BinWord.int 4 4 :: BinWord.int pos 4 ::
        BinWord.int (points.length : Int) 4 ::
        ((points.zip labels).flatMap (fun rl =>
          rl.1.map (fun q => BinWord.flt q 8) ++ [BinWord.int rl.2 4]) ++ [])).length
        = ((points.zip labels).flatMap (fun rl =>
          rl.1.map (fun q => BinWord.flt q 8) ++ [BinWord.int rl.2 4])).length + 3 := by
      simp
    rw [hlen, runB_succ]
    rw [show (BinWord.int 4 4 :: BinWord.int pos 4 ::
        BinWord.int (points.length : Int) 4 ::
        ((points.zip labels).flatMap (fun rl =>
          rl.1.map (fun q => BinWord.flt q 8) ++ [BinWord.int rl.2 4]) ++ []))
      = (BinWord.int 4 4 :: BinWord.int
          (pos : Int) (⟨3, 4, 8, 4, 4, false, none, none, [], [], []⟩ : BinState).postype ::
          BinWord.int (points.length : Int)
            (⟨3, 4, 8, 4, 4, false, none, none, [], [], []⟩ : BinState).itype ::
          ((points.zip labels).flatMap (fun rl =>
            rl.1.map (fun q => BinWord.flt q
              (⟨3, 4, 8, 4, 4, false, none, none, [], [], []⟩ : BinState).ftype)
            ++ [BinWord.int rl.2
              (⟨3, 4, 8, 4, 4, false, none, none, [], [], []⟩ : BinState).itype]) ++ []))
      from rfl]
    rw [stepB_vertices _ rfl points labels pos [] hrows hlab]
    dsimp only
    rw [runB_succ, stepB_eof]
    rfl

/-- Witness for C8 at a concrete one-point truncated stream. -/
theorem C8_truncated_stream_warns_witness :
    read_binary_buffer ([BinWord.int 1 4, BinWord.int 2 4, BinWord.int 3 4,
        BinWord.int 0 4, BinWord.int 3 4]
      ++ (BinWord.int 4 4 :: BinWord.int 0 4 ::
          BinWord.int (([[0, 0, 0]] : List (List ℚ)).length : Int) 4 ::
          ((([[0, 0, 0]] : List (List ℚ)).zip ([7] : List Int)).flatMap (fun rl =>
            rl.1.map (fun q => BinWord.flt q 8) ++ [BinWord.int rl.2 4]) ++ [])))
      = .ok (⟨some [[0, 0, 0]], [], some [7], []⟩,
             ["End-of-file reached before GmfEnd keyword"]) :=
  C8_truncated_stream_warns.2 [[0, 0, 0]] [7] 0 (by decide) (by decide)

theorem readline_sub : ∀ (ts l r : List Tok), readline ts = some (l, r) →
    (∀ t ∈ l, t ∈ ts) ∧ (∀ t ∈ r, t ∈ ts) ∧ r.length < ts.length := by
  intro ts
  induction ts with
  | nil => intro l r h; simp [readline] at h
  | cons t ts ih =>
    intro l r h
    cases t with
    | nl =>
      rw [readline] at h
      obtain ⟨rfl, rfl⟩ : l = [] ∧ r = ts := by
        constructor <;> · injection h with h2; injection h2 with ha hb; simp_all
      refine ⟨by simp, fun x hx => List.mem_cons_of_mem _ hx, by simp⟩
    | kw s =>
      rw [show readline (Tok.kw s :: ts)
          = some (match readline ts with
                  | none => ([Tok.kw s], [])
                  | some lr => (Tok.kw s :: lr.1, lr.2)) from rfl] at h
      cases hr : readline ts with
      | none =>
        rw [hr] at h
        obtain ⟨rfl, rfl⟩ : l = [Tok.kw s] ∧ r = [] := by
          constructor <;> · injection h with h2; injection h2 with ha hb; simp_all
        refine ⟨by simp, by simp, by simp⟩
      | some lr =>
        rw [hr] at h
        obtain ⟨rfl, rfl⟩ : l = Tok.kw s :: lr.1 ∧ r = lr.2 := by
          constructor <;> · injection h with h2; injection h2 with ha hb; simp_all
        obtain ⟨h1, h2, h3⟩ := ih lr.1 lr.2 (by rw [hr])
        refine ⟨?_, fun x hx => List.mem_cons_of_mem _ (h2 x hx), by simp; omega⟩
        intro x hx
        rcases List.mem_cons.mp hx with rfl | hx2
        · exact List.mem_cons_self _ _
        · exact List.mem_cons_of_mem _ (h1 x hx2)
    | num q =>
      rw [show readline (Tok.num q :: ts)
          = some (match readline ts with
                  | none => ([Tok.num q], [])
                  | some lr => (Tok.num q :: lr.1, lr.2)) from rfl] at h
      cases hr : readline ts with
      | none =>
        rw [hr] at h
        obtain ⟨rfl, rfl⟩ : l = [Tok.num q] ∧ r = [] := by
          constructor <;> · injection h with h2; injection h2 with ha hb; simp_all
        refine ⟨by simp, by simp, by simp⟩
      | some lr =>
        rw [hr] at h
        obtain ⟨rfl, rfl⟩ : l = Tok.num q :: lr.1 ∧ r = lr.2 := by
          constructor <;> · injection h with h2; injection h2 with ha hb; simp_all
        obtain ⟨h1, h2, h3⟩ := ih lr.1 lr.2 (by rw [hr])
        refine ⟨?_, fun x hx => List.mem_cons_of_mem _ (h2 x hx), by simp; omega⟩
        intro x hx
        rcases List.mem_cons.mp hx with rfl | hx2
        · exact List.mem_cons_self _ _
        · exact List.mem_cons_of_mem _ (h1 x hx2)

theorem takeToks_sub : ∀ (ts : List Tok) (n : Nat) (vs : List ℚ) (r : List Tok),
    takeToks n ts = some (vs, r) → (∀ t ∈ r, t ∈ ts) ∧ r.length ≤ ts.length := by
  intro ts
  induction ts with
  | nil =>
    intro n vs r h
    cases n with
    | zero =>
      obtain ⟨rfl, rfl⟩ : vs = [] ∧ r = [] := by
        rw [takeToks] at h
        constructor <;> · injection h with h2; injection h2 with ha hb; simp_all
      exact ⟨by simp, by simp⟩
    | succ n => rw [takeToks] at h; cases h
  | cons t ts ih =>
    intro n vs r h
    cases n with
    | zero =>
      obtain ⟨rfl, rfl⟩ : vs = [] ∧ r = t :: ts := by
        rw [takeToks] at h
        constructor <;> · injection h with h2; injection h2 with ha hb; simp_all
      exact ⟨fun x hx => hx, le_rfl⟩
    | succ n =>
      cases t with
      | nl =>
        rw [show takeToks (n + 1) (Tok.nl :: ts) = takeToks (n + 1) ts from rfl] at h
        obtain ⟨h1, h2⟩ := ih (n + 1) vs r h
        exact ⟨fun x hx => List.mem_cons_of_mem _ (h1 x hx), by simp; omega⟩
      | kw s =>
        rw [show takeToks (n + 1) (Tok.kw s :: ts) = none from rfl] at h
        cases h
      | num q =>
        rw [show takeToks (n + 1) (Tok.num q :: ts)
            = (takeToks n ts).map (fun p => (q :: p.1, p.2)) from rfl] at h
        cases hr : takeToks n ts with
        | none => rw [hr] at h; cases h
        | some p =>
          rw [hr] at h
          obtain ⟨rfl, rfl⟩ : vs = q :: p.1 ∧ r = p.2 := by
            constructor <;> · injection h with h2; injection h2 with ha hb; simp_all
          obtain ⟨h1, h2⟩ := ih n p.1 p.2 hr
          exact ⟨fun x hx => List.mem_cons_of_mem _ (h1 x hx), by simp; omega⟩

theorem takeToksInt_sub : ∀ (ts : List Tok) (n : Nat) (vs : List Int) (r : List Tok),
    takeToksInt n ts = some (vs, r) → (∀ t ∈ r, t ∈ ts) ∧ r.length ≤ ts.length := by
  intro ts
  induction ts with
  | nil =>
    intro n vs r h
    cases n with
    | zero =>
      obtain ⟨rfl, rfl⟩ : vs = [] ∧ r = [] := by
        rw [takeToksInt] at h
        constructor <;> · injection h with h2; injection h2 with ha hb; simp_all
      exact ⟨by simp, by simp⟩
    | succ n => rw [takeToksInt] at h; cases h
  | cons t ts ih =>
    intro n vs r h
    cases n with
    | zero =>
      obtain ⟨rfl, rfl⟩ : vs = [] ∧ r = t :: ts := by
        rw [takeToksInt] at h
        constructor <;> · injection h with h2; injection h2 with ha hb; simp_all
      exact ⟨fun x hx => hx, le_rfl⟩
    | succ n =>
      cases t with
      | nl =>
        rw [show takeToksInt (n + 1) (Tok.nl :: ts) = takeToksInt (n + 1) ts from rfl] at h
        obtain ⟨h1, h2⟩ := ih (n + 1) vs r h
        exact ⟨fun x hx => List.mem_cons_of_mem _ (h1 x hx), by simp; omega⟩
      | kw s =>
        rw [show takeToksInt (n + 1) (Tok.kw s :: ts) = none from rfl] at h
        cases h
      | num q =>
        rw [show takeToksInt (n + 1) (Tok.num q :: ts)
            = (if q.den = 1 then (takeToksInt n ts).map (fun p => (q.num :: p.1, p.2))
               else none) from rfl] at h
        by_cases hq : q.den = 1
        · rw [if_pos hq] at h
          cases hr : takeToksInt n ts with
          | none => rw [hr] at h; cases h
          | some p =>
            rw [hr] at h
            obtain ⟨rfl, rfl⟩ : vs = q.num :: p.1 ∧ r = p.2 := by
              constructor <;> · injection h with h2; injection h2 with ha hb; simp_all
            obtain ⟨h1, h2⟩ := ih n p.1 p.2 hr
            exact ⟨fun x hx => List.mem_cons_of_mem _ (h1 x hx), by simp; omega⟩
        · rw [if_neg hq] at h; cases h

theorem dropLines_sub : ∀ (n : Nat) (ts : List Tok),
    (∀ t ∈ dropLines n ts, t ∈ ts) ∧ (dropLines n ts).length ≤ ts.length := by
  intro n
  induction n with
  | zero => intro ts; exact ⟨fun x hx => hx, le_rfl⟩
  | succ n ih =>
    intro ts
    rw [dropLines]
    cases hr : readline ts with
    | none => dsimp only; exact ih ts
    | some lr =>
      dsimp only
      obtain ⟨-, h2, h3⟩ := readline_sub ts lr.1 lr.2 hr
      obtain ⟨h4, h5⟩ := ih lr.2
      exact ⟨fun x hx => h2 x (h4 x hx), by omega⟩

theorem handleMVF_spec (st : AscState) (line ts : List Tok) :
    (∀ res, handleMVF st line ts = .done res → ∃ e, res = .error e ∧ e ≠ Err.outOfFuel)
    ∧ (∀ st' ts', handleMVF st line ts = .cont st' ts' →
        st'.points = st.points ∧ (∀ t ∈ ts', t ∈ ts) ∧ ts'.length ≤ ts.length) := by
  constructor
  · intro res h
    unfold handleMVF at h
    repeat' split at h
    all_goals cases h
    all_goals exact ⟨_, rfl, by simp⟩
  · intro st' ts' h
    unfold handleMVF at h
    repeat' split at h
    all_goals cases h
    all_goals exact ⟨rfl, fun t ht => ht, le_rfl⟩

theorem handleDimension_spec (st : AscState) (line ts : List Tok) :
    (∀ res, handleDimension st line ts = .done res → ∃ e, res = .error e ∧ e ≠ Err.outOfFuel)
    ∧ (∀ st' ts', handleDimension st line ts = .cont st' ts' →
        st'.points = st.points ∧ (∀ t ∈ ts', t ∈ ts) ∧ ts'.length ≤ ts.length) := by
  constructor
  · intro res h
    unfold handleDimension at h
    repeat' split at h
    all_goals cases h
    all_goals exact ⟨_, rfl, by simp⟩
  · intro st' ts' h
    unfold handleDimension at h
    repeat' split at h
    all_goals cases h
    all_goals refine ⟨rfl, ?_, ?_⟩
    all_goals first
      | (intro t ht; exact ht)
      | exact le_rfl
      | (intro t ht; exact (readline_sub _ _ _ (by assumption)).2.1 t ht)
      | exact le_of_lt (readline_sub _ _ _ (by assumption)).2.2

theorem handleVertices_done (st : AscState) (ts : List Tok) :
    ∀ res, handleVertices st ts = .done res → ∃ e, res = .error e ∧ e ≠ Err.outOfFuel := by
  intro res h
  unfold handleVertices at h
  repeat' split at h
  all_goals cases h
  all_goals exact ⟨_, rfl, by simp⟩

theorem handleElement_spec (st : AscState) (entry : DictEntry) (ts : List Tok) :
    (∀ res, handleElement st entry ts = .done res → ∃ e, res = .error e ∧ e ≠ Err.outOfFuel)
    ∧ (∀ st' ts', handleElement st entry ts = .cont st' ts' →
        st'.points = st.points ∧ (∀ t ∈ ts', t ∈ ts) ∧ ts'.length ≤ ts.length) := by
  constructor
  · intro res h
    unfold handleElement at h
    repeat' split at h
    all_goals cases h
    all_goals exact ⟨_, rfl, by simp⟩
  · intro st' ts' h
    unfold handleElement at h
    repeat' split at h
    all_goals cases h
    all_goals refine ⟨rfl, ?_, ?_⟩
    all_goals first
      | (intro t ht;
          exact (readline_sub _ _ _ (by assumption)).2.1 t
            ((takeToksInt_sub _ _ _ _ (by assumption)).1 t ht))
      | exact le_of_lt (lt_of_le_of_lt (takeToksInt_sub _ _ _ _ (by assumption)).2
          (readline_sub _ _ _ (by assumption)).2.2)

theorem discardFloats_spec (st : AscState) (ts : List Tok) (mult : Int → Nat) :
    (∀ res, discardFloats st ts mult = .done res → ∃ e, res = .error e ∧ e ≠ Err.outOfFuel)
    ∧ (∀ st' ts', discardFloats st ts mult = .cont st' ts' →
        st'.points = st.points ∧ (∀ t ∈ ts', t ∈ ts) ∧ ts'.length ≤ ts.length) := by
  constructor
  · intro res h
    unfold discardFloats at h
    repeat' split at h
    all_goals cases h
    all_goals exact ⟨_, rfl, by simp⟩
  · intro st' ts' h
    unfold discardFloats at h
    repeat' split at h
    all_goals cases h
    all_goals refine ⟨rfl, ?_, ?_⟩
    all_goals first
      | (intro t ht;
          exact (readline_sub _ _ _ (by assumption)).2.1 t
            ((takeToks_sub _ _ _ _ (by assumption)).1 t ht))
      | exact le_of_lt (lt_of_le_of_lt (takeToks_sub _ _ _ _ (by assumption)).2
          (readline_sub _ _ _ (by assumption)).2.2)

theorem discardInts_spec (st : AscState) (ts : List Tok) (mult : Int → Nat) :
    (∀ res, discardInts st ts mult = .done res → ∃ e, res = .error e ∧ e ≠ Err.outOfFuel)
    ∧ (∀ st' ts', discardInts st ts mult = .cont st' ts' →
        st'.points = st.points ∧ (∀ t ∈ ts', t ∈ ts) ∧ ts'.length ≤ ts.length) := by
  constructor
  · intro res h
    unfold discardInts at h
    repeat' split at h
    all_goals cases h
    all_goals exact ⟨_, rfl, by simp⟩
  · intro st' ts' h
    unfold discardInts at h
    repeat' split at h
    all_goals cases h
    all_goals refine ⟨rfl, ?_, ?_⟩
    all_goals first
      | (intro t ht;
          exact (readline_sub _ _ _ (by assumption)).2.1 t
            ((takeToksInt_sub _ _ _ _ (by assumption)).1 t ht))
      | exact le_of_lt (lt_of_le_of_lt (takeToksInt_sub _ _ _ _ (by assumption)).2
          (readline_sub _ _ _ (by assumption)).2.2)

theorem handleIdentifier_spec (st : AscState) (ts : List Tok) :
    (∀ res, handleIdentifier st ts = .done res → ∃ e, res = .error e ∧ e ≠ Err.outOfFuel)
    ∧ (∀ st' ts', handleIdentifier st ts = .cont st' ts' →
        st'.points = st.points ∧ (∀ t ∈ ts', t ∈ ts) ∧ ts'.length ≤ ts.length) := by
  constructor
  · intro res h
    unfold handleIdentifier at h
    repeat' split at h
    all_goals cases h
  · intro st' ts' h
    unfold handleIdentifier at h
    repeat' split at h
    all_goals cases h
    all_goals refine ⟨rfl, ?_, ?_⟩
    all_goals first
      | (intro t ht; exact ht)
      | exact le_rfl
      | (intro t ht; exact (readline_sub _ _ _ (by assumption)).2.1 t ht)
      | exact le_of_lt (readline_sub _ _ _ (by assumption)).2.2

theorem skipKeyword_spec (st : AscState) (kw : String) (ts : List Tok) :
    (∀ res, skipKeyword st kw ts = .done res → ∃ e, res = .error e ∧ e ≠ Err.outOfFuel)
    ∧ (∀ st' ts', skipKeyword st kw ts = .cont st' ts' →
        st'.points = st.points ∧ (∀ t ∈ ts', t ∈ ts) ∧ ts'.length ≤ ts.length) := by
  constructor
  · intro res h
    unfold skipKeyword at h
    repeat' split at h
    all_goals cases h
    all_goals exact ⟨_, rfl, by simp⟩
  · intro st' ts' h
    unfold skipKeyword at h
    repeat' split at h
    all_goals cases h
    all_goals refine ⟨rfl, ?_, ?_⟩
    all_goals first
      | (intro t ht;
          exact (readline_sub _ _ _ (by assumption)).2.1 t ((dropLines_sub _ _).1 t ht))
      | exact le_of_lt (lt_of_le_of_lt (dropLines_sub _ _).2
          (readline_sub _ _ _ (by assumption)).2.2)


set_option maxHeartbeats 1000000 in
theorem handleLine_no_vertices (st : AscState) (l ts : List Tok)
    (hhead : l.headI ≠ Tok.kw "Vertices") :
    (∀ res, handleLine st l ts = .done res → ∃ e, res = .error e ∧ e ≠ Err.outOfFuel)
    ∧ (∀ st' ts', handleLine st l ts = .cont st' ts' →
        st'.points = st.points ∧ (∀ t ∈ ts', t ∈ ts) ∧ ts'.length ≤ ts.length) := by
  have hv : ¬ (tokKeyStr l.headI = "Vertices") := by
    intro h
    cases hl : l.headI with
    | kw s =>
      rw [hl] at h
      simp only [tokKeyStr] at h
      exact hhead (by rw [hl, h])
    | num q => rw [hl] at h; simp [tokKeyStr] at h
    | nl => rw [hl] at h; simp [tokKeyStr] at h
  constructor
  · intro res h
    unfold handleLine at h
    by_cases ha : ¬ tokIsAlpha l.headI = true
        ∧ (List.lookup (tokKeyStr l.headI) DICT_MEDIT).isNone = true
    · rw [if_pos ha] at h
      cases h
      exact ⟨_, rfl, by simp⟩
    · rw [if_neg ha] at h
      by_cases h1 : tokKeyStr l.headI = "MeshVersionFormatted"
      · rw [if_pos h1] at h
        exact (handleMVF_spec st l ts).1 res h
      · rw [if_neg h1] at h
        by_cases h2 : tokKeyStr l.headI = "Dimension"
        · rw [if_pos h2] at h
          exact (handleDimension_spec st l ts).1 res h
        · rw [if_neg h2] at h
          by_cases h3 : tokKeyStr l.headI = "Vertices"
          · rw [if_pos h3] at h
            exact handleVertices_done st ts res h
          · rw [if_neg h3] at h
            cases hlk : List.lookup (tokKeyStr l.headI) DICT_MEDIT with
            | some entry =>
              rw [hlk] at h
              exact (handleElement_spec st entry ts).1 res h
            | none =>
              rw [hlk] at h
              by_cases h4 : tokKeyStr l.headI = "Corners"
              · rw [if_pos h4] at h
                exact (discardFloats_spec st ts (fun n => n.toNat)).1 res h
              · rw [if_neg h4] at h
                by_cases h5 : tokKeyStr l.headI = "Normals"
                · rw [if_pos h5] at h
                  exact (discardFloats_spec st ts (fun n => n.toNat * st.dim.toNat)).1 res h
                · rw [if_neg h5] at h
                  by_cases h6 : tokKeyStr l.headI = "NormalAtVertices"
                  · rw [if_pos h6] at h
                    exact (discardInts_spec st ts (fun n => n.toNat * 2)).1 res h
                  · rw [if_neg h6] at h
                    by_cases h7 : tokKeyStr l.headI = "SubDomainFromMesh"
                    · rw [if_pos h7] at h
                      exact (discardInts_spec st ts (fun n => n.toNat * 4)).1 res h
                    · rw [if_neg h7] at h
                      by_cases h8 : tokKeyStr l.headI = "SubDomainFromGeom"
                      · rw [if_pos h8] at h
                        exact (discardInts_spec st ts (fun n => n.toNat * 4)).1 res h
                      · rw [if_neg h8] at h
                        by_cases h9 : tokKeyStr l.headI = "VertexOnGeometricVertex"
                        · rw [if_pos h9] at h
                          exact (discardInts_spec st ts (fun n => n.toNat * 2)).1 res h
                        · rw [if_neg h9] at h
                          by_cases h10 : tokKeyStr l.headI = "VertexOnGeometricEdge"
                          · rw [if_pos h10] at h
                            exact (discardFloats_spec st ts (fun n => n.toNat * 3)).1 res h
                          · rw [if_neg h10] at h
                            by_cases h11 : tokKeyStr l.headI = "EdgeOnGeometricEdge"
                            · rw [if_pos h11] at h
                              exact (discardInts_spec st ts (fun n => n.toNat * 2)).1 res h
                            · rw [if_neg h11] at h
                              by_cases h12 : tokKeyStr l.headI = "Identifier" ∨ tokKeyStr l.headI = "Geometry"
                              · rw [if_pos h12] at h
                                exact (handleIdentifier_spec st ts).1 res h
                              · rw [if_neg h12] at h
                                by_cases h13 : tokKeyStr l.headI = "RequiredVertices"
                                    ∨ tokKeyStr l.headI = "TangentAtVertices"
                                    ∨ tokKeyStr l.headI = "Tangents" ∨ tokKeyStr l.headI = "Ridges"
                                · rw [if_pos h13] at h
                                  exact (skipKeyword_spec st (tokKeyStr l.headI) ts).1 res h
                                · rw [if_neg h13] at h
                                  by_cases h14 : tokKeyStr l.headI = "End" ∨ tokKeyStr l.headI = "END"
                                  · rw [if_pos h14] at h
                                    cases h
                                  · rw [if_neg h14] at h
                                    cases h
                                    exact ⟨_, rfl, by simp⟩
  · intro st' ts' h
    unfold handleLine at h
    by_cases ha : ¬ tokIsAlpha l.headI = true
        ∧ (List.lookup (tokKeyStr l.headI) DICT_MEDIT).isNone = true
    · rw [if_pos ha] at h
      cases h
    · rw [if_neg ha] at h
      by_cases h1 : tokKeyStr l.headI = "MeshVersionFormatted"
      · rw [if_pos h1] at h
        exact (handleMVF_spec st l ts).2 st' ts' h
      · rw [if_neg h1] at h
        by_cases h2 : tokKeyStr l.headI = "Dimension"
        · rw [if_pos h2] at h
          exact (handleDimension_spec st l ts).2 st' ts' h
        · rw [if_neg h2] at h
          by_cases h3 : tokKeyStr l.headI = "Vertices"
          · exact absurd h3 hv
          · rw [if_neg h3] at h
            cases hlk : List.lookup (tokKeyStr l.headI) DICT_MEDIT with
            | some entry =>
              rw [hlk] at h
              exact (handleElement_spec st entry ts).2 st' ts' h
            | none =>
              rw [hlk] at h
              by_cases h4 : tokKeyStr l.headI = "Corners"
              · rw [if_pos h4] at h
                exact (discardFloats_spec st ts (fun n => n.toNat)).2 st' ts' h
              · rw [if_neg h4] at h
                by_cases h5 : tokKeyStr l.headI = "Normals"
                · rw [if_pos h5] at h
                  exact (discardFloats_spec st ts (fun n => n.toNat * st.dim.toNat)).2 st' ts' h
                · rw [if_neg h5] at h
                  by_cases h6 : tokKeyStr l.headI = "NormalAtVertices"
                  · rw [if_pos h6] at h
                    exact (discardInts_spec st ts (fun n => n.toNat * 2)).2 st' ts' h
                  · rw [if_neg h6] at h
                    by_cases h7 : tokKeyStr l.headI = "SubDomainFromMesh"
                    · rw [if_pos h7] at h
                      exact (discardInts_spec st ts (fun n => n.toNat * 4)).2 st' ts' h
                    · rw [if_neg h7] at h
                      by_cases h8 : tokKeyStr l.headI = "SubDomainFromGeom"
                      · rw [if_pos h8] at h
                        exact (discardInts_spec st ts (fun n => n.toNat * 4)).2 st' ts' h
                      · rw [if_neg h8] at h
                        by_cases h9 : tokKeyStr l.headI = "VertexOnGeometricVertex"
                        · rw [if_pos h9] at h
                          exact (discardInts_spec st ts (fun n => n.toNat * 2)).2 st' ts' h
                        · rw [if_neg h9] at h
                          by_cases h10 : tokKeyStr l.headI = "VertexOnGeometricEdge"
                          · rw [if_pos h10] at h
                            exact (discardFloats_spec st ts (fun n => n.toNat * 3)).2 st' ts' h
                          · rw [if_neg h10] at h
                            by_cases h11 : tokKeyStr l.headI = "EdgeOnGeometricEdge"
                            · rw [if_pos h11] at h
                              exact (discardInts_spec st ts (fun n => n.toNat * 2)).2 st' ts' h
                            · rw [if_neg h11] at h
                              by_cases h12 : tokKeyStr l.headI = "Identifier" ∨ tokKeyStr l.headI = "Geometry"
                              · rw [if_pos h12] at h
                                exact (handleIdentifier_spec st ts).2 st' ts' h
                              · rw [if_neg h12] at h
                                by_cases h13 : tokKeyStr l.headI = "RequiredVertices"
                                    ∨ tokKeyStr l.headI = "TangentAtVertices"
                                    ∨ tokKeyStr l.headI = "Tangents" ∨ tokKeyStr l.headI = "Ridges"
                                · rw [if_pos h13] at h
                                  exact (skipKeyword_spec st (tokKeyStr l.headI) ts).2 st' ts' h
                                · rw [if_neg h13] at h
                                  by_cases h14 : tokKeyStr l.headI = "End" ∨ tokKeyStr l.headI = "END"
                                  · rw [if_pos h14] at h
                                    cases h
                                    exact ⟨rfl, fun t ht => ht, le_rfl⟩
                                  · rw [if_neg h14] at h
                                    cases h

theorem stepA_no_vertices (st : AscState) (ts : List Tok)
    (hnv : Tok.kw "Vertices" ∉ ts) (hpts : st.points = none) :
    (∀ res, stepA st ts = .done res → ∃ e, res = .error e ∧ e ≠ Err.outOfFuel)
    ∧ (∀ st' ts', stepA st ts = .cont st' ts' →
        st'.points = none ∧ Tok.kw "Vertices" ∉ ts' ∧ ts'.length < ts.length) := by
  unfold stepA
  cases hr : readline ts with
  | none =>
    constructor
    · intro res h
      injection h with h2
      subst h2
      unfold finalizeA
      rw [hpts]
      exact ⟨_, rfl, by simp⟩
    · intro st' ts' h
      cases h
  | some lr =>
    obtain ⟨hl1, hl2, hl3⟩ := readline_sub ts lr.1 lr.2 hr
    dsimp only
    by_cases he : lr.1.isEmpty
    · rw [if_pos he]
      constructor
      · intro res h; cases h
      · intro st' ts' h
        cases h
        exact ⟨hpts, fun hm => hnv (hl2 _ hm), hl3⟩
    · rw [if_neg he]
      by_cases hc : isCommentLine lr.1
      · rw [if_pos hc]
        constructor
        · intro res h; cases h
        · intro st' ts' h
          cases h
          exact ⟨hpts, fun hm => hnv (hl2 _ hm), hl3⟩
      · rw [if_neg hc]
        have hhead : lr.1.headI ≠ Tok.kw "Vertices" := by
          intro hh
          have hne : lr.1 ≠ [] := by
            intro hnil
            rw [hnil] at he
            exact he rfl
          have hmem : lr.1.headI ∈ lr.1 := by
            cases hx : lr.1 with
            | nil => exact absurd hx hne
            | cons a t => rw [List.headI_cons]; exact List.mem_cons_self _ _
          exact hnv (hh ▸ hl1 _ hmem)
        obtain ⟨hd, hcont⟩ := handleLine_no_vertices st lr.1 lr.2 hhead
        constructor
        · exact hd
        · intro st' ts' h
          obtain ⟨h1, h2, h3⟩ := hcont st' ts' h
          exact ⟨h1.trans hpts, fun hm => hnv (hl2 _ (h2 _ hm)), lt_of_le_of_lt h3 hl3⟩

theorem runA_no_vertices : ∀ (f : Nat) (st : AscState) (ts : List Tok),
    ts.length < f → Tok.kw "Vertices" ∉ ts → st.points = none →
    ∃ e, runA f st ts = .error e ∧ e ≠ Err.outOfFuel := by
  intro f
  induction f with
  | zero => intro st ts h; exact absurd h (by omega)
  | succ f ih =>
    intro st ts hlen hnv hpts
    rw [show runA (f + 1) st ts = (match stepA st ts with
        | .done r => r
        | .cont st2 ts2 => runA f st2 ts2) from rfl]
    obtain ⟨hd, hcont⟩ := stepA_no_vertices st ts hnv hpts
    cases hs : stepA st ts with
    | done r =>
      obtain ⟨e, he, hne⟩ := hd r hs
      exact ⟨e, by rw [he], hne⟩
    | cont st2 ts2 =>
      obtain ⟨h1, h2, h3⟩ := hcont st2 ts2 hs
      exact ih st2 ts2 (by omega) h2 h1

/-- C3 counterexample: a binary stream with a valid header and no vertices block
before the terminator does not abort; `read_binary_buffer` returns a mesh with
no points and no error, so the claim as stated fails for the binary codec. -/
theorem C3_binary_counterexample :
    read_binary_buffer [BinWord.int 1 4, BinWord.int 2 4, BinWord.int 3 4,
      BinWord.int 0 4, BinWord.int 3 4, BinWord.int 54 4]
      = .ok (⟨none, [], none, []⟩, []) := by
  rfl

/-- C3 (amended): on an input without a vertices section the ASCII reader aborts
with a fatal error and returns no partial result, but the binary reader does not
abort: reaching the terminator with no vertices block read, it returns the
accumulated mesh, whose points are absent. -/
theorem C3_missing_vertices :
    (∀ ts : List Tok, Tok.kw "Vertices" ∉ ts →
      ∃ e, read_ascii_buffer ts = .error e ∧ e ≠ Err.outOfFuel)
    ∧ (∀ (v d p : Int), 1 ≤ v → v ≤ 4 → (d = 2 ∨ d = 3) →
      read_binary_buffer [BinWord.int 1 4, BinWord.int v 4, BinWord.int 3 4,
        BinWord.int p (if v ≤ 2 then 4 else 8), BinWord.int d 4, BinWord.int 54 4]
        = .ok (⟨none, [], none, []⟩, [])) := by
  constructor
  · intro ts h
    exact runA_no_vertices (ts.length + 1) _ ts (by omega) h rfl
  · intro v d p hv1 hv2 hd
    have hnv : ¬ (v < 1 ∨ v > 4) := by omega
    have hd2 : ¬ (d ≠ 2 ∧ d ≠ 3) := by rcases hd with rfl | rfl <;> simp
    simp [read_binary_buffer, readIntW, hnv, hd2]
    rw [runB_succ, stepB_end _ rfl]
    rfl

/-- Witness for C3 at a concrete vertices-free ASCII input and binary stream. -/
theorem C3_missing_vertices_witness :
    (∃ e, read_ascii_buffer [Tok.kw "MeshVersionFormatted", Tok.num 2, Tok.nl,
        Tok.kw "End", Tok.nl] = .error e ∧ e ≠ Err.outOfFuel)
    ∧ read_binary_buffer [BinWord.int 1 4, BinWord.int 3 4, BinWord.int 3 4,
        BinWord.int 0 (if (3 : Int) ≤ 2 then 4 else 8), BinWord.int 2 4, BinWord.int 54 4]
        = .ok (⟨none, [], none, []⟩, []) :=
  ⟨C3_missing_vertices.1 _ (by decide),
   C3_missing_vertices.2 3 2 0 (by omega) (by omega) (Or.inl rfl)⟩

/-- C2: evaluation of the binary writer at a mesh holding one hexahedron27 block.
The element loop of `write_binary_file` reassigns `cell_block.data` to the
column-permuted array before the registry lookup, so the caller's container is
mutated: after the call the block's connectivity differs from its value before
the call (the ASCII writer keeps the permuted data in a local variable instead).
This exhibits the failing input for the claim that both writers leave the
container unchanged. -/
theorem C2_binary_writer_mutates_container :
    ((write_binary_file
        ⟨[[0, 0], [1, 0]], 8,
         [⟨"hexahedron27", [(List.range 27).map Int.ofNat], 4⟩],
         [("medit:ref", [1, 2])], [("medit:ref", [[9]])]⟩).2.2
      ≠ ⟨[[0, 0], [1, 0]], 8,
         [⟨"hexahedron27", [(List.range 27).map Int.ofNat], 4⟩],
         [("medit:ref", [1, 2])], [("medit:ref", [[9]])]⟩)
    ∧ (write_binary_file
        ⟨[[0, 0], [1, 0]], 8,
         [⟨"hexahedron27", [(List.range 27).map Int.ofNat], 4⟩],
         [("medit:ref", [1, 2])], [("medit:ref", [[9]])]⟩).2.2.cells.map CellBlock.data
      = [[_convert_cell_data "hexahedron27" [(List.range 27).map Int.ofNat] _meshio_to_medit].headI] := by
  constructor
  · decide
  · decide

/-- C9: the ASCII reader on the literal input
`MeshVersionFormatted 2 / Dimension 3 / Vertices / 1 / 0.0 0.0 0.0 7 / End`
returns one point at the origin with reference label 7 and no element blocks. -/
theorem C9_literal_ascii_input :
    read_ascii_buffer
      [Tok.kw "MeshVersionFormatted", Tok.num 2, Tok.nl,
       Tok.kw "Dimension", Tok.num 3, Tok.nl,
       Tok.kw "Vertices", Tok.nl,
       Tok.num 1, Tok.nl,
       Tok.num 0, Tok.num 0, Tok.num 0, Tok.num 7, Tok.nl,
       Tok.kw "End", Tok.nl]
      = .ok (⟨some [[0, 0, 0]], [], some [7], []⟩, []) := by
  rfl

theorem map_getD_range2 {α : Type} (d : α) : ∀ (l : List α),
    (List.range l.length).map (fun i => l.getD i d) = l
  | [] => rfl
  | a :: l => by
    rw [List.length_cons, List.range_succ_eq_map, List.map_cons, List.map_map]
    simp only [List.getD_cons_zero]
    congr 1
    have h : ((fun i => (a :: l).getD i d) ∘ Nat.succ) = (fun i => l.getD i d) := by
      funext i
      simp [List.getD_cons_succ]
    rw [h]
    exact map_getD_range2 d l

theorem lineInt_intCast (n : Int) : lineInt [Tok.num (n : ℚ)] = some n := by
  simp [lineInt, Rat.den_intCast, Rat.num_intCast]

theorem npTrunc_intCast (n : Int) : npTrunc ((n : Int) : ℚ) = n := by
  unfold npTrunc
  by_cases h : ((n : ℚ) : ℚ) < 0
  · rw [if_pos h]
    rw [show (-(n : ℚ)) = ((-n : Int) : ℚ) from by push_cast; ring]
    rw [Int.floor_intCast]
    ring
  · rw [if_neg h, Int.floor_intCast]

theorem chunksOf_flatten {α : Type} : ∀ (rows : List (List α)) (c : Nat),
    (∀ r ∈ rows, r.length = c) → chunksOf rows.length c rows.flatten = rows := by
  intro rows
  induction rows with
  | nil => intro c h; rfl
  | cons r rest ih =>
    intro c h
    have hr : r.length = c := h r (List.mem_cons_self _ _)
    unfold chunksOf
    rw [List.length_cons, List.range_succ_eq_map, List.map_cons, List.map_map]
    congr 1
    · simp only [Nat.zero_mul, List.drop_zero, List.flatten_cons]
      exact List.take_left' hr
    · have hstep : ∀ i : Nat, ((r :: rest).flatten.drop (Nat.succ i * c)).take c
          = (rest.flatten.drop (i * c)).take c := by
        intro i
        congr 1
        rw [List.flatten_cons, Nat.succ_mul, Nat.add_comm, ← hr]
        exact List.drop_append _
      have : ((fun i => ((r :: rest).flatten.drop (i * c)).take c) ∘ Nat.succ)
          = fun i => (rest.flatten.drop (i * c)).take c := by
        funext i
        exact hstep i
      rw [this]
      have := ih c (fun x hx => h x (List.mem_cons_of_mem _ hx))
      unfold chunksOf at this
      exact this

theorem takeToks_zero (ts : List Tok) : takeToks 0 ts = some ([], ts) := by
  rw [takeToks]

theorem takeToks_nums : ∀ (vals : List ℚ) (ts : List Tok),
    takeToks vals.length (vals.map Tok.num ++ ts) = some (vals, ts) := by
  intro vals
  induction vals with
  | nil => intro ts; rw [List.length_nil, List.map_nil, List.nil_append, takeToks_zero]
  | cons q rest ih =>
    intro ts
    rw [List.length_cons, List.map_cons, List.cons_append,
      show takeToks (rest.length + 1) (Tok.num q :: (rest.map Tok.num ++ ts))
        = (takeToks rest.length (rest.map Tok.num ++ ts)).map (fun p => (q :: p.1, p.2)) from rfl,
      ih]
    rfl

theorem takeToks_nl (k : Nat) (hk : k ≠ 0) (ts : List Tok) :
    takeToks k (Tok.nl :: ts) = takeToks k ts := by
  cases k with
  | zero => exact absurd rfl hk
  | succ k => rfl

theorem takeToks_append : ∀ (ts : List Tok) (m n : Nat) (vs1 : List ℚ) (r1 : List Tok),
    takeToks m ts = some (vs1, r1) →
    ∀ (vs2 : List ℚ) (r2 : List Tok), takeToks n r1 = some (vs2, r2) →
    takeToks (m + n) ts = some (vs1 ++ vs2, r2) := by
  intro ts
  induction ts with
  | nil =>
    intro m n vs1 r1 h1 vs2 r2 h2
    cases m with
    | zero =>
      rw [takeToks_zero] at h1
      obtain ⟨rfl, rfl⟩ : vs1 = [] ∧ r1 = [] := by
        constructor <;> · injection h1 with h3; injection h3 with ha hb; simp_all
      cases n with
      | zero =>
        rw [takeToks_zero] at h2
        obtain ⟨rfl, rfl⟩ : vs2 = [] ∧ r2 = [] := by
          constructor <;> · injection h2 with h3; injection h3 with ha hb; simp_all
        rw [Nat.add_zero, takeToks_zero, List.nil_append]
      | succ n => rw [show takeToks (n + 1) ([] : List Tok) = none from rfl] at h2; cases h2
    | succ m => rw [show takeToks (m + 1) ([] : List Tok) = none from rfl] at h1; cases h1
  | cons t ts ih =>
    intro m n vs1 r1 h1 vs2 r2 h2
    cases m with
    | zero =>
      rw [takeToks_zero] at h1
      obtain ⟨rfl, rfl⟩ : vs1 = [] ∧ r1 = t :: ts := by
        constructor <;> · injection h1 with h3; injection h3 with ha hb; simp_all
      rw [Nat.zero_add, List.nil_append]
      exact h2
    | succ m =>
      cases t with
      | nl =>
        rw [show takeToks (m + 1) (Tok.nl :: ts) = takeToks (m + 1) ts from rfl] at h1
        rw [show m + 1 + n = (m + n) + 1 from by omega,
          show takeToks ((m + n) + 1) (Tok.nl :: ts) = takeToks ((m + n) + 1) ts from rfl,
          show (m + n) + 1 = m + 1 + n from by omega]
        exact ih (m + 1) n vs1 r1 h1 vs2 r2 h2
      | kw s =>
        rw [show takeToks (m + 1) (Tok.kw s :: ts) = none from rfl] at h1; cases h1
      | num q =>
        rw [show takeToks (m + 1) (Tok.num q :: ts)
            = (takeToks m ts).map (fun p => (q :: p.1, p.2)) from rfl] at h1
        cases hr : takeToks m ts with
        | none => rw [hr] at h1; cases h1
        | some p =>
          rw [hr] at h1
          obtain ⟨rfl, rfl⟩ : vs1 = q :: p.1 ∧ r1 = p.2 := by
            constructor <;> · injection h1 with h3; injection h3 with ha hb; simp_all
          rw [show m + 1 + n = (m + n) + 1 from by omega,
            show takeToks ((m + n) + 1) (Tok.num q :: ts)
              = (takeToks (m + n) ts).map (fun p => (q :: p.1, p.2)) from rfl,
            ih m n p.1 p.2 hr vs2 r2 h2]
          rfl

theorem takeToks_vertexLine (row : List ℚ) (lab : Int) (ts : List Tok) :
    takeToks (row.length + 1) (vertexLineToks row lab ++ ts)
      = some (row ++ [(lab : ℚ)], Tok.nl :: ts) := by
  unfold vertexLineToks
  have h1 : row.map Tok.num ++ [Tok.num (lab : ℚ), Tok.nl] ++ ts
      = (row ++ [(lab : ℚ)]).map Tok.num ++ (Tok.nl :: ts) := by
    simp
  rw [h1, show row.length + 1 = (row ++ [(lab : ℚ)]).length from by simp]
  exact takeToks_nums _ _

theorem takeToks_vertexRows : ∀ (rows : List (List ℚ × Int)) (c : Nat) (ts : List Tok),
    rows ≠ [] → (∀ rl ∈ rows, rl.1.length = c) →
    takeToks (rows.length * (c + 1))
        (rows.flatMap (fun rl => vertexLineToks rl.1 rl.2) ++ ts)
      = some ((rows.map (fun rl => rl.1 ++ [(rl.2 : ℚ)])).flatten, Tok.nl :: ts) := by
  intro rows
  induction rows with
  | nil => intro c ts h; exact absurd rfl h
  | cons rl rest ih =>
    intro c ts hne hlen
    have hr : rl.1.length = c := hlen rl (List.mem_cons_self _ _)
    cases hrest : rest with
    | nil =>
      subst hrest
      simp only [List.length_cons, List.length_nil, Nat.zero_add, Nat.one_mul,
        List.flatMap_cons, List.flatMap_nil, List.append_nil, List.map_cons, List.map_nil,
        List.flatten_cons, List.flatten_nil, List.append_nil]
      rw [← hr]
      exact takeToks_vertexLine rl.1 rl.2 ts
    | cons r2 rest2 =>
      have hne2 : rest ≠ [] := by rw [hrest]; simp
      rw [← hrest]
      have hlen2 : ∀ x ∈ rest, x.1.length = c :=
        fun x hx => hlen x (List.mem_cons_of_mem _ hx)
      have step1 : takeToks (c + 1)
          (vertexLineToks rl.1 rl.2
            ++ (rest.flatMap (fun rl => vertexLineToks rl.1 rl.2) ++ ts))
          = some (rl.1 ++ [(rl.2 : ℚ)],
              Tok.nl :: (rest.flatMap (fun rl => vertexLineToks rl.1 rl.2) ++ ts)) := by
        rw [← hr]
        exact takeToks_vertexLine rl.1 rl.2 _
      have hknz : rest.length * (c + 1) ≠ 0 := by
        rw [hrest]; exact Nat.mul_ne_zero (by simp) (Nat.succ_ne_zero c)
      have step2 : takeToks (rest.length * (c + 1))
          (Tok.nl :: (rest.flatMap (fun rl => vertexLineToks rl.1 rl.2) ++ ts))
          = some ((rest.map (fun rl => rl.1 ++ [(rl.2 : ℚ)])).flatten, Tok.nl :: ts) := by
        rw [takeToks_nl _ hknz _]
        exact ih c ts hne2 hlen2
      have hsum : (rl :: rest).length * (c + 1) = (c + 1) + rest.length * (c + 1) := by
        rw [List.length_cons, Nat.succ_mul, Nat.add_comm]
      rw [hsum, List.flatMap_cons, List.append_assoc]
      rw [takeToks_append _ (c + 1) (rest.length * (c + 1)) _ _ step1 _ _ step2]
      simp

theorem takeToksInt_zero (ts : List Tok) : takeToksInt 0 ts = some ([], ts) := by
  rw [takeToksInt]

theorem takeToksInt_nums : ∀ (vals : List Int) (ts : List Tok),
    takeToksInt vals.length (vals.map (fun n : Int => Tok.num (n : ℚ)) ++ ts) = some (vals, ts) := by
  intro vals
  induction vals with
  | nil => intro ts; rw [List.length_nil, List.map_nil, List.nil_append, takeToksInt_zero]
  | cons q rest ih =>
    intro ts
    rw [List.length_cons, List.map_cons, List.cons_append,
      show takeToksInt (rest.length + 1)
          (Tok.num (q : ℚ) :: (rest.map (fun n : Int => Tok.num (n : ℚ)) ++ ts))
        = (if ((q : ℚ)).den = 1 then
            (takeToksInt rest.length (rest.map (fun n : Int => Tok.num (n : ℚ)) ++ ts)).map
              (fun p => (((q : ℚ)).num :: p.1, p.2))
          else none) from rfl,
      if_pos (Rat.den_intCast q), ih]
    simp

theorem takeToksInt_nl (k : Nat) (hk : k ≠ 0) (ts : List Tok) :
    takeToksInt k (Tok.nl :: ts) = takeToksInt k ts := by
  cases k with
  | zero => exact absurd rfl hk
  | succ k => rfl

theorem takeToksInt_append : ∀ (ts : List Tok) (m n : Nat) (vs1 : List Int) (r1 : List Tok),
    takeToksInt m ts = some (vs1, r1) →
    ∀ (vs2 : List Int) (r2 : List Tok), takeToksInt n r1 = some (vs2, r2) →
    takeToksInt (m + n) ts = some (vs1 ++ vs2, r2) := by
  intro ts
  induction ts with
  | nil =>
    intro m n vs1 r1 h1 vs2 r2 h2
    cases m with
    | zero =>
      rw [takeToksInt_zero] at h1
      obtain ⟨rfl, rfl⟩ : vs1 = [] ∧ r1 = [] := by
        constructor <;> · injection h1 with h3; injection h3 with ha hb; simp_all
      cases n with
      | zero =>
        rw [takeToksInt_zero] at h2
        obtain ⟨rfl, rfl⟩ : vs2 = [] ∧ r2 = [] := by
          constructor <;> · injection h2 with h3; injection h3 with ha hb; simp_all
        rw [Nat.add_zero, takeToksInt_zero, List.nil_append]
      | succ n => rw [show takeToksInt (n + 1) ([] : List Tok) = none from rfl] at h2; cases h2
    | succ m => rw [show takeToksInt (m + 1) ([] : List Tok) = none from rfl] at h1; cases h1
  | cons t ts ih =>
    intro m n vs1 r1 h1 vs2 r2 h2
    cases m with
    | zero =>
      rw [takeToksInt_zero] at h1
      obtain ⟨rfl, rfl⟩ : vs1 = [] ∧ r1 = t :: ts := by
        constructor <;> · injection h1 with h3; injection h3 with ha hb; simp_all
      rw [Nat.zero_add, List.nil_append]
      exact h2
    | succ m =>
      cases t with
      | nl =>
        rw [show takeToksInt (m + 1) (Tok.nl :: ts) = takeToksInt (m + 1) ts from rfl] at h1
        rw [show m + 1 + n = (m + n) + 1 from by omega,
          show takeToksInt ((m + n) + 1) (Tok.nl :: ts) = takeToksInt ((m + n) + 1) ts from rfl,
          show (m + n) + 1 = m + 1 + n from by omega]
        exact ih (m + 1) n vs1 r1 h1 vs2 r2 h2
      | kw s =>
        rw [show takeToksInt (m + 1) (Tok.kw s :: ts) = none from rfl] at h1; cases h1
      | num q =>
        rw [show takeToksInt (m + 1) (Tok.num q :: ts)
            = (if q.den = 1 then
                (takeToksInt m ts).map (fun p => (q.num :: p.1, p.2))
              else none) from rfl] at h1
        by_cases hd : q.den = 1
        · rw [if_pos hd] at h1
          cases hr : takeToksInt m ts with
          | none => rw [hr] at h1; cases h1
          | some p =>
            rw [hr] at h1
            obtain ⟨rfl, rfl⟩ : vs1 = q.num :: p.1 ∧ r1 = p.2 := by
              constructor <;> · injection h1 with h3; injection h3 with ha hb; simp_all
            rw [show m + 1 + n = (m + n) + 1 from by omega,
              show takeToksInt ((m + n) + 1) (Tok.num q :: ts)
                = (if q.den = 1 then
                    (takeToksInt (m + n) ts).map (fun p => (q.num :: p.1, p.2))
                  else none) from rfl,
              if_pos hd, ih m n p.1 p.2 hr vs2 r2 h2]
            rfl
        · rw [if_neg hd] at h1; cases h1

theorem takeToksInt_cellLine (row : List Int) (lab : Int) (ts : List Tok) :
    takeToksInt (row.length + 1) (cellLineToks row lab ++ ts)
      = some (row.map (· + 1) ++ [lab], Tok.nl :: ts) := by
  unfold cellLineToks
  have h1 : row.map (fun x => Tok.num ((x + 1 : Int) : ℚ)) ++ [Tok.num (lab : ℚ), Tok.nl] ++ ts
      = (row.map (· + 1) ++ [lab]).map (fun n : Int => Tok.num ((n : Int) : ℚ)) ++ (Tok.nl :: ts) := by
    simp
  rw [h1, show row.length + 1 = (row.map (· + 1) ++ [lab]).length from by simp]
  exact takeToksInt_nums _ _

theorem takeToksInt_cellRows : ∀ (rows : List (List Int × Int)) (c : Nat) (ts : List Tok),
    rows ≠ [] → (∀ rl ∈ rows, rl.1.length = c) →
    takeToksInt (rows.length * (c + 1))
        (rows.flatMap (fun rl => cellLineToks rl.1 rl.2) ++ ts)
      = some ((rows.map (fun rl => rl.1.map (· + 1) ++ [rl.2])).flatten, Tok.nl :: ts) := by
  intro rows
  induction rows with
  | nil => intro c ts h; exact absurd rfl h
  | cons rl rest ih =>
    intro c ts hne hlen
    have hr : rl.1.length = c := hlen rl (List.mem_cons_self _ _)
    cases hrest : rest with
    | nil =>
      subst hrest
      simp only [List.length_cons, List.length_nil, Nat.zero_add, Nat.one_mul,
        List.flatMap_cons, List.flatMap_nil, List.append_nil, List.map_cons, List.map_nil,
        List.flatten_cons, List.flatten_nil, List.append_nil]
      rw [← hr]
      exact takeToksInt_cellLine rl.1 rl.2 ts
    | cons r2 rest2 =>
      have hne2 : rest ≠ [] := by rw [hrest]; simp
      rw [← hrest]
      have hlen2 : ∀ x ∈ rest, x.1.length = c :=
        fun x hx => hlen x (List.mem_cons_of_mem _ hx)
      have step1 : takeToksInt (c + 1)
          (cellLineToks rl.1 rl.2
            ++ (rest.flatMap (fun rl => cellLineToks rl.1 rl.2) ++ ts))
          = some (rl.1.map (· + 1) ++ [rl.2],
              Tok.nl :: (rest.flatMap (fun rl => cellLineToks rl.1 rl.2) ++ ts)) := by
        rw [← hr]
        exact takeToksInt_cellLine rl.1 rl.2 _
      have hknz : rest.length * (c + 1) ≠ 0 := by
        rw [hrest]; exact Nat.mul_ne_zero (by simp) (Nat.succ_ne_zero c)
      have step2 : takeToksInt (rest.length * (c + 1))
          (Tok.nl :: (rest.flatMap (fun rl => cellLineToks rl.1 rl.2) ++ ts))
          = some ((rest.map (fun rl => rl.1.map (· + 1) ++ [rl.2])).flatten, Tok.nl :: ts) := by
        rw [takeToksInt_nl _ hknz _]
        exact ih c ts hne2 hlen2
      have hsum : (rl :: rest).length * (c + 1) = (c + 1) + rest.length * (c + 1) := by
        rw [List.length_cons, Nat.succ_mul, Nat.add_comm]
      rw [hsum, List.flatMap_cons, List.append_assoc]
      rw [takeToksInt_append _ (c + 1) (rest.length * (c + 1)) _ _ step1 _ _ step2]
      simp

theorem runB_mono : ∀ (f : Nat) (st : BinState) (ws : List BinWord),
    runB f st ws ≠ .error .outOfFuel →
    ∀ f', f ≤ f' → runB f' st ws = runB f st ws := by
  intro f
  induction f with
  | zero => intro st ws h; exact absurd rfl h
  | succ f ih =>
    intro st ws h f' hle
    obtain ⟨f2, rfl⟩ : ∃ f2, f' = f2 + 1 := ⟨f' - 1, by omega⟩
    rw [runB_succ, runB_succ] at *
    cases hs : stepB st ws with
    | done r => rfl
    | cont st2 ws2 =>
      rw [hs] at h
      exact ih st2 ws2 h f2 (by omega)

theorem runA_succ (f : Nat) (st : AscState) (ts : List Tok) :
    runA (f + 1) st ts = match stepA st ts with
      | .done r => r
      | .cont st2 ts2 => runA f st2 ts2 := rfl

theorem runA_mono : ∀ (f : Nat) (st : AscState) (ts : List Tok),
    runA f st ts ≠ .error .outOfFuel →
    ∀ f', f ≤ f' → runA f' st ts = runA f st ts := by
  intro f
  induction f with
  | zero => intro st ts h; exact absurd rfl h
  | succ f ih =>
    intro st ts h f' hle
    obtain ⟨f2, rfl⟩ : ∃ f2, f' = f2 + 1 := ⟨f' - 1, by omega⟩
    rw [runA_succ, runA_succ] at *
    cases hs : stepA st ts with
    | done r => rfl
    | cont st2 ts2 =>
      rw [hs] at h
      exact ih st2 ts2 h f2 (by omega)

/-- Per-entry permutation facts over the registry: either a meshio type has no
permutation in either direction, or it is hexahedron27 with the two concrete
inverse permutations. -/
theorem dict_perm_bridge (ty : String) (e : DictEntry)
    (h : List.lookup ty DICT_MESHIO = some e) :
    (List.lookup ty _meshio_to_medit = none ∧ List.lookup ty _medit_to_meshio = none) ∨
    (e.2.1 = 27 ∧
      List.lookup ty _meshio_to_medit
        = some (List.range 20 ++ [24, 25, 22, 21, 23, 20, 26]) ∧
      List.lookup ty _medit_to_meshio
        = some (List.range 20 ++ [25, 23, 22, 24, 20, 21, 26])) := by
  have hm := lookup_mem h
  fin_cases hm <;> first
    | exact Or.inl ⟨rfl, rfl⟩
    | exact Or.inr ⟨rfl, by decide, by decide⟩

theorem convert_none (ty : String) (data : List (List Int)) (dc : List (String × List Nat))
    (h : List.lookup ty dc = none) : _convert_cell_data ty data dc = data := by
  rw [_convert_cell_data, h]

theorem convert_some (ty : String) (data : List (List Int)) (dc : List (String × List Nat))
    (idx : List Nat) (h : List.lookup ty dc = some idx) :
    _convert_cell_data ty data dc = data.map (applyPerm idx) := by
  rw [_convert_cell_data, h]

theorem convert_back (ty : String) (e : DictEntry) (data : List (List Int))
    (h : List.lookup ty DICT_MESHIO = some e)
    (hlen : ∀ r ∈ data, r.length = e.2.1) :
    _convert_cell_data ty (_convert_cell_data ty data _meshio_to_medit) _medit_to_meshio
      = data := by
  rcases dict_perm_bridge ty e h with ⟨h1, h2⟩ | ⟨h27, h1, h2⟩
  · rw [convert_none _ _ _ h1, convert_none _ _ _ h2]
  · rw [convert_some _ _ _ _ h1, convert_some _ _ _ _ h2, List.map_map]
    have : ∀ r ∈ data,
        (applyPerm (List.range 20 ++ [25, 23, 22, 24, 20, 21, 26]) ∘
          applyPerm (List.range 20 ++ [24, 25, 22, 21, 23, 20, 26])) r = r := by
      intro r hr
      exact applyPerm_comp_eq_self _ _ (by decide) (by decide) (by decide) r
        (by rw [hlen r hr, h27])
    rw [List.map_congr_left this]
    exact List.map_id' data

theorem convert_rows_length (ty : String) (data : List (List Int)) (dc : List (String × List Nat)) :
    (_convert_cell_data ty data dc).length = data.length := by
  rw [_convert_cell_data]
  cases List.lookup ty dc with
  | none => rfl
  | some idx => exact List.length_map _ _

theorem convert_row_lengths (ty : String) (e : DictEntry) (data : List (List Int))
    (h : List.lookup ty DICT_MESHIO = some e)
    (hlen : ∀ r ∈ data, r.length = e.2.1) :
    ∀ r ∈ _convert_cell_data ty data _meshio_to_medit, r.length = e.2.1 := by
  rcases dict_perm_bridge ty e h with ⟨h1, _⟩ | ⟨h27, h1, _⟩
  · rw [convert_none _ _ _ h1]; exact hlen
  · rw [convert_some _ _ _ _ h1]
    intro r hr
    obtain ⟨r0, hr0, rfl⟩ := List.mem_map.1 hr
    rw [applyPerm, h27]
    simp

/-- Running the binary block loop over the words that `writeCellBlocksB` emits for a
list of registered blocks appends the permuted connectivity and the selected labels
to the reader state and continues on the remaining stream. -/
theorem runB_writeCellBlocksB : ∀ (cells : List CellBlock) (st : BinState) (k : Nat) (pos : Int)
    (lk : Option String) (cd : List (String × List (List Int))),
    st.keytype = 4 → st.postype = 8 →
    (∀ b ∈ cells, ∃ e : DictEntry, List.lookup b.type DICT_MESHIO = some e ∧ b.type ≠ "point" ∧
      ∀ r ∈ b.data, r.length = e.2.1) →
    (∀ j, j < cells.length →
      (cellLabels lk cd (k + j) ((cells.getD j default).data.length)).length
        = ((cells.getD j default).data.length)) →
    ∀ rest : List BinWord,
    runB (cells.length + 1) st ((writeCellBlocksB st.itype lk cd k pos cells).1 ++ rest)
      = runB 1 { st with
          cells := st.cells ++ cells.map (fun b =>
            (b.type, _convert_cell_data b.type b.data _meshio_to_medit)),
          cell_ref := st.cell_ref ++ (List.range cells.length).map (fun j =>
            cellLabels lk cd (k + j) ((cells.getD j default).data.length)) } rest := by
  intro cells
  induction cells with
  | nil =>
    intro st k pos lk cd hkey hpos hblocks hlabs rest
    rw [show (writeCellBlocksB st.itype lk cd k pos []).1 = [] from rfl, List.nil_append]
    congr 1
    simp
  | cons b rest_cells ih =>
    intro st k pos lk cd hkey hpos hblocks hlabs rest
    obtain ⟨e, he, hpt, hrows⟩ := hblocks b (List.mem_cons_self _ _)
    obtain ⟨nm, npe, tag⟩ := e
    have hconvlen : (_convert_cell_data b.type b.data _meshio_to_medit).length
        = b.data.length := convert_rows_length _ _ _
    have hlab0 : (cellLabels lk cd k
        (_convert_cell_data b.type b.data _meshio_to_medit).length).length
        = (_convert_cell_data b.type b.data _meshio_to_medit).length := by
      have := hlabs 0 (by simp)
      rw [List.getD_cons_zero, Nat.add_zero] at this
      rw [hconvlen]
      exact this
    rw [writeCellBlocksB, he]
    dsimp only
    have hc := stepB_cell st hkey b.type (nm, npe, tag) he hpt
      (_convert_cell_data b.type b.data _meshio_to_medit)
      (cellLabels lk cd k (_convert_cell_data b.type b.data _meshio_to_medit).length)
      (pos + ((_convert_cell_data b.type b.data _meshio_to_medit).length *
          ((_convert_cell_data b.type b.data _meshio_to_medit).headI.length + 1) * st.itype : Nat)
        + (4 + 8 + st.itype : Nat))
      ((writeCellBlocksB st.itype lk cd (k + 1)
          (pos + ((_convert_cell_data b.type b.data _meshio_to_medit).length *
              ((_convert_cell_data b.type b.data _meshio_to_medit).headI.length + 1) * st.itype : Nat)
            + (4 + 8 + st.itype : Nat)) rest_cells).1 ++ rest)
      (convert_row_lengths b.type (nm, npe, tag) b.data he hrows)
      hlab0
    rw [hpos] at hc
    dsimp only at hc
    rw [List.length_cons, runB_succ]
    simp only [List.cons_append, List.nil_append, List.append_assoc]
    rw [hc]
    dsimp only
    have hblocks2 : ∀ b2 ∈ rest_cells, ∃ e : DictEntry,
        List.lookup b2.type DICT_MESHIO = some e ∧ b2.type ≠ "point" ∧
        ∀ r ∈ b2.data, r.length = e.2.1 :=
      fun b2 hb2 => hblocks b2 (List.mem_cons_of_mem _ hb2)
    have hlabs2 : ∀ j, j < rest_cells.length →
        (cellLabels lk cd (k + 1 + j) ((rest_cells.getD j default).data.length)).length
          = ((rest_cells.getD j default).data.length) := by
      intro j hj
      have := hlabs (j + 1) (by simp only [List.length_cons]; omega)
      rw [List.getD_cons_succ] at this
      rw [show k + 1 + j = k + (j + 1) from by omega]
      exact this
    have h2 := ih (BinState.mk st.dim st.itype st.ftype 8 st.keytype st.swapped
        st.points st.point_ref
        (st.cells ++ [(b.type, _convert_cell_data b.type b.data _meshio_to_medit)])
        (st.cell_ref ++
          [cellLabels lk cd k (_convert_cell_data b.type b.data _meshio_to_medit).length])
        st.warns)
      (k + 1)
      (pos + ((_convert_cell_data b.type b.data _meshio_to_medit).length *
          ((_convert_cell_data b.type b.data _meshio_to_medit).headI.length + 1) * st.itype : Nat)
        + (4 + 8 + st.itype : Nat))
      lk cd hkey rfl hblocks2 hlabs2 rest
    dsimp only at h2
    rw [h2]
    congr 1
    simp only [BinState.mk.injEq, and_true, true_and]
    refine ⟨hpos.symm, ?_, ?_⟩
    · rw [List.append_assoc, List.map_cons, List.singleton_append]
    · rw [List.append_assoc, List.range_succ_eq_map, List.map_cons, List.map_map,
        List.singleton_append, List.getD_cons_zero, hconvlen]
      have hfun : ((fun j => cellLabels lk cd (k + j)
            ((b :: rest_cells).getD j default).data.length) ∘ Nat.succ)
          = (fun j => cellLabels lk cd (k + 1 + j)
            ((rest_cells.getD j default)).data.length) := by
        funext j
        show cellLabels lk cd (k + Nat.succ j)
            ((b :: rest_cells).getD (Nat.succ j) default).data.length = _
        rw [List.getD_cons_succ, show k + Nat.succ j = k + 1 + j from by omega]
      rw [hfun]
      rfl

theorem writeCellBlocksB_len_ge : ∀ (cells : List CellBlock) (itype : Nat) (lk : Option String)
    (cd : List (String × List (List Int))) (k : Nat) (pos : Int),
    (∀ b ∈ cells, (List.lookup b.type DICT_MESHIO).isSome) →
    cells.length ≤ (writeCellBlocksB itype lk cd k pos cells).1.length := by
  intro cells
  induction cells with
  | nil => intro itype lk cd k pos _; simp [writeCellBlocksB]
  | cons b rest ih =>
    intro itype lk cd k pos hreg
    rw [writeCellBlocksB]
    cases hl : List.lookup b.type DICT_MESHIO with
    | none =>
      have := hreg b (List.mem_cons_self _ _)
      rw [hl] at this
      cases this
    | some e =>
      obtain ⟨nm, npe, tag⟩ := e
      dsimp only
      simp only [List.length_cons, List.length_append]
      have H := ih itype lk cd (k + 1)
        (pos + (((_convert_cell_data b.type b.data _meshio_to_medit).length *
            ((_convert_cell_data b.type b.data _meshio_to_medit).headI.length + 1) * itype
            : Nat) : Int)
          + ((4 + 8 + itype : Nat) : Int))
        (fun b2 hb2 => hreg b2 (List.mem_cons_of_mem _ hb2))
      omega

theorem cellLabels_some (key : String) (v : List (List Int)) (k n : Nat) :
    cellLabels (some key) [(key, v)] k n = v.getD k [] := by
  rw [cellLabels,
    show List.lookup key [(key, v)] = some v from by simp [List.lookup]]
  rfl

/-- Binary round-trip, given the writer widths: reading back the emitted binary
stream reproduces the points, the zero-based connectivity and the reference
labels, with no warnings. -/
theorem binary_roundtrip_core (mesh : Mesh) (prefs : List Int) (refss : List (List Int))
    (version : Int) (itype : Nat)
    (hver : binary_write_params mesh = (version, itype, 8, 8, 4))
    (hvi : version = 3 ∧ itype = 4 ∨ version = 4 ∧ itype = 8)
    (hdim : mesh.points.headI.length = 2 ∨ mesh.points.headI.length = 3)
    (hrows : ∀ p ∈ mesh.points, p.length = mesh.points.headI.length)
    (hpd : mesh.point_data = [("medit:ref", prefs)])
    (hprefs : prefs.length = mesh.points.length)
    (hcd : mesh.cell_data = [("medit:ref", refss)])
    (hrefss : refss.length = mesh.cells.length)
    (hreflen : ∀ j, j < mesh.cells.length →
      (refss.getD j []).length = (mesh.cells.getD j default).data.length)
    (hblocks : ∀ b ∈ mesh.cells, ∃ e : DictEntry,
      List.lookup b.type DICT_MESHIO = some e ∧ b.type ≠ "point" ∧
      ∀ r ∈ b.data, r.length = e.2.1) :
    read_binary_buffer (write_binary_file mesh).1
      = .ok (⟨some mesh.points, mesh.cells.map (fun b => (b.type, b.data)),
          some prefs, refss⟩, []) := by
  have hlookp : List.lookup "medit:ref" [("medit:ref", prefs)] = some prefs := by
    simp [List.lookup]
  have hlabs : ∀ j, j < mesh.cells.length →
      (cellLabels (some "medit:ref") [("medit:ref", refss)] (0 + j)
        ((mesh.cells.getD j default).data.length)).length
        = ((mesh.cells.getD j default).data.length) := by
    intro j hj
    rw [cellLabels_some, Nat.zero_add]
    exact hreflen j hj
  have hcore : ∀ pos : Int,
      runB (mesh.cells.length + 1)
        (BinState.mk mesh.points.headI.length itype 8 8 4 false
          (some mesh.points) (some prefs) [] [] [])
        ((writeCellBlocksB itype (some "medit:ref") [("medit:ref", refss)] 0 pos mesh.cells).1
          ++ [BinWord.int 54 4, BinWord.int 0 8])
        = .ok (MeshR.mk (some mesh.points)
            (_convert_cells (mesh.cells.map (fun b =>
              (b.type, _convert_cell_data b.type b.data _meshio_to_medit))) _medit_to_meshio)
            (some prefs)
            ((List.range mesh.cells.length).map (fun j =>
              cellLabels (some "medit:ref") [("medit:ref", refss)] (0 + j)
                ((mesh.cells.getD j default).data.length))), []) := by
    intro pos
    have h := runB_writeCellBlocksB mesh.cells
      (BinState.mk mesh.points.headI.length itype 8 8 4 false
        (some mesh.points) (some prefs) [] [] [])
      0 pos (some "medit:ref") [("medit:ref", refss)] rfl rfl hblocks hlabs
      [BinWord.int 54 4, BinWord.int 0 8]
    dsimp only at h
    simp only [List.nil_append] at h
    rw [h, runB_succ]
    have he := stepB_end
      (BinState.mk mesh.points.headI.length itype 8 8 4 false
        (some mesh.points) (some prefs)
        (mesh.cells.map (fun b => (b.type, _convert_cell_data b.type b.data _meshio_to_medit)))
        ((List.range mesh.cells.length).map (fun j =>
          cellLabels (some "medit:ref") [("medit:ref", refss)] (0 + j)
            ((mesh.cells.getD j default).data.length)))
        []) rfl [BinWord.int 0 8]
    rw [he]
    dsimp only [finalizeB]
  have hreg : ∀ b ∈ mesh.cells, (List.lookup b.type DICT_MESHIO).isSome := by
    intro b hb
    obtain ⟨e, he, -, -⟩ := hblocks b hb
    rw [he]
    rfl
  have hfin1 : _convert_cells (mesh.cells.map (fun b =>
        (b.type, _convert_cell_data b.type b.data _meshio_to_medit))) _medit_to_meshio
      = mesh.cells.map (fun b => (b.type, b.data)) := by
    rw [_convert_cells, List.map_map]
    apply List.map_congr_left
    intro b hb
    obtain ⟨e, he, hpt, hr⟩ := hblocks b hb
    show (b.type, _convert_cell_data b.type
        (_convert_cell_data b.type b.data _meshio_to_medit) _medit_to_meshio) = (b.type, b.data)
    rw [convert_back b.type e b.data he hr]
  have hfin2 : (List.range mesh.cells.length).map (fun j =>
        cellLabels (some "medit:ref") [("medit:ref", refss)] (0 + j)
          ((mesh.cells.getD j default).data.length)) = refss := by
    have hpt : ∀ j ∈ List.range mesh.cells.length,
        cellLabels (some "medit:ref") [("medit:ref", refss)] (0 + j)
          ((mesh.cells.getD j default).data.length) = refss.getD j [] := by
      intro j hj
      rw [cellLabels_some, Nat.zero_add]
    rw [List.map_congr_left hpt, ← hrefss]
    exact map_getD_range2 [] refss
  have hlift : ∀ (pos : Int) (f : Nat), mesh.cells.length + 1 ≤ f →
      runB f
        (BinState.mk mesh.points.headI.length itype 8 8 4 false
          (some mesh.points) (some prefs) [] [] [])
        ((writeCellBlocksB itype (some "medit:ref") [("medit:ref", refss)] 0 pos mesh.cells).1
          ++ [BinWord.int 54 4, BinWord.int 0 8])
        = .ok (MeshR.mk (some mesh.points) (mesh.cells.map (fun b => (b.type, b.data)))
            (some prefs) refss, []) := by
    intro pos f hf
    rw [runB_mono (mesh.cells.length + 1) _ _
        (by rw [hcore pos]; exact fun hx => Except.noConfusion hx) f hf,
      hcore pos, hfin1, hfin2]
  simp only [write_binary_file, hver, hpd, hcd, _pick_first_int_data]
  rw [hlookp]
  simp only [Option.getD_some]
  simp only [List.cons_append, List.nil_append]
  unfold read_binary_buffer
  rw [readIntW_cons]
  try dsimp only
  rw [if_neg (show ¬((1 : Int) ≠ 1 ∧ (1 : Int) ≠ 16777216) from by decide)]
  try dsimp only
  rw [readIntW_cons]
  try dsimp only
  rw [if_neg (show ¬(version < 1 ∨ version > 4) from by
      rcases hvi with ⟨rfl, -⟩ | ⟨rfl, -⟩ <;> decide)]
  try dsimp only
  rw [show (if version ≤ 3 then (4 : Nat) else 8) = itype from by
      rcases hvi with ⟨rfl, rfl⟩ | ⟨rfl, rfl⟩ <;> decide,
    show (if version = 1 then (4 : Nat) else 8) = 8 from by
      rcases hvi with ⟨rfl, -⟩ | ⟨rfl, -⟩ <;> decide,
    show (if version ≤ 2 then (4 : Nat) else 8) = 8 from by
      rcases hvi with ⟨rfl, -⟩ | ⟨rfl, -⟩ <;> decide]
  rw [readIntW_cons]
  try dsimp only
  rw [if_neg (show ¬((3 : Int) ≠ 3) from by decide)]
  try dsimp only
  rw [readIntW_cons]
  try dsimp only
  rw [readIntW_cons]
  try dsimp only
  rw [if_neg (show ¬((mesh.points.headI.length : Int) ≠ 2
        ∧ (mesh.points.headI.length : Int) ≠ 3) from by
      rcases hdim with h | h <;> rw [h] <;> decide)]
  try dsimp only
  rw [Int.toNat_natCast,
    show (decide ((1 : Int) = 16777216)) = false from by decide]
  rw [runB_succ]
  have hv : ∀ (pos : Int) (rest : List BinWord),
      stepB (BinState.mk mesh.points.headI.length itype 8 8 4 false none none [] [] [])
        (BinWord.int 4 4 :: BinWord.int pos 8 ::
          BinWord.int (mesh.points.length : Int) itype ::
          ((mesh.points.zip prefs).flatMap (fun rl =>
              rl.1.map (fun q => BinWord.flt q 8) ++ [BinWord.int rl.2 itype]) ++ rest))
        = .cont (BinState.mk mesh.points.headI.length itype 8 8 4 false
            (some mesh.points) (some prefs) [] [] []) rest := by
    intro pos rest
    have h := stepB_vertices
      (BinState.mk mesh.points.headI.length itype 8 8 4 false none none [] [] [])
      rfl mesh.points prefs pos rest hrows hprefs
    dsimp only at h
    exact h
  simp only [List.append_assoc]
  rw [hv]
  try dsimp only
  rw [hlift]
  simp only [List.length_cons, List.length_append]
  have hb := writeCellBlocksB_len_ge mesh.cells itype (some "medit:ref") [("medit:ref", refss)] 0
    ((4 : Int) * ((4 : Nat) : Int) + ((8 : Nat) : Int)
      + ((mesh.points.length * mesh.points.headI.length * 8 : Nat) : Int)
      + ((mesh.points.length * itype : Nat) : Int) + ((4 + 8 + itype : Nat) : Int)) hreg
  omega

/-- Binary round-trip of `write_binary_file` / `read_binary_buffer` for both
writer width regimes. -/
theorem binary_roundtrip (mesh : Mesh) (prefs : List Int) (refss : List (List Int))
    (hdim : mesh.points.headI.length = 2 ∨ mesh.points.headI.length = 3)
    (hrows : ∀ p ∈ mesh.points, p.length = mesh.points.headI.length)
    (hpd : mesh.point_data = [("medit:ref", prefs)])
    (hprefs : prefs.length = mesh.points.length)
    (hcd : mesh.cell_data = [("medit:ref", refss)])
    (hrefss : refss.length = mesh.cells.length)
    (hreflen : ∀ j, j < mesh.cells.length →
      (refss.getD j []).length = (mesh.cells.getD j default).data.length)
    (hblocks : ∀ b ∈ mesh.cells, ∃ e : DictEntry,
      List.lookup b.type DICT_MESHIO = some e ∧ b.type ≠ "point" ∧
      ∀ r ∈ b.data, r.length = e.2.1) :
    read_binary_buffer (write_binary_file mesh).1
      = .ok (⟨some mesh.points, mesh.cells.map (fun b => (b.type, b.data)),
          some prefs, refss⟩, []) := by
  cases hbig : mesh.cells.any (fun b => b.itemsize == 8) with
  | true =>
    exact binary_roundtrip_core mesh prefs refss 4 8
      (by simp [binary_write_params, hbig]) (Or.inr ⟨rfl, rfl⟩)
      hdim hrows hpd hprefs hcd hrefss hreflen hblocks
  | false =>
    exact binary_roundtrip_core mesh prefs refss 3 4
      (by simp [binary_write_params, hbig]) (Or.inl ⟨rfl, rfl⟩)
      hdim hrows hpd hprefs hcd hrefss hreflen hblocks

theorem stepA_blank (st : AscState) (ts : List Tok) :
    stepA st (Tok.nl :: ts) = .cont st ts := rfl

theorem stepA_MVF (st : AscState) (v : ℚ) (dtv : Nat)
    (hv : v = 1 ∧ dtv = 4 ∨ v = 2 ∧ dtv = 8) (ts : List Tok) :
    stepA st (Tok.kw "MeshVersionFormatted" :: Tok.num v :: Tok.nl :: ts)
      = .cont { st with dtype := some dtv } ts := by
  rcases hv with ⟨rfl, rfl⟩ | ⟨rfl, rfl⟩ <;> rfl

theorem stepA_dimension (st : AscState) (d : Nat) (hd : d = 2 ∨ d = 3) (ts : List Tok) :
    stepA st (Tok.kw "Dimension" :: Tok.num (d : ℚ) :: Tok.nl :: ts)
      = .cont { st with dim := (d : Int) } ts := by
  rcases hd with rfl | rfl <;> rfl

theorem stepA_end (st : AscState) (ts : List Tok) :
    stepA st (Tok.kw "End" :: Tok.nl :: ts) = .cont st ts := rfl

theorem stepA_eof (st : AscState) :
    stepA st [] = .done (finalizeA st) := rfl

theorem dict_bridge_A :
    ∀ (ty : String) (e : DictEntry), List.lookup ty DICT_MESHIO = some e → ty ≠ "point" →
      List.lookup e.1 DICT_MEDIT = some (ty, e.2.1, e.2.2)
        ∧ e.1 ≠ "MeshVersionFormatted" ∧ e.1 ≠ "Dimension" ∧ e.1 ≠ "Vertices" := by
  have key : ∀ p ∈ DICT_MESHIO, p.1 ≠ "point" →
      List.lookup p.2.1 DICT_MEDIT = some (p.1, p.2.2.1, p.2.2.2)
        ∧ p.2.1 ≠ "MeshVersionFormatted" ∧ p.2.1 ≠ "Dimension" ∧ p.2.1 ≠ "Vertices" := by
    decide
  intro ty e hl hpt
  exact key (ty, e) (lookup_mem hl) hpt

theorem getD_append_len2 {α : Type} (l : List α) (x d : α) :
    (l ++ [x]).getD l.length d = x := by
  induction l with
  | nil => rfl
  | cons a t ih => simp [ih]

theorem stepA_vertices (st : AscState) (d dtv : Nat)
    (hdim : st.dim = (d : Int)) (hdpos : 0 < d) (hdt : st.dtype = some dtv)
    (points : List (List ℚ)) (prefs : List Int)
    (hne : points ≠ [])
    (hrows : ∀ p ∈ points, p.length = d) (hlab : prefs.length = points.length)
    (ts : List Tok) :
    stepA st (Tok.kw "Vertices" :: Tok.nl :: Tok.num ((points.length : Nat) : ℚ) :: Tok.nl ::
        ((points.zip prefs).flatMap (fun rl => vertexLineToks rl.1 rl.2) ++ ts))
      = .cont { st with points := some points, point_ref := some prefs } (Tok.nl :: ts) := by
  unfold stepA
  rw [show readline (Tok.kw "Vertices" :: Tok.nl :: Tok.num ((points.length : Nat) : ℚ) :: Tok.nl ::
        ((points.zip prefs).flatMap (fun rl => vertexLineToks rl.1 rl.2) ++ ts))
      = some ([Tok.kw "Vertices"], Tok.num ((points.length : Nat) : ℚ) :: Tok.nl ::
        ((points.zip prefs).flatMap (fun rl => vertexLineToks rl.1 rl.2) ++ ts)) from rfl]
  try dsimp only
  rw [show (List.isEmpty [Tok.kw "Vertices"]) = false from rfl]
  try dsimp only
  rw [show (isCommentLine [Tok.kw "Vertices"]) = false from rfl]
  try dsimp only
  unfold handleLine
  try dsimp only [List.headI]
  rw [if_neg (by decide), if_neg (by decide), if_neg (by decide),
    if_pos (show tokKeyStr (Tok.kw "Vertices") = "Vertices" from rfl)]
  unfold handleVertices
  rw [if_neg (show ¬ (st.dim ≤ 0) from by
      rw [hdim]; exact not_le.mpr (by exact_mod_cast hdpos)), hdt]
  try dsimp only [Option.isNone]
  rw [show readline (Tok.num ((points.length : Nat) : ℚ) :: Tok.nl ::
        ((points.zip prefs).flatMap (fun rl => vertexLineToks rl.1 rl.2) ++ ts))
      = some ([Tok.num ((points.length : Nat) : ℚ)],
        (points.zip prefs).flatMap (fun rl => vertexLineToks rl.1 rl.2) ++ ts) from rfl]
  try dsimp only
  rw [show lineInt [Tok.num ((points.length : Nat) : ℚ)]
      = some ((points.length : Nat) : Int) from by
    rw [show ((points.length : Nat) : ℚ) = (((points.length : Nat) : Int) : ℚ) from by
      push_cast; rfl]
    exact lineInt_intCast _]
  try dsimp only
  rw [hdim, Int.toNat_natCast, Int.toNat_natCast]
  have hzlen : (points.zip prefs).length = points.length := by
    rw [List.length_zip, hlab, Nat.min_self]
  have hznel : points.zip prefs ≠ [] := by
    intro h0
    apply hne
    have h1 := congrArg List.length h0
    rw [hzlen] at h1
    exact List.length_eq_zero.mp h1
  have hrows2 : ∀ rl ∈ points.zip prefs, rl.1.length = d :=
    fun rl hrl => hrows rl.1 (List.of_mem_zip hrl).1
  have htk := takeToks_vertexRows (points.zip prefs) d ts hznel hrows2
  rw [← hzlen, htk]
  try dsimp only
  have hchunk : chunksOf (points.zip prefs).length (d + 1)
      ((points.zip prefs).map (fun rl => rl.1 ++ [((rl.2 : Int) : ℚ)])).flatten
      = (points.zip prefs).map (fun rl => rl.1 ++ [((rl.2 : Int) : ℚ)]) := by
    have hc := chunksOf_flatten
      ((points.zip prefs).map (fun rl => rl.1 ++ [((rl.2 : Int) : ℚ)])) (d + 1)
      (by
        intro r hr
        obtain ⟨rl, hrl, rfl⟩ := List.mem_map.1 hr
        simp [hrows2 rl hrl])
    rw [List.length_map] at hc
    exact hc
  rw [hchunk, List.map_map, List.map_map]
  have hpts : List.map ((fun r => r.take d) ∘ fun rl => rl.1 ++ [((rl.2 : Int) : ℚ)])
      (points.zip prefs) = points := by
    have : ∀ rl ∈ points.zip prefs,
        ((fun r => r.take d) ∘ fun rl => rl.1 ++ [((rl.2 : Int) : ℚ)]) rl = rl.1 := by
      intro rl hrl
      show (rl.1 ++ [((rl.2 : Int) : ℚ)]).take d = rl.1
      exact List.take_left' (hrows2 rl hrl)
    rw [List.map_congr_left this]
    exact List.map_fst_zip points prefs (by omega)
  have hrefs : List.map ((fun r => npTrunc (r.getD d 0)) ∘ fun rl => rl.1 ++ [((rl.2 : Int) : ℚ)])
      (points.zip prefs) = prefs := by
    have : ∀ rl ∈ points.zip prefs,
        ((fun r => npTrunc (r.getD d 0)) ∘ fun rl => rl.1 ++ [((rl.2 : Int) : ℚ)]) rl = rl.2 := by
      intro rl hrl
      show npTrunc ((rl.1 ++ [((rl.2 : Int) : ℚ)]).getD d 0) = rl.2
      rw [show d = rl.1.length from (hrows2 rl hrl).symm, getD_append_len2, npTrunc_intCast]
    rw [List.map_congr_left this]
    exact List.map_snd_zip points prefs (by omega)
  rw [hpts, hrefs]
  rw [if_neg (by decide : ¬ (tokKeyStr (Tok.kw "Vertices") = "MeshVersionFormatted")),
    if_neg (by decide : ¬ (tokKeyStr (Tok.kw "Vertices") = "Dimension")),
    if_neg (by decide : ¬ (false = true))]

theorem stepA_element (st : AscState) (ty : String) (e : DictEntry)
    (he : List.lookup ty DICT_MESHIO = some e) (hpt : ty ≠ "point")
    (data : List (List Int)) (labels : List Int)
    (hne : data ≠ [])
    (hrows : ∀ r ∈ data, r.length = e.2.1) (hlab : labels.length = data.length)
    (ts : List Tok) :
    stepA st (Tok.kw e.1 :: Tok.nl :: Tok.num ((data.length : Nat) : ℚ) :: Tok.nl ::
        ((data.zip labels).flatMap (fun rl => cellLineToks rl.1 rl.2) ++ ts))
      = .cont { st with cells := st.cells ++ [(ty, data)],
                        cell_ref := st.cell_ref ++ [labels] } (Tok.nl :: ts) := by
  obtain ⟨hmed, hb1, hb2, hb3⟩ := dict_bridge_A ty e he hpt
  unfold stepA
  rw [show readline (Tok.kw e.1 :: Tok.nl :: Tok.num ((data.length : Nat) : ℚ) :: Tok.nl ::
        ((data.zip labels).flatMap (fun rl => cellLineToks rl.1 rl.2) ++ ts))
      = some ([Tok.kw e.1], Tok.num ((data.length : Nat) : ℚ) :: Tok.nl ::
        ((data.zip labels).flatMap (fun rl => cellLineToks rl.1 rl.2) ++ ts)) from rfl]
  try dsimp only
  rw [show (List.isEmpty [Tok.kw e.1]) = false from rfl]
  try dsimp only
  rw [show (isCommentLine [Tok.kw e.1]) = false from by
    show decide (e.1.front = '#') = false
    rcases dict_bridge_A ty e he hpt with ⟨hm, -, -, -⟩
    have hmm := lookup_mem hm
    revert hmm
    have : ∀ p ∈ DICT_MEDIT, decide (p.1.front = '#') = false := by decide
    intro hmm
    exact this _ hmm]
  try dsimp only
  unfold handleLine
  try dsimp only [List.headI]
  rw [if_neg (show ¬ (¬ tokIsAlpha (Tok.kw e.1) = true
      ∧ (List.lookup (tokKeyStr (Tok.kw e.1)) DICT_MEDIT).isNone = true) from by
    intro hcon
    have h2 := hcon.2
    rw [show tokKeyStr (Tok.kw e.1) = e.1 from rfl, hmed] at h2
    exact absurd h2 (by simp))]
  rw [if_neg (show ¬ (tokKeyStr (Tok.kw e.1) = "MeshVersionFormatted") from hb1),
    if_neg (show ¬ (tokKeyStr (Tok.kw e.1) = "Dimension") from hb2),
    if_neg (show ¬ (tokKeyStr (Tok.kw e.1) = "Vertices") from hb3)]
  rw [show List.lookup (tokKeyStr (Tok.kw e.1)) DICT_MEDIT
      = some (ty, e.2.1, e.2.2) from hmed]
  try dsimp only
  unfold handleElement
  rw [show readline (Tok.num ((data.length : Nat) : ℚ) :: Tok.nl ::
        ((data.zip labels).flatMap (fun rl => cellLineToks rl.1 rl.2) ++ ts))
      = some ([Tok.num ((data.length : Nat) : ℚ)],
        (data.zip labels).flatMap (fun rl => cellLineToks rl.1 rl.2) ++ ts) from rfl]
  try dsimp only
  rw [show lineInt [Tok.num ((data.length : Nat) : ℚ)]
      = some ((data.length : Nat) : Int) from by
    rw [show ((data.length : Nat) : ℚ) = (((data.length : Nat) : Int) : ℚ) from by
      push_cast; rfl]
    exact lineInt_intCast _]
  try dsimp only
  rw [Int.toNat_natCast]
  have hzlen : (data.zip labels).length = data.length := by
    rw [List.length_zip, hlab, Nat.min_self]
  have hznel : data.zip labels ≠ [] := by
    intro h0
    apply hne
    have h1 := congrArg List.length h0
    rw [hzlen] at h1
    exact List.length_eq_zero.mp h1
  have hrows2 : ∀ rl ∈ data.zip labels, rl.1.length = e.2.1 :=
    fun rl hrl => hrows rl.1 (List.of_mem_zip hrl).1
  have htk := takeToksInt_cellRows (data.zip labels) e.2.1 ts hznel hrows2
  rw [← hzlen, htk]
  try dsimp only
  have hchunk : chunksOf (data.zip labels).length (e.2.1 + 1)
      ((data.zip labels).map (fun rl => rl.1.map (· + 1) ++ [rl.2])).flatten
      = (data.zip labels).map (fun rl => rl.1.map (· + 1) ++ [rl.2]) := by
    have hc := chunksOf_flatten
      ((data.zip labels).map (fun rl => rl.1.map (· + 1) ++ [rl.2])) (e.2.1 + 1)
      (by
        intro r hr
        obtain ⟨rl, hrl, rfl⟩ := List.mem_map.1 hr
        simp [hrows2 rl hrl])
    rw [List.length_map] at hc
    exact hc
  rw [hchunk, List.map_map, List.map_map]
  have hcells : List.map ((fun r => (r.take e.2.1).map (· - 1))
        ∘ fun rl => rl.1.map (· + 1) ++ [rl.2]) (data.zip labels) = data := by
    have : ∀ rl ∈ data.zip labels,
        ((fun r => (List.take e.2.1 r).map (· - 1))
          ∘ fun rl => rl.1.map (· + 1) ++ [rl.2]) rl = rl.1 := by
      intro rl hrl
      show ((rl.1.map (· + 1) ++ [rl.2]).take e.2.1).map (· - 1) = rl.1
      rw [List.take_left' (by simp [hrows2 rl hrl]), List.map_map]
      have hid : List.map ((fun x => x - 1) ∘ fun x => x + 1) rl.1 = List.map id rl.1 :=
        List.map_congr_left (fun x _ => by simp)
      rw [hid, List.map_id]
    rw [List.map_congr_left this]
    exact List.map_fst_zip data labels (by omega)
  have hrefs : List.map ((fun r => r.getD e.2.1 0)
        ∘ fun rl => rl.1.map (· + 1) ++ [rl.2]) (data.zip labels) = labels := by
    have : ∀ rl ∈ data.zip labels,
        ((fun r => r.getD e.2.1 0) ∘ fun rl => rl.1.map (· + 1) ++ [rl.2]) rl = rl.2 := by
      intro rl hrl
      show (rl.1.map (· + 1) ++ [rl.2]).getD e.2.1 0 = rl.2
      rw [show e.2.1 = (rl.1.map (· + 1)).length from by simp [hrows2 rl hrl],
        getD_append_len2]
    rw [List.map_congr_left this]
    exact List.map_snd_zip data labels (by omega)
  rw [hcells, hrefs]
  rw [if_neg (by decide : ¬ (false = true)), if_neg (by decide : ¬ (false = true))]

/-- Running the ASCII line loop over the tokens that `writeCellBlocksA` emits for a
list of registered blocks appends the permuted connectivity and the selected labels
to the reader state and continues on the remaining stream. -/
theorem runA_writeCellBlocksA : ∀ (cells : List CellBlock) (st : AscState) (k : Nat)
    (lk : Option String) (cd : List (String × List (List Int))),
    (∀ b ∈ cells, ∃ e : DictEntry, List.lookup b.type DICT_MESHIO = some e ∧ b.type ≠ "point" ∧
      b.data ≠ [] ∧ ∀ r ∈ b.data, r.length = e.2.1) →
    (∀ j, j < cells.length →
      (cellLabels lk cd (k + j) ((cells.getD j default).data.length)).length
        = ((cells.getD j default).data.length)) →
    ∀ (f : Nat) (rest : List Tok),
    runA (3 * cells.length + f) st (Tok.nl :: ((writeCellBlocksA lk cd k cells).1 ++ rest))
      = runA f { st with
          cells := st.cells ++ cells.map (fun b =>
            (b.type, _convert_cell_data b.type b.data _meshio_to_medit)),
          cell_ref := st.cell_ref ++ (List.range cells.length).map (fun j =>
            cellLabels lk cd (k + j) ((cells.getD j default).data.length)) }
        (Tok.nl :: rest) := by
  intro cells
  induction cells with
  | nil =>
    intro st k lk cd hblocks hlabs f rest
    rw [show (writeCellBlocksA lk cd k []).1 = [] from rfl, List.nil_append,
      show 3 * ([] : List CellBlock).length + f = f from by simp]
    congr 1
    simp
  | cons b rest_cells ih =>
    intro st k lk cd hblocks hlabs f rest
    obtain ⟨e, he, hpt, hbne, hrows⟩ := hblocks b (List.mem_cons_self _ _)
    obtain ⟨nm, npe, tag⟩ := e
    have hconvlen : (_convert_cell_data b.type b.data _meshio_to_medit).length
        = b.data.length := convert_rows_length _ _ _
    have hcne : _convert_cell_data b.type b.data _meshio_to_medit ≠ [] := by
      intro h0
      apply hbne
      have h1 := congrArg List.length h0
      rw [hconvlen] at h1
      exact List.length_eq_zero.mp h1
    have hlab0 : (cellLabels lk cd k
        (_convert_cell_data b.type b.data _meshio_to_medit).length).length
        = (_convert_cell_data b.type b.data _meshio_to_medit).length := by
      have := hlabs 0 (by simp)
      rw [List.getD_cons_zero, Nat.add_zero] at this
      rw [hconvlen]
      exact this
    rw [writeCellBlocksA, he]
    dsimp only
    rw [show 3 * (b :: rest_cells).length + f = (3 * rest_cells.length + f + 2) + 1 from by
      simp [Nat.mul_succ, List.length_cons]; omega]
    rw [runA_succ]
    simp only [List.cons_append, List.nil_append, List.append_assoc]
    rw [stepA_blank]
    dsimp only
    rw [show 3 * rest_cells.length + f + 2 = (3 * rest_cells.length + f + 1) + 1 from by omega,
      runA_succ, stepA_blank]
    dsimp only
    rw [show 3 * rest_cells.length + f + 1 = (3 * rest_cells.length + f) + 1 from by omega,
      runA_succ]
    have hel := stepA_element st b.type (nm, npe, tag) he hpt
      (_convert_cell_data b.type b.data _meshio_to_medit)
      (cellLabels lk cd k (_convert_cell_data b.type b.data _meshio_to_medit).length)
      hcne
      (convert_row_lengths b.type (nm, npe, tag) b.data he hrows)
      hlab0
      ((writeCellBlocksA lk cd (k + 1) rest_cells).1 ++ rest)
    dsimp only at hel
    rw [hel]
    dsimp only
    have hblocks2 : ∀ b2 ∈ rest_cells, ∃ e : DictEntry,
        List.lookup b2.type DICT_MESHIO = some e ∧ b2.type ≠ "point" ∧
        b2.data ≠ [] ∧ ∀ r ∈ b2.data, r.length = e.2.1 :=
      fun b2 hb2 => hblocks b2 (List.mem_cons_of_mem _ hb2)
    have hlabs2 : ∀ j, j < rest_cells.length →
        (cellLabels lk cd (k + 1 + j) ((rest_cells.getD j default).data.length)).length
          = ((rest_cells.getD j default).data.length) := by
      intro j hj
      have := hlabs (j + 1) (by simp only [List.length_cons]; omega)
      rw [List.getD_cons_succ] at this
      rw [show k + 1 + j = k + (j + 1) from by omega]
      exact this
    have h2 := ih (AscState.mk st.dim st.dtype st.points st.point_ref
        (st.cells ++ [(b.type, _convert_cell_data b.type b.data _meshio_to_medit)])
        (st.cell_ref ++
          [cellLabels lk cd k (_convert_cell_data b.type b.data _meshio_to_medit).length])
        st.warns)
      (k + 1) lk cd hblocks2 hlabs2 f rest
    dsimp only at h2
    rw [h2]
    congr 1
    simp only [AscState.mk.injEq, and_true, true_and]
    refine ⟨?_, ?_⟩
    · rw [List.append_assoc, List.map_cons, List.singleton_append]
    · rw [List.length_cons, List.append_assoc, List.range_succ_eq_map, List.map_cons,
        List.map_map, List.singleton_append, List.getD_cons_zero, hconvlen]
      have hfun : ((fun j => cellLabels lk cd (k + j)
            ((b :: rest_cells).getD j default).data.length) ∘ Nat.succ)
          = (fun j => cellLabels lk cd (k + 1 + j)
            ((rest_cells.getD j default)).data.length) := by
        funext j
        show cellLabels lk cd (k + Nat.succ j)
            ((b :: rest_cells).getD (Nat.succ j) default).data.length = _
        rw [List.getD_cons_succ, show k + Nat.succ j = k + 1 + j from by omega]
      rw [hfun]
      rfl

theorem writeCellBlocksA_len_ge : ∀ (cells : List CellBlock) (lk : Option String)
    (cd : List (String × List (List Int))) (k : Nat),
    (∀ b ∈ cells, (List.lookup b.type DICT_MESHIO).isSome) →
    3 * cells.length ≤ (writeCellBlocksA lk cd k cells).1.length := by
  intro cells
  induction cells with
  | nil => intro lk cd k _; simp [writeCellBlocksA]
  | cons b rest ih =>
    intro lk cd k hreg
    rw [writeCellBlocksA]
    cases hl : List.lookup b.type DICT_MESHIO with
    | none =>
      have := hreg b (List.mem_cons_self _ _)
      rw [hl] at this
      cases this
    | some e =>
      obtain ⟨nm, npe, tag⟩ := e
      dsimp only
      simp only [List.length_cons, List.length_append]
      have H := ih lk cd (k + 1) (fun b2 hb2 => hreg b2 (List.mem_cons_of_mem _ hb2))
      omega

/-- ASCII read-back of the writer token stream: the line loop reproduces the
points, connectivity and labels. -/
theorem ascii_read_core (mesh : Mesh) (prefs : List Int) (refss : List (List Int))
    (v : ℚ) (dtv : Nat) (hv : v = 1 ∧ dtv = 4 ∨ v = 2 ∧ dtv = 8)
    (hpne : mesh.points ≠ [])
    (hdim : mesh.points.headI.length = 2 ∨ mesh.points.headI.length = 3)
    (hrows : ∀ p ∈ mesh.points, p.length = mesh.points.headI.length)
    (hprefs : prefs.length = mesh.points.length)
    (hrefss : refss.length = mesh.cells.length)
    (hreflen : ∀ j, j < mesh.cells.length →
      (refss.getD j []).length = (mesh.cells.getD j default).data.length)
    (hblocks : ∀ b ∈ mesh.cells, ∃ e : DictEntry,
      List.lookup b.type DICT_MESHIO = some e ∧ b.type ≠ "point" ∧ b.data ≠ [] ∧
      ∀ r ∈ b.data, r.length = e.2.1) :
    read_ascii_buffer
      ([Tok.kw "MeshVersionFormatted", Tok.num v, Tok.nl,
        Tok.kw "Dimension", Tok.num ((mesh.points.headI.length : Nat) : ℚ), Tok.nl,
        Tok.nl, Tok.kw "Vertices", Tok.nl,
        Tok.num ((mesh.points.length : Nat) : ℚ), Tok.nl]
       ++ (mesh.points.zip prefs).flatMap (fun rl => vertexLineToks rl.1 rl.2)
       ++ (writeCellBlocksA (some "medit:ref") [("medit:ref", refss)] 0 mesh.cells).1
       ++ [Tok.nl, Tok.kw "End", Tok.nl])
      = .ok (⟨some mesh.points, mesh.cells.map (fun b => (b.type, b.data)),
          some prefs, refss⟩, []) := by
  have hlabs : ∀ j, j < mesh.cells.length →
      (cellLabels (some "medit:ref") [("medit:ref", refss)] (0 + j)
        ((mesh.cells.getD j default).data.length)).length
        = ((mesh.cells.getD j default).data.length) := by
    intro j hj
    rw [cellLabels_some, Nat.zero_add]
    exact hreflen j hj
  have hreg : ∀ b ∈ mesh.cells, (List.lookup b.type DICT_MESHIO).isSome := by
    intro b hb
    obtain ⟨e, he, -, -, -⟩ := hblocks b hb
    rw [he]
    rfl
  have hfin1 : _convert_cells (mesh.cells.map (fun b =>
        (b.type, _convert_cell_data b.type b.data _meshio_to_medit))) _medit_to_meshio
      = mesh.cells.map (fun b => (b.type, b.data)) := by
    rw [_convert_cells, List.map_map]
    apply List.map_congr_left
    intro b hb
    obtain ⟨e, he, hpt, -, hr⟩ := hblocks b hb
    show (b.type, _convert_cell_data b.type
        (_convert_cell_data b.type b.data _meshio_to_medit) _medit_to_meshio) = (b.type, b.data)
    rw [convert_back b.type e b.data he hr]
  have hfin2 : (List.range mesh.cells.length).map (fun j =>
        cellLabels (some "medit:ref") [("medit:ref", refss)] (0 + j)
          ((mesh.cells.getD j default).data.length)) = refss := by
    have hpt : ∀ j ∈ List.range mesh.cells.length,
        cellLabels (some "medit:ref") [("medit:ref", refss)] (0 + j)
          ((mesh.cells.getD j default).data.length) = refss.getD j [] := by
      intro j hj
      rw [cellLabels_some, Nat.zero_add]
    rw [List.map_congr_left hpt, ← hrefss]
    exact map_getD_range2 [] refss
  have hcore : runA (3 * mesh.cells.length + 8) (AscState.mk 0 none none none [] [] [])
      ([Tok.kw "MeshVersionFormatted", Tok.num v, Tok.nl,
        Tok.kw "Dimension", Tok.num ((mesh.points.headI.length : Nat) : ℚ), Tok.nl,
        Tok.nl, Tok.kw "Vertices", Tok.nl,
        Tok.num ((mesh.points.length : Nat) : ℚ), Tok.nl]
       ++ (mesh.points.zip prefs).flatMap (fun rl => vertexLineToks rl.1 rl.2)
       ++ (writeCellBlocksA (some "medit:ref") [("medit:ref", refss)] 0 mesh.cells).1
       ++ [Tok.nl, Tok.kw "End", Tok.nl])
      = .ok (⟨some mesh.points, mesh.cells.map (fun b => (b.type, b.data)),
          some prefs, refss⟩, []) := by
    simp only [List.cons_append, List.nil_append, List.append_assoc]
    rw [show 3 * mesh.cells.length + 8 = (3 * mesh.cells.length + 7) + 1 from by omega,
      runA_succ, stepA_MVF _ v dtv hv]
    dsimp only
    rw [show 3 * mesh.cells.length + 7 = (3 * mesh.cells.length + 6) + 1 from by omega,
      runA_succ, stepA_dimension _ mesh.points.headI.length hdim]
    dsimp only
    rw [show 3 * mesh.cells.length + 6 = (3 * mesh.cells.length + 5) + 1 from by omega,
      runA_succ, stepA_blank]
    dsimp only
    rw [show 3 * mesh.cells.length + 5 = (3 * mesh.cells.length + 4) + 1 from by omega,
      runA_succ]
    have hV := stepA_vertices
      (AscState.mk ((mesh.points.headI.length : Nat) : Int) (some dtv) none none [] [] [])
      mesh.points.headI.length dtv rfl
      (by rcases hdim with h | h <;> rw [h] <;> decide) rfl
      mesh.points prefs hpne hrows hprefs
      ((writeCellBlocksA (some "medit:ref") [("medit:ref", refss)] 0 mesh.cells).1
        ++ [Tok.nl, Tok.kw "End", Tok.nl])
    dsimp only at hV
    rw [hV]
    dsimp only
    have h2 := runA_writeCellBlocksA mesh.cells
      (AscState.mk ((mesh.points.headI.length : Nat) : Int) (some dtv)
        (some mesh.points) (some prefs) [] [] [])
      0 (some "medit:ref") [("medit:ref", refss)] hblocks hlabs 4
      [Tok.nl, Tok.kw "End", Tok.nl]
    dsimp only at h2
    simp only [List.nil_append] at h2
    rw [h2]
    rw [show (4 : Nat) = 3 + 1 from rfl, runA_succ, stepA_blank]
    dsimp only
    rw [show (3 : Nat) = 2 + 1 from rfl, runA_succ, stepA_blank]
    dsimp only
    rw [show (2 : Nat) = 1 + 1 from rfl, runA_succ, stepA_end]
    dsimp only
    rw [show (1 : Nat) = 0 + 1 from rfl, runA_succ, stepA_eof]
    dsimp only [finalizeA]
    rw [hfin1, hfin2]
  have hlen : 3 * mesh.cells.length + 8 ≤
      ((([Tok.kw "MeshVersionFormatted", Tok.num v, Tok.nl,
        Tok.kw "Dimension", Tok.num ((mesh.points.headI.length : Nat) : ℚ), Tok.nl,
        Tok.nl, Tok.kw "Vertices", Tok.nl,
        Tok.num ((mesh.points.length : Nat) : ℚ), Tok.nl]
       ++ (mesh.points.zip prefs).flatMap (fun rl => vertexLineToks rl.1 rl.2)
       ++ (writeCellBlocksA (some "medit:ref") [("medit:ref", refss)] 0 mesh.cells).1
       ++ [Tok.nl, Tok.kw "End", Tok.nl]) : List Tok)).length + 1 := by
    simp only [List.length_cons, List.length_append, List.length_nil]
    have hb := writeCellBlocksA_len_ge mesh.cells (some "medit:ref")
      [("medit:ref", refss)] 0 hreg
    omega
  have hne2 : runA (3 * mesh.cells.length + 8) (AscState.mk 0 none none none [] [] [])
      ([Tok.kw "MeshVersionFormatted", Tok.num v, Tok.nl,
        Tok.kw "Dimension", Tok.num ((mesh.points.headI.length : Nat) : ℚ), Tok.nl,
        Tok.nl, Tok.kw "Vertices", Tok.nl,
        Tok.num ((mesh.points.length : Nat) : ℚ), Tok.nl]
       ++ (mesh.points.zip prefs).flatMap (fun rl => vertexLineToks rl.1 rl.2)
       ++ (writeCellBlocksA (some "medit:ref") [("medit:ref", refss)] 0 mesh.cells).1
       ++ [Tok.nl, Tok.kw "End", Tok.nl])
      ≠ .error .outOfFuel := by
    rw [hcore]
    exact fun hx => Except.noConfusion hx
  rw [read_ascii_buffer, runA_mono _ _ _ hne2 _ hlen, hcore]

theorem writeCellBlocksA_warns : ∀ (cells : List CellBlock) (lk : Option String)
    (cd : List (String × List (List Int))) (k : Nat),
    (∀ b ∈ cells, (List.lookup b.type DICT_MESHIO).isSome) →
    (writeCellBlocksA lk cd k cells).2 = [] := by
  intro cells
  induction cells with
  | nil => intro lk cd k _; rfl
  | cons b rest ih =>
    intro lk cd k hreg
    rw [writeCellBlocksA]
    cases hl : List.lookup b.type DICT_MESHIO with
    | none =>
      have := hreg b (List.mem_cons_self _ _)
      rw [hl] at this
      cases this
    | some e =>
      obtain ⟨nm, npe, tag⟩ := e
      dsimp only
      exact ih lk cd (k + 1) (fun b2 hb2 => hreg b2 (List.mem_cons_of_mem _ hb2))

/-- ASCII round-trip of `write_ascii_file` / `read_ascii_buffer` for both point
precisions. -/
theorem ascii_roundtrip (mesh : Mesh) (prefs : List Int) (refss : List (List Int))
    (hprec : mesh.prec = 4 ∨ mesh.prec = 8)
    (hpne : mesh.points ≠ [])
    (hdim : mesh.points.headI.length = 2 ∨ mesh.points.headI.length = 3)
    (hrows : ∀ p ∈ mesh.points, p.length = mesh.points.headI.length)
    (hpd : mesh.point_data = [("medit:ref", prefs)])
    (hprefs : prefs.length = mesh.points.length)
    (hcd : mesh.cell_data = [("medit:ref", refss)])
    (hrefss : refss.length = mesh.cells.length)
    (hreflen : ∀ j, j < mesh.cells.length →
      (refss.getD j []).length = (mesh.cells.getD j default).data.length)
    (hblocks : ∀ b ∈ mesh.cells, ∃ e : DictEntry,
      List.lookup b.type DICT_MESHIO = some e ∧ b.type ≠ "point" ∧ b.data ≠ [] ∧
      ∀ r ∈ b.data, r.length = e.2.1) :
    ∃ toks : List Tok, write_ascii_file mesh = .ok (toks, [])
      ∧ read_ascii_buffer toks
        = .ok (⟨some mesh.points, mesh.cells.map (fun b => (b.type, b.data)),
            some prefs, refss⟩, []) := by
  have hlookp : List.lookup "medit:ref" [("medit:ref", prefs)] = some prefs := by
    simp [List.lookup]
  have hreg : ∀ b ∈ mesh.cells, (List.lookup b.type DICT_MESHIO).isSome := by
    intro b hb
    obtain ⟨e, he, -, -, -⟩ := hblocks b hb
    rw [he]
    rfl
  have hwarns := writeCellBlocksA_warns mesh.cells (some "medit:ref")
    [("medit:ref", refss)] 0 hreg
  rcases hprec with hp | hp
  · have hw : write_ascii_file mesh
        = .ok ([Tok.kw "MeshVersionFormatted", Tok.num 1, Tok.nl,
            Tok.kw "Dimension", Tok.num ((mesh.points.headI.length : Nat) : ℚ), Tok.nl,
            Tok.nl, Tok.kw "Vertices", Tok.nl,
            Tok.num ((mesh.points.length : Nat) : ℚ), Tok.nl]
          ++ (mesh.points.zip prefs).flatMap (fun rl => vertexLineToks rl.1 rl.2)
          ++ (writeCellBlocksA (some "medit:ref") [("medit:ref", refss)] 0 mesh.cells).1
          ++ [Tok.nl, Tok.kw "End", Tok.nl], []) := by
      simp only [write_ascii_file, hp, hpd, hcd, _pick_first_int_data]
      rw [hlookp]
      simp only [Option.getD_some]
      simp only [if_true, if_false, List.map_nil]
      try dsimp only
      rw [hwarns]
      rfl
    exact ⟨_, hw, ascii_read_core mesh prefs refss 1 4 (Or.inl ⟨rfl, rfl⟩)
        hpne hdim hrows hprefs hrefss hreflen hblocks⟩
  · have hw : write_ascii_file mesh
        = .ok ([Tok.kw "MeshVersionFormatted", Tok.num 2, Tok.nl,
            Tok.kw "Dimension", Tok.num ((mesh.points.headI.length : Nat) : ℚ), Tok.nl,
            Tok.nl, Tok.kw "Vertices", Tok.nl,
            Tok.num ((mesh.points.length : Nat) : ℚ), Tok.nl]
          ++ (mesh.points.zip prefs).flatMap (fun rl => vertexLineToks rl.1 rl.2)
          ++ (writeCellBlocksA (some "medit:ref") [("medit:ref", refss)] 0 mesh.cells).1
          ++ [Tok.nl, Tok.kw "End", Tok.nl], []) := by
      simp only [write_ascii_file, hp, hpd, hcd, _pick_first_int_data]
      rw [hlookp]
      simp only [Option.getD_some]
      simp only [if_true, if_false, List.map_nil]
      try dsimp only
      rw [hwarns]
      rfl
    exact ⟨_, hw, ascii_read_core mesh prefs refss 2 8 (Or.inr ⟨rfl, rfl⟩)
        hpne hdim hrows hprefs hrefss hreflen hblocks⟩

/-- C1: round-trip.  For a mesh container with points (nonempty, of uniform
dimension 2 or 3), one or more element blocks of registered non-point types with
nonempty well-shaped connectivity, and per-point / per-element integer reference
arrays of matching lengths, writing and reading back reproduces the identical
point coordinates, the identical zero-based connectivity and the identical
reference labels, for the ASCII encoding (both the single- and the
double-precision version line) and for the binary encoding (both the version-3
and the version-4 width regime). -/
theorem C1_roundtrip (mesh : Mesh) (prefs : List Int) (refss : List (List Int))
    (hprec : mesh.prec = 4 ∨ mesh.prec = 8)
    (hpne : mesh.points ≠ [])
    (hdim : mesh.points.headI.length = 2 ∨ mesh.points.headI.length = 3)
    (hrows : ∀ p ∈ mesh.points, p.length = mesh.points.headI.length)
    (hpd : mesh.point_data = [("medit:ref", prefs)])
    (hprefs : prefs.length = mesh.points.length)
    (hcd : mesh.cell_data = [("medit:ref", refss)])
    (hrefss : refss.length = mesh.cells.length)
    (hreflen : ∀ j, j < mesh.cells.length →
      (refss.getD j []).length = (mesh.cells.getD j default).data.length)
    (hblocks : ∀ b ∈ mesh.cells, ∃ e : DictEntry,
      List.lookup b.type DICT_MESHIO = some e ∧ b.type ≠ "point" ∧ b.data ≠ [] ∧
      ∀ r ∈ b.data, r.length = e.2.1) :
    (∃ toks : List Tok, write_ascii_file mesh = .ok (toks, [])
      ∧ read_ascii_buffer toks
        = .ok (⟨some mesh.points, mesh.cells.map (fun b => (b.type, b.data)),
            some prefs, refss⟩, []))
    ∧ read_binary_buffer (write_binary_file mesh).1
        = .ok (⟨some mesh.points, mesh.cells.map (fun b => (b.type, b.data)),
            some prefs, refss⟩, []) := by
  refine ⟨ascii_roundtrip mesh prefs refss hprec hpne hdim hrows hpd hprefs hcd
    hrefss hreflen hblocks, ?_⟩
  refine binary_roundtrip mesh prefs refss hdim hrows hpd hprefs hcd hrefss hreflen ?_
  intro b hb
  obtain ⟨e, he, hpt, -, hr⟩ := hblocks b hb
  exact ⟨e, he, hpt, hr⟩

/-- C1 witness: the round-trip theorem applied to a concrete two-point,
one-triangle mesh. -/
theorem C1_roundtrip_witness :
    (∃ toks : List Tok,
      write_ascii_file (Mesh.mk [[1, 2], [3, 4]] 4 [CellBlock.mk "triangle" [[0, 1, 1]] 4]
          [("medit:ref", [7, 8])] [("medit:ref", [[5]])]) = .ok (toks, [])
      ∧ read_ascii_buffer toks
        = .ok (⟨some [[1, 2], [3, 4]], [("triangle", [[0, 1, 1]])], some [7, 8], [[5]]⟩, []))
    ∧ read_binary_buffer (write_binary_file
        (Mesh.mk [[1, 2], [3, 4]] 4 [CellBlock.mk "triangle" [[0, 1, 1]] 4]
          [("medit:ref", [7, 8])] [("medit:ref", [[5]])])).1
      = .ok (⟨some [[1, 2], [3, 4]], [("triangle", [[0, 1, 1]])], some [7, 8], [[5]]⟩, []) :=
  C1_roundtrip
    (Mesh.mk [[1, 2], [3, 4]] 4 [CellBlock.mk "triangle" [[0, 1, 1]] 4]
      [("medit:ref", [7, 8])] [("medit:ref", [[5]])])
    [7, 8] [[5]]
    (by decide) (by decide) (by decide) (by decide) (by decide) (by decide)
    (by decide) (by decide)
    (by
      intro j hj
      simp only [List.length_cons, List.length_nil] at hj
      have hj0 : j = 0 := by omega
      subst hj0
      decide)
    (by
      intro b hb
      rw [List.mem_singleton] at hb
      subst hb
      exact ⟨("Triangles", 3, 6), by decide, by decide, by decide, by decide⟩)
